import Mathlib

/-!
# libjpeg-ruby: `ext/jpeg/jpeg.c`

A shallow embedding of the C functions that walk the Exif payload of an APP1
marker, of the geometric transforms applied for an orientation, of the row
conversion of the encoder, and of the option evaluators of the encoder and the
decoder.  Conventions of the embedding:

* the marker payload (`marker->data`, `marker->data_length` bytes) is a
  `List Byte`; a C pointer into it is the index of the byte it points at;
* every dereference goes through `load`, which yields `Fault.oob i` when the
  index `i` is not an index of the array read (the C program reads foreign
  memory there);
* `rb_raise` is `Fault.raise`; a recursion that exceeds the given depth is
  `Fault.nofuel`;
* `uint16_t`/`uint32_t`/`size_t` values are `Nat` with the explicit modulus
  where the C arithmetic can wrap, `int` values are `Int`;
* `VALUE` is the Ruby object the C code builds (LP64: a Fixnum holds every
  32-bit quantity, so `INT2FIX` keeps the number).
-/

namespace Jpeg

/-! ## Bytes, faults, Ruby values -/

abbrev Byte := Fin 256

/-- Exception classes the extension raises. -/
inductive Klass where
  | decerr_klass
  | encerr_klass
  | rb_eRangeError
  | rb_eTypeError
  | rb_eArgError
  | rb_eNotImpError
  | rb_eRuntimeError
  deriving DecidableEq, Repr

/-- Ways a run ends without returning. -/
inductive Fault where
  | raise (klass : Klass) (msg : String)
  | oob (idx : Int)
  | nofuel
  deriving DecidableEq, Repr

/-- Ruby objects built by the reader. -/
inductive VALUE where
  | Qnil
  | fixnum (v : Int)
  | symbol (name : String)
  | utf8 (bytes : List Byte)
  | binary (bytes : List Byte)
  | rational (num den : Int)
  | ary (elems : List VALUE)
  | hash (pairs : List (VALUE × VALUE))

/-- Dereference of `src + i`. -/
def load (src : List Byte) (i : Nat) : Except Fault Nat :=
  match src[i]? with
  | some b => .ok b.val
  | none => .error (.oob i)

/-- Bytes `p[0..n)`, as `rb_str_new` and `memcmp` read them. -/
def load_bytes (src : List Byte) (p : Nat) : Nat → Except Fault (List Byte)
  | 0 => .ok []
  | n + 1 =>
    match src[p]? with
    | some b => (load_bytes src (p + 1) n).map (fun bs => b :: bs)
    | none => .error (.oob p)

/-- The test `!memcmp(src + p, lit, lit.length)`. -/
def memcmp_eq (src : List Byte) (p : Nat) (lit : List Byte) : Except Fault Bool :=
  (load_bytes src p lit.length).map (fun bs => decide (bs = lit))

/-! ## Integer readers (`get_u16`, `get_u32`, `get_s32`) -/

def get_u16 (src : List Byte) (p : Nat) (be : Bool) : Except Fault Nat := do
  let s0 ← load src p
  let s1 ← load src (p + 1)
  if be then
    pure (((s0 <<< 8) &&& 0xff00) ||| ((s1 <<< 0) &&& 0x00ff))
  else
    pure (((s1 <<< 8) &&& 0xff00) ||| ((s0 <<< 0) &&& 0x00ff))

def get_u32 (src : List Byte) (p : Nat) (be : Bool) : Except Fault Nat := do
  let s0 ← load src p
  let s1 ← load src (p + 1)
  let s2 ← load src (p + 2)
  let s3 ← load src (p + 3)
  if be then
    pure (((s0 <<< 24) &&& 0xff000000) ||| ((s1 <<< 16) &&& 0x00ff0000) |||
          ((s2 <<< 8) &&& 0x0000ff00) ||| ((s3 <<< 0) &&& 0x000000ff))
  else
    pure (((s3 <<< 24) &&& 0xff000000) ||| ((s2 <<< 16) &&& 0x00ff0000) |||
          ((s1 <<< 8) &&& 0x0000ff00) ||| ((s0 <<< 0) &&& 0x000000ff))

/-- Conversion of a 32-bit pattern to `int32_t` / `int`. -/
def to_int32 (u : Nat) : Int :=
  if u % 2 ^ 32 < 2 ^ 31 then (u % 2 ^ 32 : Nat) else ((u % 2 ^ 32 : Nat) : Int) - 2 ^ 32

/-- Conversion of an `int32_t` to `uint32_t`. -/
def to_uint32 (i : Int) : Nat := (i % 2 ^ 32).toNat

/-- The function `get_s32`: the same bit pattern as `get_u32`, returned as `int32_t`. -/
def get_s32 (src : List Byte) (p : Nat) (be : Bool) : Except Fault Int := do
  let u ← get_u32 src p be
  pure (to_int32 u)

/-! ## Tag tables -/

structure tag_entry_t where
  tag : Int
  name : Option String
  deriving DecidableEq, Repr

/-- The reader's context `exif_t`; `head` and `cur` are indices into the payload. -/
structure exif_t where
  be : Bool
  head : Nat
  cur : Nat
  size : Nat
  tags : List tag_entry_t
  next : Bool
  deriving DecidableEq, Repr

def tag_tiff : List tag_entry_t := [
  ⟨0x0100, some "image_width"⟩,
  ⟨0x0101, some "image_length"⟩,
  ⟨0x0102, some "bits_per_sample"⟩,
  ⟨0x0103, some "compression"⟩,
  ⟨0x0106, some "photometric_interpretation"⟩,
  ⟨0x010e, some "image_description"⟩,
  ⟨0x010f, some "maker"⟩,
  ⟨0x0110, some "model"⟩,
  ⟨0x0111, some "strip_offsets"⟩,
  ⟨0x0112, some "orientation"⟩,
  ⟨0x0115, some "sample_per_pixel"⟩,
  ⟨0x0116, some "rows_per_strip"⟩,
  ⟨0x0117, some "strip_byte_counts"⟩,
  ⟨0x011a, some "x_resolution"⟩,
  ⟨0x011b, some "y_resolution"⟩,
  ⟨0x011c, some "planer_configuration"⟩,
  ⟨0x0128, some "resolution_unit"⟩,
  ⟨0x012d, some "transfer_function"⟩,
  ⟨0x0131, some "software"⟩,
  ⟨0x0132, some "date_time"⟩,
  ⟨0x013b, some "artist"⟩,
  ⟨0x013e, some "white_point"⟩,
  ⟨0x013f, some "primary_chromaticities"⟩,
  ⟨0x0201, some "jpeg_interchange_format"⟩,
  ⟨0x0202, some "jpeg_interchange_format_length"⟩,
  ⟨0x0211, some "ycbcr_coefficients"⟩,
  ⟨0x0212, some "ycbcr_sub_sampling"⟩,
  ⟨0x0213, some "ycbcr_positioning"⟩,
  ⟨0x0214, some "reference_black_white"⟩,
  ⟨0x0d68, some "copyright"⟩,
  ⟨0x8298, some "copyright"⟩,
  ⟨0x8769, none⟩,
  ⟨0x8825, none⟩,
  ⟨0xc4a5, some "print_im"⟩]

def tag_exif : List tag_entry_t := [
  ⟨0x829a, some "exposure_time"⟩,
  ⟨0x829d, some "f_number"⟩,
  ⟨0x8822, some "exposure_program"⟩,
  ⟨0x8824, some "spectral_sensitivity"⟩,
  ⟨0x8827, some "iso_speed_ratings"⟩,
  ⟨0x8828, some "oecf"⟩,
  ⟨0x882a, some "time_zone_offset"⟩,
  ⟨0x882b, some "self_timer_mode"⟩,
  ⟨0x8830, some "sensitivity_type"⟩,
  ⟨0x8831, some "standard_output_sensitivity"⟩,
  ⟨0x8832, some "recommended_exposure_index"⟩,
  ⟨0x9000, some "exif_version"⟩,
  ⟨0x9003, some "data_time_original"⟩,
  ⟨0x9004, some "data_time_digitized"⟩,
  ⟨0x9010, some "offset_time"⟩,
  ⟨0x9011, some "offset_time_original"⟩,
  ⟨0x9012, some "offset_time_digitized"⟩,
  ⟨0x9101, some "color_space"⟩,
  ⟨0x9102, some "components_configuration"⟩,
  ⟨0x9201, some "shutter_speed_value"⟩,
  ⟨0x9202, some "apertutre_value"⟩,
  ⟨0x9203, some "brightness_value"⟩,
  ⟨0x9204, some "exposure_bias_value"⟩,
  ⟨0x9205, some "max_aperture_value"⟩,
  ⟨0x9206, some "subject_distance"⟩,
  ⟨0x9207, some "metering_mode"⟩,
  ⟨0x9208, some "light_source"⟩,
  ⟨0x9209, some "flash"⟩,
  ⟨0x920a, some "focal_length"⟩,
  ⟨0x927c, some "marker_note"⟩,
  ⟨0x9286, some "user_comment"⟩,
  ⟨0x9290, some "sub_sec_time"⟩,
  ⟨0x9291, some "sub_sec_time_original"⟩,
  ⟨0x9292, some "sub_sec_time_digitized"⟩,
  ⟨0xa000, some "flash_pix_version"⟩,
  ⟨0xa001, some "color_space"⟩,
  ⟨0xa002, some "pixel_x_dimension"⟩,
  ⟨0xa003, some "pixel_y_dimension"⟩,
  ⟨0xa004, some "related_sound_file"⟩,
  ⟨0xa005, none⟩,
  ⟨0xa20b, some "flash_energy"⟩,
  ⟨0xa20b, some "flash_energy"⟩,
  ⟨0xa20c, some "spatial_frequency_response"⟩,
  ⟨0xa20e, some "focal_panel_x_resolution"⟩,
  ⟨0xa20f, some "focal_panel_y_resolution"⟩,
  ⟨0xa210, some "focal_panel_resolution_unit"⟩,
  ⟨0xa214, some "subject_location"⟩,
  ⟨0xa215, some "exposure_index"⟩,
  ⟨0xa217, some "sensing_method"⟩,
  ⟨0xa300, some "file_source"⟩,
  ⟨0xa301, some "scene_type"⟩,
  ⟨0xa302, some "cfa_pattern"⟩,
  ⟨0xa401, some "custom_rendered"⟩,
  ⟨0xa402, some "exposure_mode"⟩,
  ⟨0xa403, some "white_balance"⟩,
  ⟨0xa404, some "digital_zoom_ratio"⟩,
  ⟨0xa405, some "focal_length_in_35mm_film"⟩,
  ⟨0xa406, some "scene_capture_type"⟩,
  ⟨0xa407, some "gain_control"⟩,
  ⟨0xa408, some "contrast"⟩,
  ⟨0xa409, some "sturation"⟩,
  ⟨0xa40a, some "sharpness"⟩,
  ⟨0xa40b, some "device_setting_description"⟩,
  ⟨0xa40c, some "subject_distance_range"⟩,
  ⟨0xa420, some "image_unique_id"⟩,
  ⟨0xa430, some "owner_name"⟩,
  ⟨0xa431, some "serial_number"⟩,
  ⟨0xa432, some "lens_info"⟩,
  ⟨0xa433, some "lens_make"⟩,
  ⟨0xa434, some "lens_model"⟩,
  ⟨0xa435, some "lens_serial_number"⟩]

def tag_gps : List tag_entry_t := [
  ⟨0x0000, some "version_id"⟩,
  ⟨0x0001, some "latitude_ref"⟩,
  ⟨0x0002, some "latitude"⟩,
  ⟨0x0003, some "longitude_ref"⟩,
  ⟨0x0004, some "longitude"⟩,
  ⟨0x0005, some "altitude_ref"⟩,
  ⟨0x0006, some "altitude"⟩,
  ⟨0x0007, some "timestamp"⟩,
  ⟨0x0008, some "satellites"⟩,
  ⟨0x0009, some "status"⟩,
  ⟨0x000a, some "measure_mode"⟩,
  ⟨0x000b, some "dop"⟩,
  ⟨0x000c, some "speed_ref"⟩,
  ⟨0x000d, some "speed"⟩,
  ⟨0x000e, some "track_ref"⟩,
  ⟨0x000f, some "track"⟩,
  ⟨0x0010, some "img_direction_ref"⟩,
  ⟨0x0011, some "img_direction"⟩,
  ⟨0x0012, some "map_datum"⟩,
  ⟨0x0013, some "dest_latitude_ref"⟩,
  ⟨0x0014, some "dest_latitude"⟩,
  ⟨0x0015, some "dest_longitude_ref"⟩,
  ⟨0x0016, some "dest_longitude"⟩,
  ⟨0x0017, some "bearing_ref"⟩,
  ⟨0x0018, some "bearing"⟩,
  ⟨0x0019, some "dest_distance_ref"⟩,
  ⟨0x001a, some "dest_distance"⟩,
  ⟨0x001b, some "processing_method"⟩,
  ⟨0x001c, some "area_infotmation"⟩,
  ⟨0x001d, some "date_stamp"⟩,
  ⟨0x001e, some "differential"⟩]

def tag_i14y : List tag_entry_t := [
  ⟨0x0001, some "interoperability_index"⟩,
  ⟨0x0002, some "interoperability_version"⟩,
  ⟨0x1000, some "related_image_file_format"⟩,
  ⟨0x1001, some "related_image_width"⟩]

deriving instance DecidableEq for Except

/-- Bytes `[p, p+n)` of the payload. -/
def bytes_at (src : List Byte) (p n : Nat) : List Byte := (src.drop p).take n

/-- Value of a byte string read most significant byte first. -/
def be_nat (bs : List Byte) : Nat := bs.foldl (fun acc b => acc * 256 + b.val) 0

/-- Value of a byte string read least significant byte first. -/
def le_nat : List Byte → Nat
  | [] => 0
  | b :: bs => b.val + 256 * le_nat bs

/-- Value of a byte string in the document byte order. -/
def tiff_nat (be : Bool) (bs : List Byte) : Nat := if be then be_nat bs else le_nat bs

/-! ## `exif_init` -/

/-- The literal `"Exif\0\0"`. -/
def exif_ident : List Byte := [0x45, 0x78, 0x69, 0x66, 0x00, 0x00]

/-- The literal `"MM"`. -/
def mark_MM : List Byte := [0x4d, 0x4d]

/-- The literal `"II"`. -/
def mark_II : List Byte := [0x49, 0x49]

/-- Subtraction in `size_t` (64 bits). -/
def sub_size_t (a b : Nat) : Nat := (a % 2 ^ 64 + 2 ^ 64 - b % 2 ^ 64) % 2 ^ 64

/-- Addition in `unsigned int` / `uint32_t`. -/
def add_u32 (a b : Nat) : Nat := (a + b) % 2 ^ 32

/-- Subtraction in `unsigned int` / `uint32_t`. -/
def sub_u32 (a b : Nat) : Nat := (a % 2 ^ 32 + 2 ^ 32 - b % 2 ^ 32) % 2 ^ 32

/-- The function `exif_init(ptr, src, size)`; `src` is index 0 of the payload. -/
def exif_init (src : List Byte) (size : Nat) : Except Fault exif_t := do
  let id_ok ← memcmp_eq src 0 exif_ident
  if !id_ok then
    throw (.raise .decerr_klass "invalid exif identifier")
  let is_mm ← memcmp_eq src 6 mark_MM
  let be ←
    if is_mm then pure true
    else do
      let is_ii ← memcmp_eq src 6 mark_II
      if is_ii then pure false
      else throw (.raise .decerr_klass "invalid tiff header")
  let ident ← get_u16 src 8 be
  if ident ≠ 0x002a then
    throw (.raise .decerr_klass "invalid tiff identifier")
  let off ← get_u32 src 10 be
  if off < 8 ∨ off ≥ sub_size_t size 6 then
    throw (.raise .decerr_klass "invalid offset dentifier")
  pure { be := be, head := 6, cur := 6 + off, size := sub_size_t size (add_u32 6 off),
         tags := tag_tiff, next := false }

/-- A 15-byte payload: little-endian header, first directory at offset 8. -/
def blob_ii_15 : List Byte :=
  [0x45, 0x78, 0x69, 0x66, 0x00, 0x00, 0x49, 0x49, 0x2a, 0x00, 0x08, 0x00, 0x00, 0x00, 0x00]


/-! ## `lookup_tag_symbol` -/

/-- One lower-case hexadecimal digit. -/
def hex_digit (d : Nat) : Char :=
  if d < 10 then Char.ofNat (48 + d) else Char.ofNat (87 + d)

/-- Hexadecimal digits of `n`, most significant first (at most `fuel` of them). -/
def hex_digits : Nat → Nat → List Char
  | 0, _ => []
  | fuel + 1, n =>
    if n < 16 then [hex_digit n] else hex_digits fuel (n / 16) ++ [hex_digit (n % 16)]

/-- The conversion `%04x` of `sprintf`: the `int` argument taken as `unsigned int`,
written in lower-case hexadecimal and padded with `0` to at least 4 characters. -/
def sprintf_04x (tag : Int) : List Char :=
  let ds := hex_digits 8 (to_uint32 tag)
  List.replicate (4 - ds.length) '0' ++ ds

/-- The call `ID2SYM(rb_intern(name))`. -/
def ID2SYM (name : String) : VALUE := .symbol name

/-- The `while (r >= l)` loop of `lookup_tag_symbol`; `none` is `Qundef`. -/
def lookup_loop (tbl : List tag_entry_t) (tag : Int) :
    Nat → Int → Int → Except Fault (Option VALUE)
  | 0, _, _ => .error .nofuel
  | fuel + 1, l, r =>
    if r ≥ l then
      let i := (l + r).tdiv 2
      match tbl[i.toNat]? with
      | none => .error (.oob i)
      | some p =>
        if p.tag < tag then lookup_loop tbl tag fuel (i + 1) r
        else if p.tag > tag then lookup_loop tbl tag fuel l (i - 1)
        else
          match p.name with
          | some name => .ok (some (ID2SYM name))
          | none => .ok (some .Qnil)
    else .ok none

/-- The function `lookup_tag_symbol(tbl, n, tag)`. -/
def lookup_tag_symbol (tbl : List tag_entry_t) (n : Nat) (tag : Int) :
    Except Fault VALUE := do
  let ret ← lookup_loop tbl tag (n + 1) 0 ((n : Int) - 1)
  match ret with
  | some v => pure v
  | none => pure (ID2SYM (String.mk ("tag_".toList ++ sprintf_04x tag)))

/-! ## Value decoders (`exif_fetch_*_data`) -/

/-- The macro `INT2FIX`. -/
def INT2FIX (i : Int) : VALUE := .fixnum i

/-- The call `rb_rational_new(INT2FIX(num), INT2FIX(deno))`, kept as the pair of its
arguments; what Ruby makes of the pair (lowest terms, a zero denominator) is not part of
the extension. -/
def rb_rational_new (num deno : Int) : VALUE := .rational num deno

/-- Number of rounds of `for (i = 0; i < (int)n; i++)`. -/
def loop_count (n : Nat) : Nat := (to_int32 n).toNat

/-- The loop pushing `INT2FIX(p[i])`. -/
def push_bytes (src : List Byte) : Nat → Nat → Except Fault (List VALUE)
  | 0, _ => pure []
  | k + 1, p => do
    let v ← load src p
    let rest ← push_bytes src k (p + 1)
    pure (INT2FIX v :: rest)

/-- The loop pushing `INT2FIX(get_u16(p, be))` with `p += 2`. -/
def push_shorts (src : List Byte) (be : Bool) : Nat → Nat → Except Fault (List VALUE)
  | 0, _ => pure []
  | k + 1, p => do
    let v ← get_u16 src p be
    let rest ← push_shorts src be k (p + 2)
    pure (INT2FIX v :: rest)

/-- The loop pushing `INT2FIX(get_u32(p, be))` with `p += 4`. -/
def push_longs (src : List Byte) (be : Bool) : Nat → Nat → Except Fault (List VALUE)
  | 0, _ => pure []
  | k + 1, p => do
    let v ← get_u32 src p be
    let rest ← push_longs src be k (p + 4)
    pure (INT2FIX v :: rest)

/-- The loop pushing `INT2FIX(get_s32(p, be))` with `p += 4`. -/
def push_slongs (src : List Byte) (be : Bool) : Nat → Nat → Except Fault (List VALUE)
  | 0, _ => pure []
  | k + 1, p => do
    let v ← get_s32 src p be
    let rest ← push_slongs src be k (p + 4)
    pure (INT2FIX v :: rest)

/-- One rational of `exif_fetch_rational_data`: two `get_u32`, zero over zero made 0/1. -/
def fetch_rational (src : List Byte) (be : Bool) (p : Nat) : Except Fault VALUE := do
  let num ← get_u32 src p be
  let deno ← get_u32 src (p + 4) be
  let deno := if num = 0 ∧ deno = 0 then 1 else deno
  pure (rb_rational_new num deno)

/-- One rational of `exif_fetch_srational_data`: two `get_s32` stored in the
`uint32_t` locals `num` and `deno`, zero over zero made 0/1. -/
def fetch_srational (src : List Byte) (be : Bool) (p : Nat) : Except Fault VALUE := do
  let num := to_uint32 (← get_s32 src p be)
  let deno := to_uint32 (← get_s32 src (p + 4) be)
  let deno := if num = 0 ∧ deno = 0 then 1 else deno
  pure (rb_rational_new num deno)

/-- The loop pushing rationals with `p += 8`. -/
def push_rationals (src : List Byte) (be : Bool) : Nat → Nat → Except Fault (List VALUE)
  | 0, _ => pure []
  | k + 1, p => do
    let v ← fetch_rational src be p
    let rest ← push_rationals src be k (p + 8)
    pure (v :: rest)

/-- The loop pushing signed rationals with `p += 8`. -/
def push_srationals (src : List Byte) (be : Bool) : Nat → Nat → Except Fault (List VALUE)
  | 0, _ => pure []
  | k + 1, p => do
    let v ← fetch_srational src be p
    let rest ← push_srationals src be k (p + 8)
    pure (v :: rest)

def exif_fetch_byte_data (src : List Byte) (ptr : exif_t) : Except Fault VALUE := do
  let n ← get_u32 src (ptr.cur + 4) ptr.be
  let p := ptr.cur + 8
  if n = 0 then pure .Qnil
  else if n = 1 then do
    let v ← load src p
    pure (INT2FIX v)
  else if n = 2 ∨ n = 3 ∨ n = 4 then do
    let elems ← push_bytes src (loop_count n) p
    pure (.ary elems)
  else do
    let off ← get_u32 src p ptr.be
    let elems ← push_bytes src (loop_count n) (ptr.head + off)
    pure (.ary elems)

/-- Bytes removed at both ends by `String#strip!`: NUL, TAB, LF, VT, FF, CR, space. -/
def is_strip_byte (b : Byte) : Bool :=
  b.val = 0 ∨ b.val = 9 ∨ b.val = 10 ∨ b.val = 11 ∨ b.val = 12 ∨ b.val = 13 ∨ b.val = 32

/-- The call `rb_funcall(obj, rb_intern("strip!"), 0)` on the bytes of the string:
leading and trailing NUL and white-space bytes are dropped (Ruby's own check of the
encoding of the text is not part of the extension). -/
def strip_bang (bs : List Byte) : List Byte :=
  ((bs.dropWhile is_strip_byte).reverse.dropWhile is_strip_byte).reverse

def exif_fetch_ascii_data (src : List Byte) (ptr : exif_t) : Except Fault VALUE := do
  let n ← get_u32 src (ptr.cur + 4) ptr.be
  let p := ptr.cur + 8
  let p ← if n > 4 then do
      let off ← get_u32 src p ptr.be
      pure (ptr.head + off)
    else pure p
  let bytes ← load_bytes src p n
  pure (.utf8 (strip_bang bytes))

def exif_fetch_short_data (src : List Byte) (ptr : exif_t) : Except Fault VALUE := do
  let n ← get_u32 src (ptr.cur + 4) ptr.be
  let p := ptr.cur + 8
  if n = 0 then pure .Qnil
  else if n = 1 then do
    let v ← get_u16 src p ptr.be
    pure (INT2FIX v)
  else if n = 2 then do
    let elems ← push_shorts src ptr.be (loop_count n) p
    pure (.ary elems)
  else do
    let off ← get_u32 src p ptr.be
    let elems ← push_shorts src ptr.be (loop_count n) (ptr.head + off)
    pure (.ary elems)

def exif_fetch_long_data (src : List Byte) (ptr : exif_t) : Except Fault VALUE := do
  let n ← get_u32 src (ptr.cur + 4) ptr.be
  let p := ptr.cur + 8
  if n = 0 then pure .Qnil
  else if n = 1 then do
    let v ← get_u32 src p ptr.be
    pure (INT2FIX v)
  else do
    let off ← get_u32 src p ptr.be
    let elems ← push_longs src ptr.be (loop_count n) (ptr.head + off)
    pure (.ary elems)

def exif_fetch_rational_data (src : List Byte) (ptr : exif_t) : Except Fault VALUE := do
  let n ← get_u32 src (ptr.cur + 4) ptr.be
  let off ← get_u32 src (ptr.cur + 8) ptr.be
  let p := ptr.head + off
  if n = 0 then pure .Qnil
  else if n = 1 then fetch_rational src ptr.be p
  else do
    let elems ← push_rationals src ptr.be (loop_count n) p
    pure (.ary elems)

def exif_fetch_undefined_data (src : List Byte) (ptr : exif_t) : Except Fault VALUE := do
  let n ← get_u32 src (ptr.cur + 4) ptr.be
  let p := ptr.cur + 8
  let p ← if n > 4 then do
      let off ← get_u32 src p ptr.be
      pure (ptr.head + off)
    else pure p
  let bytes ← load_bytes src p n
  pure (.binary bytes)

def exif_fetch_slong_data (src : List Byte) (ptr : exif_t) : Except Fault VALUE := do
  let n ← get_u32 src (ptr.cur + 4) ptr.be
  let p := ptr.cur + 8
  if n = 0 then pure .Qnil
  else if n = 1 then do
    let v ← get_s32 src p ptr.be
    pure (INT2FIX v)
  else do
    let off ← get_u32 src p ptr.be
    let elems ← push_slongs src ptr.be (loop_count n) (ptr.head + off)
    pure (.ary elems)

def exif_fetch_srational_data (src : List Byte) (ptr : exif_t) : Except Fault VALUE := do
  let n ← get_u32 src (ptr.cur + 4) ptr.be
  let off ← get_u32 src (ptr.cur + 8) ptr.be
  let p := ptr.head + off
  if n = 0 then pure .Qnil
  else if n = 1 then fetch_srational src ptr.be p
  else do
    let elems ← push_srationals src ptr.be (loop_count n) p
    pure (.ary elems)

/-! ## `exif_read`, `create_exif_tags_hash`, `pick_exif_orientation` -/

/-- Key identity of `rb_hash_aset` on the keys the reader uses (symbols, nil). -/
def key_eql : VALUE → VALUE → Bool
  | .Qnil, .Qnil => true
  | .symbol a, .symbol b => a == b
  | .fixnum a, .fixnum b => a == b
  | _, _ => false

/-- The call `rb_hash_aset(hash, key, val)` on the ordered pairs of the hash. -/
def rb_hash_aset : List (VALUE × VALUE) → VALUE → VALUE → List (VALUE × VALUE)
  | [], key, val => [(key, val)]
  | (k, v) :: rest, key, val =>
    if key_eql k key then (k, val) :: rest else (k, v) :: rb_hash_aset rest key val

/-- The call `rb_hash_lookup(hash, key)`. -/
def rb_hash_lookup : List (VALUE × VALUE) → VALUE → VALUE
  | [], _ => .Qnil
  | (k, v) :: rest, key => if key_eql k key then v else rb_hash_lookup rest key

def exif_increase (ptr : exif_t) (size : Nat) : exif_t :=
  { ptr with cur := ptr.cur + size, size := sub_size_t ptr.size size }

def exif_fetch_tag_header (src : List Byte) (ptr : exif_t) : Except Fault (Nat × Nat) := do
  let tag ← get_u16 src (ptr.cur + 0) ptr.be
  let type ← get_u16 src (ptr.cur + 2) ptr.be
  pure (tag, type)

def exif_fetch_child_ifd (src : List Byte) (ptr : exif_t) (tbl : List tag_entry_t) :
    Except Fault exif_t := do
  let off ← get_u32 src (ptr.cur + 8) ptr.be
  pure { be := ptr.be, head := ptr.head, cur := ptr.head + off,
         size := sub_size_t ptr.size off, tags := tbl, next := false }

/-- The inner `switch (type)` of `exif_read`. -/
def exif_fetch_data (src : List Byte) (ptr : exif_t) (type : Nat) : Except Fault VALUE :=
  if type = 1 then exif_fetch_byte_data src ptr
  else if type = 2 then exif_fetch_ascii_data src ptr
  else if type = 3 then exif_fetch_short_data src ptr
  else if type = 4 then exif_fetch_long_data src ptr
  else if type = 5 then exif_fetch_rational_data src ptr
  else if type = 7 then exif_fetch_undefined_data src ptr
  else if type = 9 then exif_fetch_slong_data src ptr
  else if type = 10 then exif_fetch_srational_data src ptr
  else throw (.raise .decerr_klass "invalid tag data type")

/-- The `for (i = 0; i < ntag; i++)` loop of `exif_read`, with `k` rounds left;
`child` is the recursive call `exif_read(&child, val)` on a fresh hash. -/
def exif_read_entries (src : List Byte)
    (child : exif_t → Except Fault (List (VALUE × VALUE))) :
    Nat → exif_t → List (VALUE × VALUE) → Except Fault (exif_t × List (VALUE × VALUE))
  | 0, ptr, dst => pure (ptr, dst)
  | k + 1, ptr, dst => do
    let (tag, type) ← exif_fetch_tag_header src ptr
    let (key, val) ←
      if tag = 34665 then do
        let c ← exif_fetch_child_ifd src ptr tag_exif
        let h ← child c
        pure (ID2SYM "exif", VALUE.hash h)
      else if tag = 34853 then do
        let c ← exif_fetch_child_ifd src ptr tag_gps
        let h ← child c
        pure (ID2SYM "gps", VALUE.hash h)
      else if tag = 40965 then do
        let c ← exif_fetch_child_ifd src ptr tag_i14y
        let h ← child c
        pure (ID2SYM "interoperability", VALUE.hash h)
      else do
        let key ← lookup_tag_symbol ptr.tags ptr.tags.length tag
        let val ← exif_fetch_data src ptr type
        pure (key, val)
    exif_read_entries src child k (exif_increase ptr 12) (rb_hash_aset dst key val)

/-- The function `exif_read(ptr, dst)`; `depth` bounds the nesting of the recursion.
Returns the updated context and the filled hash. -/
def exif_read (src : List Byte) :
    Nat → exif_t → List (VALUE × VALUE) → Except Fault (exif_t × List (VALUE × VALUE))
  | 0, _, _ => .error .nofuel
  | depth + 1, ptr, dst => do
    let ntag ← get_u16 src ptr.cur ptr.be
    let ptr := exif_increase ptr 2
    let (ptr, dst) ← exif_read_entries src
      (fun c => (exif_read src depth c []).map Prod.snd) ntag ptr dst
    let off ← get_u32 src ptr.cur ptr.be
    if off ≠ 0 then
      pure ({ ptr with cur := ptr.head + off, next := true }, dst)
    else
      pure (ptr, dst)

/-- The macro `FIX2INT`: a Fixnum outside the range of `int` raises `RangeError`. -/
def FIX2INT (v : Int) : Except Fault Int :=
  if v < -(2 ^ 31) then
    throw (.raise .rb_eRangeError "integer too small to convert to int")
  else if v ≥ 2 ^ 31 then
    throw (.raise .rb_eRangeError "integer too big to convert to int")
  else pure v

/-- The call `rb_enc_str_new(base + off, size, enc)` with `int` arguments:
a negative size raises `ArgumentError`, otherwise `size` bytes are copied. -/
def rb_enc_str_new (src : List Byte) (base : Nat) (off size : Int) :
    Except Fault (List Byte) :=
  if size < 0 then
    throw (.raise .rb_eArgError "negative string size (or size too big)")
  else if size = 0 then pure []
  else if (base : Int) + off < 0 then throw (.oob ((base : Int) + off))
  else load_bytes src ((base : Int) + off).toNat size.toNat

/-- The symbol `THUMBNAIL_OFFSET`. -/
def THUMBNAIL_OFFSET : VALUE := ID2SYM "jpeg_interchange_format"

/-- The symbol `THUMBNAIL_SIZE`. -/
def THUMBNAIL_SIZE : VALUE := ID2SYM "jpeg_interchange_format_length"

/-- The body of the marker loop of `create_exif_tags_hash` for a marker that passed
the length and identifier tests. -/
def create_exif_tags_hash_marker (depth : Nat) (data : List Byte)
    (ret : List (VALUE × VALUE)) : Except Fault (List (VALUE × VALUE)) := do
  let exif ← exif_init data data.length
  let (exif, ret) ← exif_read data depth exif ret
  if exif.next then do
    let (_, info) ← exif_read data depth exif []
    let off := rb_hash_lookup info THUMBNAIL_OFFSET
    let size := rb_hash_lookup info THUMBNAIL_SIZE
    match off, size with
    | .fixnum o, .fixnum s => do
      let o ← FIX2INT o
      let s ← FIX2INT s
      let bytes ← rb_enc_str_new data exif.head o s
      let info := rb_hash_aset info (ID2SYM "jpeg_interchange") (.binary bytes)
      pure (rb_hash_aset ret (ID2SYM "thumbnail") (.hash info))
    | _, _ => pure ret
  else pure ret

/-- The marker loop of `create_exif_tags_hash`. -/
def create_exif_tags_hash_loop (depth : Nat) :
    List (List Byte) → List (VALUE × VALUE) → Except Fault (List (VALUE × VALUE))
  | [], ret => pure ret
  | data :: rest, ret =>
    if data.length < 14 then create_exif_tags_hash_loop depth rest ret
    else if bytes_at data 0 6 ≠ exif_ident then create_exif_tags_hash_loop depth rest ret
    else create_exif_tags_hash_marker depth data ret

/-- The function `create_exif_tags_hash(ptr)` on the saved markers
`ptr->cinfo.marker_list`. -/
def create_exif_tags_hash (depth : Nat) (marker_list : List (List Byte)) :
    Except Fault VALUE :=
  (create_exif_tags_hash_loop depth marker_list []).map VALUE.hash

/-- The entry loop of `pick_exif_orientation` with `k` rounds left; `some v` is the
jump to `loop_out` with `o9n = v`. -/
def pick_entries (src : List Byte) (be : Bool) : Nat → Nat → Except Fault (Option Int)
  | 0, _ => pure none
  | k + 1, p => do
    let tag ← get_u16 src (p + 0) be
    let type ← get_u16 src (p + 2) be
    let num := to_int32 (← get_u32 src (p + 4) be)
    if tag = 0x0112 ∧ type = 3 ∧ num = 1 then do
      let v ← get_u16 src (p + 8) be
      pure (some (v : Int))
    else pick_entries src be k (p + 12)

/-- The marker loop of `pick_exif_orientation`; the result is `o9n` at `loop_out`. -/
def pick_markers : List (List Byte) → Except Fault Int
  | [] => pure 0
  | data :: rest =>
    if data.length < 14 then pick_markers rest
    else if bytes_at data 0 6 ≠ exif_ident then pick_markers rest
    else if bytes_at data 6 2 ≠ mark_MM ∧ bytes_at data 6 2 ≠ mark_II then pick_markers rest
    else do
      let be := decide (bytes_at data 6 2 = mark_MM)
      let ident ← get_u16 data 8 be
      if ident ≠ 0x002a then pick_markers rest
      else do
        let off ← get_u32 data 10 be
        if off < 8 ∨ off ≥ sub_u32 data.length 6 then pick_markers rest
        else do
          let p := add_u32 6 off
          let n ← get_u16 data p be
          let found ← pick_entries data be n (p + 2)
          match found with
          | some v => pure v
          | none => pick_markers rest

/-- The function `pick_exif_orientation(ptr)`: the value stored in
`ptr->orientation.value`. -/
def pick_exif_orientation (marker_list : List (List Byte)) : Except Fault Int := do
  let o9n ← pick_markers marker_list
  pure (if o9n ≥ 1 ∧ o9n ≤ 8 then o9n - 1 else 0)

/-- A 16-byte payload: little-endian header, first directory at offset 8 declaring
one entry. -/
def blob_ii_16 : List Byte :=
  [0x45, 0x78, 0x69, 0x66, 0x00, 0x00, 0x49, 0x49, 0x2a, 0x00, 0x08, 0x00, 0x00, 0x00,
   0x01, 0x00]

/-! ## Reference notions for the statements -/

/-- The Ruby value `lookup_tag_symbol` makes of a table name. -/
def name_value : Option String → VALUE
  | some name => ID2SYM name
  | none => .Qnil

/-- Order of the table entries: ascending tag, an equal tag only on an equal entry. -/
def entry_le (a b : tag_entry_t) : Prop := a.tag < b.tag ∨ a = b

instance : DecidableRel entry_le :=
  fun a b => inferInstanceAs (Decidable (a.tag < b.tag ∨ a = b))

/-- Check that consecutive entries of a table are in `entry_le` order. -/
def table_ordered : List tag_entry_t → Bool
  | a :: b :: rest => decide (entry_le a b) && table_ordered (b :: rest)
  | _ => true

/-- The digit `d` in lower-case hexadecimal. -/
def lower_hex (d : Nat) : Char := "0123456789abcdef".toList.getD d '?'

/-- The tag id written as exactly four lower-case hexadecimal digits. -/
def hex4 (t : Nat) : List Char :=
  [lower_hex (t / 4096 % 16), lower_hex (t / 256 % 16), lower_hex (t / 16 % 16),
   lower_hex (t % 16)]

instance : IsTrans tag_entry_t entry_le where
  trans a b c hab hbc := by
    unfold entry_le at *
    rcases hab with h1 | h1 <;> rcases hbc with h2 | h2
    · left; omega
    · left; rw [← h2]; exact h1
    · left; rw [h1]; exact h2
    · right; rw [h1, h2]


/-- The `w` low bytes of `v`, least significant first. -/
def enc_le : Nat → Nat → List Byte
  | 0, _ => []
  | w + 1, v => ⟨v % 256, Nat.mod_lt _ (by decide)⟩ :: enc_le w (v / 256)

/-- TIFF encoding of the unsigned value `v` in `w` bytes in the given byte order. -/
def tiff_enc (be : Bool) (w v : Nat) : List Byte :=
  if be then (enc_le w v).reverse else enc_le w v

/-- TIFF encoding of a signed long: the two's-complement pattern in 4 bytes. -/
def tiff_enc_s32 (be : Bool) (v : Int) : List Byte := tiff_enc be 4 (v % 2 ^ 32).toNat

/-- The rational stored at index `p`: two unsigned 32-bit values in the document
byte order, with 0/0 read as 0/1. -/
def rational_at (src : List Byte) (be : Bool) (p : Nat) : VALUE :=
  let num := tiff_nat be (bytes_at src p 4)
  let deno := tiff_nat be (bytes_at src (p + 4) 4)
  .rational num (if num = 0 ∧ deno = 0 then 1 else deno)

/-- A 32-byte big-endian payload: one root entry, tag 0x0100, type signed long,
count 1, value field FF FF FF FE. -/
def blob_slong : List Byte :=
  [0x45, 0x78, 0x69, 0x66, 0x00, 0x00, 0x4d, 0x4d, 0x00, 0x2a, 0x00, 0x00, 0x00, 0x08,
   0x00, 0x01,
   0x01, 0x00, 0x00, 0x09, 0x00, 0x00, 0x00, 0x01, 0xff, 0xff, 0xff, 0xfe,
   0x00, 0x00, 0x00, 0x00]

/-- The context of `exif_read` at the first entry of a big-endian directory at offset 8
of a payload of `len` bytes. -/
def ctx_first_entry (len : Nat) : exif_t :=
  { be := true, head := 6, cur := 16, size := len - 16, tags := tag_tiff, next := false }

/-- A 40-byte big-endian payload: one root entry, tag 0x011a, type rational, count 1,
data at offset 26: numerator 72, denominator 1. -/
def blob_rational : List Byte :=
  [0x45, 0x78, 0x69, 0x66, 0x00, 0x00, 0x4d, 0x4d, 0x00, 0x2a, 0x00, 0x00, 0x00, 0x08,
   0x00, 0x01,
   0x01, 0x1a, 0x00, 0x05, 0x00, 0x00, 0x00, 0x01, 0x00, 0x00, 0x00, 0x1a,
   0x00, 0x00, 0x00, 0x00,
   0x00, 0x00, 0x00, 0x48, 0x00, 0x00, 0x00, 0x01]

/-- A 40-byte big-endian payload: one root entry, tag 0x9204, type signed rational,
count 1, data at offset 26: numerator FF FF FF FF, denominator 2. -/
def blob_srational : List Byte :=
  [0x45, 0x78, 0x69, 0x66, 0x00, 0x00, 0x4d, 0x4d, 0x00, 0x2a, 0x00, 0x00, 0x00, 0x08,
   0x00, 0x01,
   0x92, 0x04, 0x00, 0x0a, 0x00, 0x00, 0x00, 0x01, 0x00, 0x00, 0x00, 0x1a,
   0x00, 0x00, 0x00, 0x00,
   0xff, 0xff, 0xff, 0xff, 0x00, 0x00, 0x00, 0x02]

/-- Trimming at the end only: trailing NUL and white-space bytes dropped. -/
def rstrip (bs : List Byte) : List Byte := (bs.reverse.dropWhile is_strip_byte).reverse

/-- The value bytes of an entry with 1-byte elements: the value field itself for a
count up to 4, the bytes at `head + off` otherwise. -/
def value_bytes (src : List Byte) (ptr : exif_t) (n off : Nat) : List Byte :=
  if n ≤ 4 then bytes_at src (ptr.cur + 8) n else bytes_at src (ptr.head + off) n

/-- A 32-byte big-endian payload: one root entry, tag 0x010e, type ASCII, count 4,
value field `" ab\0"`. -/
def blob_ascii : List Byte :=
  [0x45, 0x78, 0x69, 0x66, 0x00, 0x00, 0x4d, 0x4d, 0x00, 0x2a, 0x00, 0x00, 0x00, 0x08,
   0x00, 0x01,
   0x01, 0x0e, 0x00, 0x02, 0x00, 0x00, 0x00, 0x04, 0x20, 0x61, 0x62, 0x00,
   0x00, 0x00, 0x00, 0x00]

/-- A 32-byte big-endian payload: one root entry, tag 0x010e, type ASCII, count 0. -/
def blob_ascii_empty : List Byte :=
  [0x45, 0x78, 0x69, 0x66, 0x00, 0x00, 0x4d, 0x4d, 0x00, 0x2a, 0x00, 0x00, 0x00, 0x08,
   0x00, 0x01,
   0x01, 0x0e, 0x00, 0x02, 0x00, 0x00, 0x00, 0x00, 0x00, 0x00, 0x00, 0x00,
   0x00, 0x00, 0x00, 0x00]

/-- Element width in bytes of a TIFF field type (0 for a type the reader does not
know). -/
def type_width (type : Nat) : Nat :=
  if type = 1 ∨ type = 2 ∨ type = 7 then 1
  else if type = 3 then 2
  else if type = 4 ∨ type = 9 then 4
  else if type = 5 ∨ type = 10 then 8
  else 0

/-- Start of the value data of an entry of the given type with count `n` and value
field `off`: the value field itself (the last 4 bytes of the entry) when
`width * n ≤ 4`, the index `head + off` otherwise. -/
def value_pos (ptr : exif_t) (type n off : Nat) : Nat :=
  if type_width type * n ≤ 4 then ptr.cur + 8 else ptr.head + off

/-- The `i`-th integer of the value data starting at index `p`: the bytes
`[p + i * w, p + (i + 1) * w)` read in the document byte order, as a signed value for
type 9. -/
def int_elem (src : List Byte) (be : Bool) (type p i : Nat) : Int :=
  let u := tiff_nat be (bytes_at src (p + i * type_width type) (type_width type))
  if type = 9 then to_int32 u else u

/-- The value of an entry of the given type and count `n ≥ 1` decoded from the data
starting at index `p` alone. -/
def decode_at (src : List Byte) (be : Bool) (type n p : Nat) : VALUE :=
  if type = 2 then .utf8 (strip_bang (bytes_at src p n))
  else if type = 7 then .binary (bytes_at src p n)
  else if type = 5 ∨ type = 10 then
    if n = 1 then rational_at src be p
    else .ary ((List.range n).map (fun i => rational_at src be (p + 8 * i)))
  else
    if n = 1 then .fixnum (int_elem src be type p 0)
    else .ary ((List.range n).map (fun i => .fixnum (int_elem src be type p i)))

/-- A 32-byte big-endian payload: one root entry, tag 0x0102, type short, count 2,
value field 00 08 00 07. -/
def blob_shorts : List Byte :=
  [0x45, 0x78, 0x69, 0x66, 0x00, 0x00, 0x4d, 0x4d, 0x00, 0x2a, 0x00, 0x00, 0x00, 0x08,
   0x00, 0x01,
   0x01, 0x02, 0x00, 0x03, 0x00, 0x00, 0x00, 0x02, 0x00, 0x08, 0x00, 0x07,
   0x00, 0x00, 0x00, 0x00]

/-- The recursive call of `exif_read` on a child directory with a fresh hash, as made
from a directory read with depth `depth + 1`. -/
def child_read (src : List Byte) (depth : Nat) (c : exif_t) :
    Except Fault (List (VALUE × VALUE)) :=
  (exif_read src depth c []).map Prod.snd

/-- The tag id of the entry at the cursor. -/
def entry_tag (src : List Byte) (ptr : exif_t) : Nat :=
  tiff_nat ptr.be (bytes_at src ptr.cur 2)

/-- The type code of the entry at the cursor. -/
def entry_type (src : List Byte) (ptr : exif_t) : Nat :=
  tiff_nat ptr.be (bytes_at src (ptr.cur + 2) 2)

/-- The context `exif_fetch_child_ifd` builds for the sub-directory the entry at the
cursor points to. -/
def child_ctx (src : List Byte) (ptr : exif_t) (tbl : List tag_entry_t) : exif_t :=
  { be := ptr.be, head := ptr.head,
    cur := ptr.head + tiff_nat ptr.be (bytes_at src (ptr.cur + 8) 4),
    size := sub_size_t ptr.size (tiff_nat ptr.be (bytes_at src (ptr.cur + 8) 4)),
    tags := tbl, next := false }

/-- The context of `exif_read` at entry `i` of the directory that starts at `ptr.cur`. -/
def entry_ctx (ptr : exif_t) (i : Nat) : exif_t :=
  { ptr with cur := ptr.cur + 2 + 12 * i }

/-- The body of one round of the entry loop of `exif_read` up to `rb_hash_aset`: the
key and the value of the entry at the cursor. -/
def exif_read_entry (src : List Byte)
    (child : exif_t → Except Fault (List (VALUE × VALUE))) (ptr : exif_t) :
    Except Fault (VALUE × VALUE) := do
  let (tag, type) ← exif_fetch_tag_header src ptr
  if tag = 34665 then do
    let c ← exif_fetch_child_ifd src ptr tag_exif
    let h ← child c
    pure (ID2SYM "exif", VALUE.hash h)
  else if tag = 34853 then do
    let c ← exif_fetch_child_ifd src ptr tag_gps
    let h ← child c
    pure (ID2SYM "gps", VALUE.hash h)
  else if tag = 40965 then do
    let c ← exif_fetch_child_ifd src ptr tag_i14y
    let h ← child c
    pure (ID2SYM "interoperability", VALUE.hash h)
  else do
    let key ← lookup_tag_symbol ptr.tags ptr.tags.length tag
    let val ← exif_fetch_data src ptr type
    pure (key, val)

/-- The three reserved pointer tags with the fixed key and the tag table of the
sub-directory each one opens. -/
def pointer_tags : List (Nat × String × List tag_entry_t) :=
  [(0x8769, "exif", tag_exif), (0x8825, "gps", tag_gps), (0xA005, "interoperability", tag_i14y)]

/-- A 32-byte big-endian payload: one root entry, tag 0x0100, type 6 (not a type the
reader knows), count 1. -/
def blob_badtype : List Byte :=
  [0x45, 0x78, 0x69, 0x66, 0x00, 0x00, 0x4d, 0x4d, 0x00, 0x2a, 0x00, 0x00, 0x00, 0x08,
   0x00, 0x01,
   0x01, 0x00, 0x00, 0x06, 0x00, 0x00, 0x00, 0x01, 0x05, 0x00, 0x00, 0x00,
   0x00, 0x00, 0x00, 0x00]

/-- The context `exif_init` returns for a big-endian payload of `len` bytes with the
first directory at offset 8. -/
def ctx_root (len : Nat) : exif_t :=
  { be := true, head := 6, cur := 14, size := len - 14, tags := tag_tiff, next := false }

/-- A 50-byte big-endian payload: the root directory holds one Exif pointer entry
(tag 0x8769, offset 26); the Exif directory at offset 26 holds one entry, tag 0x0112,
type short, count 1, value 6. -/
def blob_subifd : List Byte :=
  [0x45, 0x78, 0x69, 0x66, 0x00, 0x00, 0x4d, 0x4d, 0x00, 0x2a, 0x00, 0x00, 0x00, 0x08,
   0x00, 0x01,
   0x87, 0x69, 0x00, 0x04, 0x00, 0x00, 0x00, 0x01, 0x00, 0x00, 0x00, 0x1a,
   0x00, 0x00, 0x00, 0x00,
   0x00, 0x01,
   0x01, 0x12, 0x00, 0x03, 0x00, 0x00, 0x00, 0x01, 0x00, 0x06, 0x00, 0x00,
   0x00, 0x00, 0x00, 0x00]

/-- The context of `exif_read` at the first entry of the Exif directory of
`blob_subifd`. -/
def ctx_subifd_entry : exif_t :=
  { be := true, head := 6, cur := 34, size := 16, tags := tag_exif, next := false }

/-- The names a key of the entry at the cursor may bear: the fixed key of a pointer
tag; otherwise the name the table gives to the tag id, or, for an id the table does
not hold, `tag_` followed by the id in four lower-case hexadecimal digits. -/
def entry_key_name (src : List Byte) (ptr : exif_t) (name : String) : Prop :=
  (∃ tk ∈ pointer_tags, entry_tag src ptr = tk.1 ∧ name = tk.2.1) ∨
  ((∀ tk ∈ pointer_tags, entry_tag src ptr ≠ tk.1) ∧
    ((∃ e ∈ ptr.tags, e.tag = entry_tag src ptr ∧ e.name = some name) ∨
     ((∀ e ∈ ptr.tags, e.tag ≠ entry_tag src ptr) ∧
       name = String.mk ("tag_".toList ++ hex4 (entry_tag src ptr)))))

/-- A 52-byte big-endian payload: an empty root directory whose next-directory offset
is 14; the second directory at offset 14 holds the entries 0x0201 (long, 44) and
0x0202 (long, 2); the two bytes FF D8 stand at offset 44. -/
def blob_thumbnail : List Byte :=
  [0x45, 0x78, 0x69, 0x66, 0x00, 0x00, 0x4d, 0x4d, 0x00, 0x2a, 0x00, 0x00, 0x00, 0x08,
   0x00, 0x00,
   0x00, 0x00, 0x00, 0x0e,
   0x00, 0x02,
   0x02, 0x01, 0x00, 0x04, 0x00, 0x00, 0x00, 0x01, 0x00, 0x00, 0x00, 0x2c,
   0x02, 0x02, 0x00, 0x04, 0x00, 0x00, 0x00, 0x01, 0x00, 0x00, 0x00, 0x02,
   0x00, 0x00, 0x00, 0x00,
   0xff, 0xd8]

/-- The entry at index `q` is an orientation entry the resolver accepts: tag 0x0112,
type short (3), count 1. -/
def is_orientation_entry (src : List Byte) (be : Bool) (q : Nat) : Prop :=
  tiff_nat be (bytes_at src q 2) = 0x0112 ∧ tiff_nat be (bytes_at src (q + 2) 2) = 3 ∧
    tiff_nat be (bytes_at src (q + 4) 4) = 1

instance (src : List Byte) (be : Bool) (q : Nat) : Decidable (is_orientation_entry src be q) :=
  inferInstanceAs (Decidable (_ ∧ _ ∧ _))

/-- The payload has a header the resolver accepts: at least 14 bytes (fewer than 2^32),
the Exif identifier, the byte-order marker of `be`, the magic 0x002A and a
first-directory offset `off` with `8 ≤ off < length - 6`. -/
def valid_header (src : List Byte) (be : Bool) (off : Nat) : Prop :=
  14 ≤ src.length ∧ src.length < 2 ^ 32 ∧ bytes_at src 0 6 = exif_ident ∧
    bytes_at src 6 2 = (if be then mark_MM else mark_II) ∧
    tiff_nat be (bytes_at src 8 2) = 0x002a ∧
    tiff_nat be (bytes_at src 10 4) = off ∧ 8 ≤ off ∧ off < src.length - 6

instance (src : List Byte) (be : Bool) (off : Nat) : Decidable (valid_header src be off) :=
  inferInstanceAs (Decidable (_ ∧ _ ∧ _ ∧ _ ∧ _ ∧ _ ∧ _ ∧ _))

/-- A 32-byte big-endian payload: one root entry, tag 0x0112, type short, count 1,
value 6. -/
def blob_orientation : List Byte :=
  [0x45, 0x78, 0x69, 0x66, 0x00, 0x00, 0x4d, 0x4d, 0x00, 0x2a, 0x00, 0x00, 0x00, 0x08,
   0x00, 0x01,
   0x01, 0x12, 0x00, 0x03, 0x00, 0x00, 0x00, 0x01, 0x00, 0x06, 0x00, 0x00,
   0x00, 0x00, 0x00, 0x00]

/-- A 32-byte big-endian payload: one root entry, tag 0x0112, type long, count 1,
value 6. -/
def blob_orientation_long : List Byte :=
  [0x45, 0x78, 0x69, 0x66, 0x00, 0x00, 0x4d, 0x4d, 0x00, 0x2a, 0x00, 0x00, 0x00, 0x08,
   0x00, 0x01,
   0x01, 0x12, 0x00, 0x04, 0x00, 0x00, 0x00, 0x01, 0x00, 0x00, 0x00, 0x06,
   0x00, 0x00, 0x00, 0x00]

/-! ## Geometric transforms (`do_transpose`, `do_upside_down`, `do_flip_horizon`)

An image buffer is a `List Byte`; `uint8_t*`, `uint16_t*` and `uint32_t*` pointers into
it are kept as byte offsets (`Int`), a step of one element being a step of 1, 2 or 4
bytes.  Widths and heights are the non-negative `int` values of the C code; offsets are
computed without wrap-around, which agrees with the C arithmetic as long as the byte
size of the image fits an `int`. -/

/-- Read of the byte at offset `i`. -/
def peek (buf : List Byte) (i : Int) : Except Fault Byte :=
  if 0 ≤ i then
    match buf[i.toNat]? with
    | some b => .ok b
    | none => .error (.oob i)
  else .error (.oob i)

/-- Write of the byte at offset `i`. -/
def poke (buf : List Byte) (i : Int) (v : Byte) : Except Fault (List Byte) :=
  if 0 ≤ i ∧ i.toNat < buf.length then .ok (buf.set i.toNat v) else .error (.oob i)

/-- The macro `SWAP(a, b, uint8_t)` on the bytes at offsets `a` and `b`. -/
def SWAP (buf : List Byte) (a b : Int) : Except Fault (List Byte) := do
  let c ← peek buf a
  let vb ← peek buf b
  let buf ← poke buf a vb
  poke buf b c

/-- Exchange of the `k`-byte elements at offsets `sp` and `dp`: `SWAP(*sp, *dp, T)` for
an element type `T` of `k` bytes, or the `k` byte swaps `SWAP(sp[i], dp[i], uint8_t)`. -/
def swap_unit : Nat → List Byte → Int → Int → Except Fault (List Byte)
  | 0, buf, _, _ => pure buf
  | k + 1, buf, sp, dp => do
    let buf ← SWAP buf sp dp
    swap_unit k buf (sp + 1) (dp + 1)

/-- The statement `SWAP(*sp, *dp, uint8_t)` of `do_upside_down16` on `uint16_t`
elements (little-endian): the temporary keeps the low byte of `*sp` only. -/
def swap16_u8 (buf : List Byte) (sp dp : Int) : Except Fault (List Byte) := do
  let c ← peek buf sp
  let _ ← peek buf (sp + 1)
  let d0 ← peek buf dp
  let d1 ← peek buf (dp + 1)
  let buf ← poke buf sp d0
  let buf ← poke buf (sp + 1) d1
  let buf ← poke buf dp c
  poke buf (dp + 1) 0

/-- The loop `while (sp < dp) { swap; sp++; dp--; }` with elements of `w` bytes;
returns the buffer and the final `sp`. -/
def swap_while (swap : List Byte → Int → Int → Except Fault (List Byte)) (w : Int) :
    Nat → List Byte → Int → Int → Except Fault (List Byte × Int)
  | 0, _, _, _ => .error .nofuel
  | fuel + 1, buf, sp, dp =>
    if sp < dp then do
      let buf ← swap buf sp dp
      swap_while swap w fuel buf (sp + w) (dp - w)
    else pure (buf, sp)

def do_upside_down8 (img : List Byte) (wd ht : Nat) : Except Fault (List Byte) :=
  (swap_while (swap_unit 1) 1 (img.length + 1) img 0 ((wd * ht : Nat) - 1)).map Prod.fst

def do_upside_down16 (img : List Byte) (wd ht : Nat) : Except Fault (List Byte) :=
  (swap_while swap16_u8 2 (img.length + 1) img 0 (2 * (((wd * ht : Nat) : Int) - 1))).map
    Prod.fst

def do_upside_down24 (img : List Byte) (wd ht : Nat) : Except Fault (List Byte) :=
  (swap_while (swap_unit 3) 3 (img.length + 1) img 0 ((wd * ht * 3 : Nat) - 3)).map Prod.fst

def do_upside_down32 (img : List Byte) (wd ht : Nat) : Except Fault (List Byte) :=
  (swap_while (swap_unit 4) 4 (img.length + 1) img 0 (4 * (((wd * ht : Nat) : Int) - 1))).map
    Prod.fst

def do_upside_down (img : List Byte) (wd ht nc : Nat) : Except Fault (List Byte) :=
  if nc = 1 then do_upside_down8 img wd ht
  else if nc = 2 then do_upside_down16 img wd ht
  else if nc = 3 then do_upside_down24 img wd ht
  else if nc = 4 then do_upside_down32 img wd ht
  else pure img

/-- The row loop `for (y = 0; y < ht; y++)` of `do_flip_horizonN` with `n` rounds left:
`st` is the byte length of a row, `half` the byte length of `wd / 2` elements. -/
def flip_rows (w : Nat) (st half : Int) (fuel : Nat) :
    Nat → List Byte → Int → Int → Except Fault (List Byte)
  | 0, buf, _, _ => pure buf
  | n + 1, buf, sp, dp => do
    let (buf, sp) ← swap_while (swap_unit w) w fuel buf sp dp
    let sp := sp - half + st
    flip_rows w st half fuel n buf sp (sp + (st - w))

def do_flip_horizon8 (img : List Byte) (wd ht : Nat) : Except Fault (List Byte) :=
  flip_rows 1 wd ((wd / 2 : Nat)) (img.length + 1) ht img 0 ((wd : Int) - 1)

def do_flip_horizon16 (img : List Byte) (wd ht : Nat) : Except Fault (List Byte) :=
  flip_rows 2 (2 * wd) (2 * (wd / 2 : Nat)) (img.length + 1) ht img 0 (2 * ((wd : Int) - 1))

def do_flip_horizon24 (img : List Byte) (wd ht : Nat) : Except Fault (List Byte) :=
  flip_rows 3 (wd * 3) ((wd / 2 : Nat) * 3) (img.length + 1) ht img 0 ((wd * 3 : Nat) - 3)

def do_flip_horizon32 (img : List Byte) (wd ht : Nat) : Except Fault (List Byte) :=
  flip_rows 4 (4 * wd) (4 * (wd / 2 : Nat)) (img.length + 1) ht img 0 (4 * ((wd : Int) - 1))

def do_flip_horizon (img : List Byte) (wd ht nc : Nat) : Except Fault (List Byte) :=
  if nc = 1 then do_flip_horizon8 img wd ht
  else if nc = 2 then do_flip_horizon16 img wd ht
  else if nc = 3 then do_flip_horizon24 img wd ht
  else if nc = 4 then do_flip_horizon32 img wd ht
  else pure img

/-- The assignment `*dp = *sp` for elements of `k` bytes, from `img` into `dst`. -/
def copy_unit (img : List Byte) : Nat → List Byte → Int → Int → Except Fault (List Byte)
  | 0, dst, _, _ => pure dst
  | k + 1, dst, sp, dp => do
    let v ← peek img sp
    let dst ← poke dst dp v
    copy_unit img k dst (sp + 1) (dp + 1)

/-- The inner loop `for (x = 0; x < wd; x++)` of `do_transposeN` with `n` rounds left:
`st` is the byte distance between two elements of a destination column. -/
def transpose_row (w : Nat) (st : Int) (img : List Byte) :
    Nat → List Byte → Int → Int → Except Fault (List Byte × Int)
  | 0, dst, sp, _ => pure (dst, sp)
  | n + 1, dst, sp, dp => do
    let dst ← copy_unit img w dst sp dp
    transpose_row w st img n dst (sp + w) (dp + st)

/-- The outer loop `for (y = 0; y < ht; y++)` of `do_transposeN` with `n` rounds left. -/
def transpose_rows (w : Nat) (st : Int) (img : List Byte) (wd : Nat) :
    Nat → Int → List Byte → Int → Except Fault (List Byte)
  | 0, _, dst, _ => pure dst
  | n + 1, y, dst, sp => do
    let (dst, sp) ← transpose_row w st img wd dst sp (y * w)
    transpose_rows w st img wd n (y + 1) dst sp

def do_transpose8 (img : List Byte) (wd ht : Nat) (dst : List Byte) :
    Except Fault (List Byte) :=
  transpose_rows 1 ht img wd ht 0 dst 0

def do_transpose16 (img : List Byte) (wd ht : Nat) (dst : List Byte) :
    Except Fault (List Byte) :=
  transpose_rows 2 (2 * ht) img wd ht 0 dst 0

def do_transpose24 (img : List Byte) (wd ht : Nat) (dst : List Byte) :
    Except Fault (List Byte) :=
  transpose_rows 3 (ht * 3) img wd ht 0 dst 0

def do_transpose32 (img : List Byte) (wd ht : Nat) (dst : List Byte) :
    Except Fault (List Byte) :=
  transpose_rows 4 (4 * ht) img wd ht 0 dst 0

def do_transpose (img : List Byte) (wd ht nc : Nat) (dst : List Byte) :
    Except Fault (List Byte) :=
  if nc = 1 then do_transpose8 img wd ht dst
  else if nc = 2 then do_transpose16 img wd ht dst
  else if nc = 3 then do_transpose24 img wd ht dst
  else if nc = 4 then do_transpose32 img wd ht dst
  else pure dst

/-- The function `apply_orientation`: `value` is `ptr->orientation.value`, `wd`, `ht`,
`nc` the output width, height and components, `img` the decoded image and `buf` the
buffer `shift_orientation_buffer` hands out (as long as `img`, contents arbitrary). -/
def apply_orientation (value wd ht nc : Nat) (img buf : List Byte) :
    Except Fault (List Byte) := do
  let (img, wd, ht) ←
    if value &&& 4 ≠ 0 then do
      let out ← do_transpose img wd ht nc buf
      pure (out, ht, wd)
    else pure (img, wd, ht)
  let img ← if value &&& 2 ≠ 0 then do_upside_down img wd ht nc else pure img
  if value &&& 1 ≠ 0 then do_flip_horizon img wd ht nc else pure img

/-- Component `k` of the pixel in column `x`, row `y` of an image of width `wd` with
`nc` bytes per pixel. -/
def px (buf : List Byte) (wd nc x y k : Nat) : Option Byte := buf[(y * wd + x) * nc + k]?

/-! ## Row conversion of the encoder (`push_rows_*`), `swap_cbcr`, `expand_colormap`

The destination (`dst`, `rows`) and the source (`data`, `src`) are distinct buffers and
a pointer into either is a byte offset.  The argument `data` of the `push_rows_*`
functions is the input string together with the offset `pos` of the first row to push;
`wd` and `nrow` are non-negative, as `set_encoder_context` and `do_encode` ensure. -/

/-- Conversion of an `int` value to `uint8_t`. -/
def to_u8 (n : Nat) : Byte := Fin.ofNat n

/-- The assignment `dst[dp] = src[sp]`. -/
def assign (src dst : List Byte) (dp sp : Int) : Except Fault (List Byte) := do
  let v ← peek src sp
  poke dst dp v

/-- The call `memcpy(dst + dp, src + sp, n)`. -/
def memcpy (dst : List Byte) (dp : Int) (src : List Byte) (sp : Int) (n : Nat) :
    Except Fault (List Byte) :=
  copy_unit src n dst sp dp

/-- A loop `for (i = 0; i < n; i++) { body; src += sstep; }` whose body stores through
the destination pointer and advances it: `body` takes the destination buffer, the
destination offset and the source offset, and returns the buffer and the new
destination offset. -/
def for_rows (body : List Byte → Int → Int → Except Fault (List Byte × Int)) (sstep : Int) :
    Nat → List Byte → Int → Int → Except Fault (List Byte × Int)
  | 0, dst, dp, _ => pure (dst, dp)
  | n + 1, dst, dp, sp => do
    let (dst, dp) ← body dst dp sp
    for_rows body sstep n dst dp (sp + sstep)

/-- The body of the inner loop of `push_rows_yuv422` up to `dst += 6`. -/
def yuv422_pair (data dst : List Byte) (dp sp : Int) : Except Fault (List Byte × Int) := do
  let dst ← assign data dst dp sp
  let dst ← assign data dst (dp + 1) (sp + 1)
  let dst ← assign data dst (dp + 2) (sp + 3)
  let dst ← assign data dst (dp + 3) (sp + 2)
  let dst ← assign data dst (dp + 4) (sp + 1)
  let dst ← assign data dst (dp + 5) (sp + 3)
  pure (dst, dp + 6)

/-- The function `push_rows_yuv422`; the inner loop `for (j = 0; j < wd; j += 2)` makes
`(wd + 1) / 2` rounds. -/
def push_rows_yuv422 (dst : List Byte) (wd : Nat) (st : Int) (data : List Byte) (pos : Int)
    (nrow : Nat) : Except Fault (List Byte) :=
  (for_rows (for_rows (yuv422_pair data) 4 ((wd + 1) / 2)) st nrow dst 0 pos).map Prod.fst

/-- The body of the inner loop of `push_rows_rgb565` up to `dst += 3`. -/
def rgb565_pixel (data dst : List Byte) (dp sp : Int) : Except Fault (List Byte × Int) := do
  let s1 ← peek data (sp + 1)
  let dst ← poke dst dp (to_u8 (s1.val &&& 0xf8))
  let s1 ← peek data (sp + 1)
  let s0 ← peek data sp
  let dst ← poke dst (dp + 1) (to_u8 (((s1.val <<< 5) &&& 0xe0) ||| ((s0.val >>> 3) &&& 0x1c)))
  let s0 ← peek data sp
  let dst ← poke dst (dp + 2) (to_u8 ((s0.val <<< 3) &&& 0xf8))
  pure (dst, dp + 3)

def push_rows_rgb565 (dst : List Byte) (wd : Nat) (st : Int) (data : List Byte) (pos : Int)
    (nrow : Nat) : Except Fault (List Byte) :=
  (for_rows (for_rows (rgb565_pixel data) 2 wd) st nrow dst 0 pos).map Prod.fst

/-- The loop body `memcpy(rows, data, size); rows += size;`. -/
def copy_row (data : List Byte) (size : Nat) (rows : List Byte) (dp sp : Int) :
    Except Fault (List Byte × Int) := do
  let rows ← memcpy rows dp data sp size
  pure (rows, dp + size)

def push_rows_comp3 (rows : List Byte) (wd : Nat) (st : Int) (data : List Byte) (pos : Int)
    (nrow : Nat) : Except Fault (List Byte) :=
  (for_rows (copy_row data (wd * 3)) st nrow rows 0 pos).map Prod.fst

def push_rows_comp4 (rows : List Byte) (wd : Nat) (st : Int) (data : List Byte) (pos : Int)
    (nrow : Nat) : Except Fault (List Byte) :=
  (for_rows (copy_row data (wd * 4)) st nrow rows 0 pos).map Prod.fst

def push_rows_grayscale (rows : List Byte) (wd : Nat) (st : Int) (data : List Byte)
    (pos : Int) (nrow : Nat) : Except Fault (List Byte) :=
  (for_rows (copy_row data wd) st nrow rows 0 pos).map Prod.fst

/-- The loop of `swap_cbcr` with `n` rounds left: the pointer `p` is not advanced. -/
def swap_cbcr_loop : Nat → List Byte → Except Fault (List Byte)
  | 0, p => pure p
  | n + 1, p => do
    let p ← SWAP p 1 2
    swap_cbcr_loop n p

/-- The function `swap_cbcr`: the loop `for (i = 0; i < (int)size; i++)`. -/
def swap_cbcr (p : List Byte) (size : Nat) : Except Fault (List Byte) :=
  swap_cbcr_loop (loop_count (size % 2 ^ 32)) p

/-- The element `map[k][idx]` of the colormap `map` (one list per plane). -/
def colormap_at (map : List (List Byte)) (k : Nat) (idx : Byte) : Except Fault Byte :=
  match map[k]? with
  | some plane => peek plane idx.val
  | none => .error (.oob k)

/-- The `c` assignments `dst[0] = map[k][src[i]]; dst[1] = map[k+1][src[i]]; ...` of a
loop body of `expand_colormap` followed by `dst += c`, where `sp` is `i`. -/
def expand_pixel (map : List (List Byte)) (src : List Byte) :
    Nat → Nat → List Byte → Int → Int → Except Fault (List Byte × Int)
  | 0, _, dst, dp, _ => pure (dst, dp)
  | c + 1, k, dst, dp, sp => do
    let i ← peek src sp
    let v ← colormap_at map k i
    let dst ← poke dst dp v
    expand_pixel map src c (k + 1) dst (dp + 1) sp

/-- The function `expand_colormap`: `wd`, `ht` and `nc` are `output_width`,
`output_height` and `out_color_components`, `map` is `cinfo->colormap`; the buffer of
`rb_str_buf_new` starts as zeros. -/
def expand_colormap (wd ht nc : Nat) (map : List (List Byte)) (src : List Byte) :
    Except Fault (List Byte) :=
  let n := wd * ht
  let ret := List.replicate (n * nc) (0 : Byte)
  if nc = 1 then (for_rows (expand_pixel map src 1 0) 1 n ret 0 0).map Prod.fst
  else if nc = 2 then (for_rows (expand_pixel map src 2 0) 1 n ret 0 0).map Prod.fst
  else if nc = 3 then (for_rows (expand_pixel map src 3 0) 1 n ret 0 0).map Prod.fst
  else throw (.raise .rb_eRuntimeError "this number of components is not implemented yet")

/-- Offset inside the macropixel `[Y0, Cb, Y1, Cr]` of byte `t` of `[Y0, Cb, Cr, Y1, Cb, Cr]`. -/
def yuv422_src (t : Nat) : Nat := [0, 1, 3, 2, 1, 3].getD t 0

/-- The three bytes `push_rows_rgb565` stores for the source bytes `s0`, `s1`. -/
def rgb565_out (s0 s1 : Byte) : List Byte :=
  [to_u8 (s1.val &&& 0xf8),
   to_u8 (((s1.val <<< 5) &&& 0xe0) ||| ((s0.val >>> 3) &&& 0x1c)),
   to_u8 ((s0.val <<< 3) &&& 0xf8)]

/-- Plane `k` of the colormap indexed by `idx`, when both exist. -/
def plane_at (map : List (List Byte)) (k : Nat) (idx : Byte) : Option Byte :=
  (map[k]?).bind (fun plane => plane[idx.val]?)

/-- Byte `t` of the output pixel that `push_rows_rgb565` makes of the source bytes at
offsets `b` and `b + 1`. -/
def rgb565_at (data : List Byte) (b t : Nat) : Option Byte :=
  (data[b]?).bind (fun s0 => (data[b + 1]?).bind (fun s1 => (rgb565_out s0 s1)[t]?))

/-- Plane `k + t` of the colormap indexed by the source byte at offset `b`. -/
def expand_at (map : List (List Byte)) (src : List Byte) (k b t : Nat) : Option Byte :=
  (src[b]?).bind (plane_at map (k + t))

/-! ## Encoder options (`eval_encoder_pixel_format_opt`, `eval_encoder_quality_opt`,
`eval_encoder_stride_opt`)

An evaluator returns `Qnil` or an exception object (`ret`) and stores into the encoder
context only when `ret` is `Qnil`; a `rb_raise` inside a conversion macro is a `Fault`.
A local that the C code leaves unassigned on a path is given the value 0 there; it is
never read on such a path. -/

/-- A C `double`: not a number, an infinity, or a finite value. -/
inductive Double where
  | nan
  | inf (neg : Bool)
  | fin (q : ℚ)
  deriving DecidableEq

/-- An option value as `TYPE(opt)` classifies it. -/
inductive Opt where
  | undef
  | fixnum (v : Int)
  | flonum (d : Double)
  | string (s : String)
  | symbol (s : String)
  | other
  deriving DecidableEq

/-- An exception object made by `create_*_error`. -/
structure Exc where
  klass : Klass
  msg : String
  deriving DecidableEq, Repr

/-- The values of `J_COLOR_SPACE` (jpeglib.h) that the encoder names. -/
inductive J_COLOR_SPACE where
  | JCS_UNKNOWN
  | JCS_GRAYSCALE
  | JCS_RGB
  | JCS_YCbCr
  | JCS_EXT_BGR
  | JCS_EXT_RGBX
  | JCS_EXT_BGRX
  deriving DecidableEq, Repr

def FMT_YUV422 : Int := 1
def FMT_RGB565 : Int := 2
def FMT_GRAYSCALE : Int := 3
def FMT_YUV : Int := 4
def FMT_RGB : Int := 5
def FMT_BGR : Int := 6
def FMT_RGB32 : Int := 7
def FMT_BGR32 : Int := 8
def DEFAULT_QUALITY : Int := 75

/-- The values of `J_DCT_METHOD` (jpeglib.h). -/
inductive J_DCT_METHOD where
  | JDCT_ISLOW
  | JDCT_IFAST
  | JDCT_FLOAT
  deriving DecidableEq, Repr

/-- The macro `JDCT_FASTEST` of jpeglib.h. -/
def JDCT_FASTEST : J_DCT_METHOD := .JDCT_IFAST

/-- The fields of `jpeg_encode_t` that the option evaluators and the row conversion
read or store; `rows` is the buffer `ptr->rows` points to (empty for `NULL`). -/
structure jpeg_encode_t where
  width : Int
  stride : Int
  height : Int
  data_size : Int
  format : Int
  color_space : J_COLOR_SPACE
  components : Int
  quality : Int
  dct_method : J_DCT_METHOD
  rows : List Byte
  orientation : Int
  deriving DecidableEq

def create_argument_error (msg : String) : Exc := ⟨.rb_eArgError, msg⟩
def create_type_error (msg : String) : Exc := ⟨.rb_eTypeError, msg⟩
def create_range_error (msg : String) : Exc := ⟨.rb_eRangeError, msg⟩

/-- The branch for `T_STRING` and `T_SYMBOL` of `eval_encoder_pixel_format_opt`:
`EQ_STR` compares the name with the literal. -/
def pixel_format_of_name (s : String) : Except Exc (Int × J_COLOR_SPACE × Int) :=
  if s = "YUV422" ∨ s = "YUYV" then .ok (FMT_YUV422, .JCS_YCbCr, 3)
  else if s = "RGB565" then .ok (FMT_RGB565, .JCS_RGB, 3)
  else if s = "RGB" ∨ s = "RGB24" then .ok (FMT_RGB, .JCS_RGB, 3)
  else if s = "BGR" ∨ s = "BGR24" then .ok (FMT_BGR, .JCS_EXT_BGR, 3)
  else if s = "YUV444" ∨ s = "YCbCr" then .ok (FMT_YUV, .JCS_YCbCr, 3)
  else if s = "RGBX" ∨ s = "RGB32" then .ok (FMT_RGB32, .JCS_EXT_RGBX, 4)
  else if s = "BGRX" ∨ s = "BGR32" then .ok (FMT_BGR32, .JCS_EXT_BGRX, 4)
  else if s = "GRAYSCALE" then .ok (FMT_GRAYSCALE, .JCS_GRAYSCALE, 1)
  else .error (create_argument_error "unsupportd :pixel_format option value")

def eval_encoder_pixel_format_opt (ptr : jpeg_encode_t) (opt : Opt) :
    Option Exc × jpeg_encode_t :=
  let r : Except Exc (Int × J_COLOR_SPACE × Int) :=
    match opt with
    | .undef => .ok (FMT_YUV422, .JCS_YCbCr, 3)
    | .string s => pixel_format_of_name s
    | .symbol s => pixel_format_of_name s
    | _ => .error (create_type_error "unsupportd :pixel_format option type")
  match r with
  | .ok (format, color_space, components) =>
    (none, { ptr with format := format, color_space := color_space,
                      components := components })
  | .error ret => (some ret, ptr)

/-- The macro `NUM2INT` on a finite `double` of the range of `int`: truncation. -/
def NUM2INT (q : ℚ) : Int := if 0 ≤ q then ⌊q⌋ else ⌈q⌉

def eval_encoder_quality_opt (ptr : jpeg_encode_t) (opt : Opt) :
    Except Fault (Option Exc × jpeg_encode_t) := do
  let (ret, quality) ←
    match opt with
    | .undef => pure (none, DEFAULT_QUALITY)
    | .flonum d =>
      match d with
      | .nan => pure (some (create_argument_error "unsupportd :quality option value"), 0)
      | .inf _ => pure (some (create_argument_error "unsupportd :quality option value"), 0)
      | .fin q =>
        if q < 0 then pure (some (create_range_error ":quality less than 0"), 0)
        else if q > 100 then pure (some (create_range_error ":quality greater than 100"), 0)
        else pure (none, NUM2INT q)
    | .fixnum v => do
      let ret := if v < 0 then some (create_range_error ":quality less than 0") else none
      if v > 100 then pure (some (create_range_error ":quality greater than 100"), 0)
      else do
        let quality ← FIX2INT v
        pure (ret, quality)
    | _ => pure (some (create_type_error "unsupportd :quality option type"), 0)
  if ret.isNone then pure (ret, { ptr with quality := quality }) else pure (ret, ptr)

/-- The function `eval_encoder_stride_opt`; the product `width * components` is taken
without wrap-around. -/
def eval_encoder_stride_opt (ptr : jpeg_encode_t) (opt : Opt) :
    Except Fault (Option Exc × jpeg_encode_t) := do
  let (ret, stride) ←
    match opt with
    | .undef => pure (none, ptr.width * ptr.components)
    | .fixnum v => do
      let stride ← FIX2INT v
      if stride < ptr.width * ptr.components then
        pure (some (create_range_error ":stride too little"), stride)
      else pure (none, stride)
    | _ => pure (some (create_type_error "unsupportd :stride option type"), 0)
  if ret.isNone then pure (ret, { ptr with stride := stride }) else pure (ret, ptr)

/-- An encoder context as `rb_encoder_alloc` leaves it (`memset` to 0) with the width
and height `set_encoder_context` stores before the options are evaluated. -/
def encoder_ctx (wd ht : Int) : jpeg_encode_t :=
  { width := wd, stride := 0, height := ht, data_size := 0, format := 0,
    color_space := .JCS_UNKNOWN, components := 0, quality := 0, dct_method := .JDCT_ISLOW,
    rows := [], orientation := 0 }

/-! ## Payloads for the error kinds and the directory cycle -/

/-- A 14-byte payload whose identifier is `Exit\0\0`. -/
def blob_bad_ident : List Byte :=
  [0x45, 0x78, 0x69, 0x74, 0x00, 0x00, 0x4d, 0x4d, 0x00, 0x2a, 0x00, 0x00, 0x00, 0x08]

/-- A 16-byte big-endian payload whose first-directory offset is 4. -/
def blob_bad_offset : List Byte :=
  [0x45, 0x78, 0x69, 0x66, 0x00, 0x00, 0x4d, 0x4d, 0x00, 0x2a, 0x00, 0x00, 0x00, 0x04,
   0x00, 0x00]

/-- A 32-byte big-endian payload with a valid header: the root directory at offset 8
holds one Exif pointer entry (tag 0x8769, type long, count 1) whose offset is 8, the
offset of the root directory itself. -/
def blob_cycle : List Byte :=
  [0x45, 0x78, 0x69, 0x66, 0x00, 0x00, 0x4d, 0x4d, 0x00, 0x2a, 0x00, 0x00, 0x00, 0x08,
   0x00, 0x01,
   0x87, 0x69, 0x00, 0x04, 0x00, 0x00, 0x00, 0x01, 0x00, 0x00, 0x00, 0x08,
   0x00, 0x00, 0x00, 0x00]

/-! ## Encoder: context set-up, Exif marker, encoding loop

The calls into libjpeg are kept to what the claims need: `jpeg_write_marker` hands the
payload to the output, `jpeg_write_scanlines` takes the `nrow` rows of the row buffer
and advances `next_scanline` by `nrow`; allocations are taken to succeed. -/

def UNIT_LINES : Nat := 10

/-- The macro `ALLOC_ROWS(w, c)`: a buffer of `w * c * UNIT_LINES` bytes. -/
def ALLOC_ROWS (w c : Int) : List Byte := List.replicate (w * c * UNIT_LINES).toNat 0

/-- The branch for `T_STRING` and `T_SYMBOL` of `eval_encoder_dct_method_opt`. -/
def dct_method_of_name (s : String) : Except Exc J_DCT_METHOD :=
  if s = "FASTEST" then .ok JDCT_FASTEST
  else if s = "ISLOW" then .ok .JDCT_ISLOW
  else if s = "IFAST" then .ok .JDCT_IFAST
  else if s = "FLOAT" then .ok .JDCT_FLOAT
  else .error (create_argument_error "unsupportd :dct_method option value")

def eval_encoder_dct_method_opt (ptr : jpeg_encode_t) (opt : Opt) :
    Option Exc × jpeg_encode_t :=
  let r : Except Exc J_DCT_METHOD :=
    match opt with
    | .undef => .ok JDCT_FASTEST
    | .string s => dct_method_of_name s
    | .symbol s => dct_method_of_name s
    | _ => .error (create_type_error "unsupportd :dct_method option type")
  match r with
  | .ok dct_method => (none, { ptr with dct_method := dct_method })
  | .error ret => (some ret, ptr)

def eval_encoder_orientation_opt (ptr : jpeg_encode_t) (opt : Opt) :
    Except Fault (Option Exc × jpeg_encode_t) := do
  let (ret, orientation) ←
    match opt with
    | .undef => pure (none, 0)
    | .fixnum v => do
      let orientation ← FIX2INT v
      if orientation < 1 ∨ orientation > 8 then
        pure (some (create_range_error ":orientation option ouf range"), orientation)
      else pure (none, orientation)
    | _ => pure (some (create_type_error "Unsupportd :orientation option type."), 0)
  if ret.isNone then pure (ret, { ptr with orientation := orientation }) else pure (ret, ptr)

/-- The option values `rb_get_kwargs` hands to `set_encoder_context`. -/
structure encoder_opts where
  pixel_format : Opt
  quality : Opt
  dct_method : Opt
  orientation : Opt
  stride : Opt

/-- The function `set_encoder_context` up to the set-up of libjpeg. -/
def set_encoder_context (ptr : jpeg_encode_t) (wd ht : Int) (opts : encoder_opts) :
    Except Fault (Option Exc × jpeg_encode_t) :=
  if wd ≤ 0 then pure (some (create_range_error "image width less equal zero"), ptr)
  else if ht ≤ 0 then pure (some (create_range_error "image height less equal zero"), ptr)
  else
    match eval_encoder_pixel_format_opt { ptr with width := wd, height := ht }
        opts.pixel_format with
    | (some e, p) => pure (some e, p)
    | (none, p) => do
      let r ← eval_encoder_quality_opt p opts.quality
      match r with
      | (some e, p) => pure (some e, p)
      | (none, p) =>
        match eval_encoder_dct_method_opt p opts.dct_method with
        | (some e, p) => pure (some e, p)
        | (none, p) => do
          let r ← eval_encoder_orientation_opt p opts.orientation
          match r with
          | (some e, p) => pure (some e, p)
          | (none, p) => do
            let r ← eval_encoder_stride_opt p opts.stride
            match r with
            | (some e, p) => pure (some e, p)
            | (none, p) =>
              pure (none, { p with data_size := p.stride * p.height,
                                   rows := ALLOC_ROWS p.width p.components })

/-- Conversion of an `int` value to `uint8_t`. -/
def int_to_u8 (i : Int) : Byte := Fin.ofNat (i % 256).toNat

/-- The payload `put_exif_tags` hands to `jpeg_write_marker`: `data[24]` and `data[25]`
are `(orientation >> 8) & 0xff` and `orientation & 0xff`. -/
def put_exif_tags (orientation : Int) : List Byte :=
  [0x45, 0x78, 0x69, 0x66, 0x00, 0x00,
   0x4d, 0x4d,
   0x00, 0x2a,
   0x00, 0x00, 0x00, 0x08,
   0x00, 0x01,
   0x01, 0x12,
   0x00, 0x03,
   0x00, 0x00, 0x00, 0x01,
   int_to_u8 (orientation / 256), int_to_u8 orientation,
   0x00, 0x00,
   0x00, 0x00, 0x00, 0x00]

/-- The function `push_rows`: the row buffer after the conversion of `nrow` rows that
start at offset `pos` of the input. -/
def push_rows (ptr : jpeg_encode_t) (data : List Byte) (pos : Int) (nrow : Nat) :
    Except Fault (List Byte) :=
  if ptr.format = FMT_YUV422 then
    push_rows_yuv422 ptr.rows ptr.width.toNat ptr.stride data pos nrow
  else if ptr.format = FMT_RGB565 then
    push_rows_rgb565 ptr.rows ptr.width.toNat ptr.stride data pos nrow
  else if ptr.format = FMT_YUV ∨ ptr.format = FMT_RGB ∨ ptr.format = FMT_BGR then
    push_rows_comp3 ptr.rows ptr.width.toNat ptr.stride data pos nrow
  else if ptr.format = FMT_RGB32 ∨ ptr.format = FMT_BGR32 then
    push_rows_comp4 ptr.rows ptr.width.toNat ptr.stride data pos nrow
  else if ptr.format = FMT_GRAYSCALE then
    push_rows_grayscale ptr.rows ptr.width.toNat ptr.stride data pos nrow
  else throw (.raise .rb_eRuntimeError "Really?")

/-- The rows `jpeg_write_scanlines(&ptr->cinfo, ptr->array, nrow)` takes:
`ptr->array[i]` is `ptr->rows + i * width * components`. -/
def jpeg_write_scanlines (ptr : jpeg_encode_t) (nrow : Nat) : List (List Byte) :=
  (List.range nrow).map (fun i =>
    bytes_at ptr.rows (i * (ptr.width * ptr.components).toNat)
      (ptr.width * ptr.components).toNat)

/-- What an encoding run hands to libjpeg: the APP1 payload if any, the arguments
`(offset of data, nrow)` of the calls of `push_rows`, and the scanlines written. -/
structure encode_out where
  app1 : Option (List Byte)
  calls : List (Int × Nat)
  lines : List (List Byte)
  deriving DecidableEq

/-- The loop `while (next_scanline < image_height)` of `do_encode`; `pos` is the offset
of `data` in the input. Each round lowers the number of rows left, so `fuel` above
the height is enough. -/
def do_encode_loop (data : List Byte) :
    Nat → jpeg_encode_t → Nat → Int → Except Fault (List (Int × Nat) × List (List Byte))
  | 0, _, _, _ => .error .nofuel
  | fuel + 1, ptr, next_scanline, pos =>
    if (next_scanline : Int) < ptr.height then do
      let nrow := (ptr.height - next_scanline).toNat
      let nrow := if nrow > UNIT_LINES then UNIT_LINES else nrow
      let rows ← push_rows ptr data pos nrow
      let ptr := { ptr with rows := rows }
      let lines := jpeg_write_scanlines ptr nrow
      let (calls, rest) ← do_encode_loop data fuel ptr (next_scanline + nrow)
        (pos + ptr.stride * nrow)
      pure ((pos, nrow) :: calls, lines ++ rest)
    else pure ([], [])

/-- The normal path of `do_encode`. -/
def do_encode (ptr : jpeg_encode_t) (data : List Byte) : Except Fault encode_out := do
  let app1 := if ptr.orientation ≠ 0 then some (put_exif_tags ptr.orientation) else none
  let (calls, lines) ← do_encode_loop data (ptr.height.toNat + 1) ptr 0 0
  pure { app1 := app1, calls := calls, lines := lines }

/-- The function `rb_encoder_encode` on a string `data`. -/
def rb_encoder_encode (ptr : jpeg_encode_t) (data : List Byte) : Except Fault encode_out :=
  if (data.length : Int) < ptr.data_size then
    throw (.raise .rb_eArgError "image data is too short")
  else if (data.length : Int) > ptr.data_size then
    throw (.raise .rb_eArgError "image data is too large")
  else do_encode ptr data

/-- No option given. -/
def opts_default : encoder_opts :=
  { pixel_format := .undef, quality := .undef, dct_method := .undef,
    orientation := .undef, stride := .undef }

/-- The calls of `push_rows` an encoding of `h` rows makes from row `n` on: batch `k`
starts at row `n + 10 * k`, at offset `stride * (n + 10 * k)`, and has
`min 10 (rows left)` rows. -/
def batch_calls (stride : Int) (h n : Nat) : List (Int × Nat) :=
  (List.range ((h - n + 9) / 10)).map
    (fun k => (stride * ((n + 10 * k : Nat) : Int), min 10 (h - (n + 10 * k))))

/-- The context `set_encoder_context` makes for width 1, height 12, layout GRAYSCALE
and stride 2. -/
def encoder_gray_1x12 : jpeg_encode_t :=
  { width := 1, stride := 2, height := 12, data_size := 24, format := FMT_GRAYSCALE,
    color_space := .JCS_GRAYSCALE, components := 1, quality := 75,
    dct_method := .JDCT_IFAST, rows := List.replicate 10 0, orientation := 0 }

/-! ## Decoder options, `set_decoder_context`, `create_meta`

Option values of the decoder are Ruby values (`RVal`); `TYPE(opt)` is the constructor.
The flag word `ptr->flags` is a natural number below 2^32. -/

/-- A Ruby value given as an option of the decoder. -/
inductive RVal where
  | Qundef
  | Qnil
  | Qfalse
  | Qtrue
  | fixnum (v : Int)
  | flonum (d : Double)
  | string (s : String)
  | symbol (s : String)
  | rational (num den : Int)
  | ary (elems : List RVal)
  | other

/-- The macro `RTEST`. -/
def RTEST : RVal → Bool
  | .Qnil => false
  | .Qfalse => false
  | _ => true

/-- The test `opt != Qundef && RTEST(opt)`. -/
def opt_true : RVal → Bool
  | .Qundef => false
  | v => RTEST v

/-- The call `rb_ary_entry(ary, i)`. -/
def rb_ary_entry (elems : List RVal) (i : Nat) : RVal := elems.getD i .Qnil

/-- The values of `J_DITHER_MODE` (jpeglib.h). -/
inductive J_DITHER_MODE where
  | JDITHER_NONE
  | JDITHER_ORDERED
  | JDITHER_FS
  deriving DecidableEq, Repr

def F_NEED_META : Nat := 0x00000001
def F_EXPAND_COLORMAP : Nat := 0x00000002
def F_PARSE_EXIF : Nat := 0x00000004
def F_APPLY_ORIENTATION : Nat := 0x00000008
def F_DITHER : Nat := 0x00000010
def F_CREAT : Nat := 0x00010000
def DEFAULT_DECODE_FLAGS : Nat := F_NEED_META
def FMT_YVU : Int := 20

/-- The fields of `jpeg_decode_t` outside `cinfo`; `orientation_value` is
`orientation.value`. -/
structure jpeg_decode_t where
  flags : Nat
  format : Int
  out_color_space : J_COLOR_SPACE
  scale_num : Int
  scale_denom : Int
  out_color_components : Int
  output_gamma : Double
  buffered_image : Bool
  do_fancy_upsampling : Bool
  do_block_smoothing : Bool
  quantize_colors : Bool
  dither_mode : J_DITHER_MODE
  dct_method : J_DCT_METHOD
  two_pass_quantize : Bool
  desired_number_of_colors : Int
  enable_1pass_quant : Bool
  enable_external_quant : Bool
  enable_2pass_quant : Bool
  orientation_value : Int
  deriving DecidableEq

/-- The macro `SET_FLAG`. -/
def SET_FLAG (ptr : jpeg_decode_t) (msk : Nat) : jpeg_decode_t :=
  { ptr with flags := ptr.flags ||| msk }

/-- The macro `CLR_FLAG`. -/
def CLR_FLAG (ptr : jpeg_decode_t) (msk : Nat) : jpeg_decode_t :=
  { ptr with flags := ptr.flags &&& (0xFFFFFFFF ^^^ msk) }

/-- The macro `TEST_FLAG`. -/
def TEST_FLAG (ptr : jpeg_decode_t) (msk : Nat) : Bool := ptr.flags &&& msk != 0

/-- The macro `TEST_FLAG_ALL`. -/
def TEST_FLAG_ALL (ptr : jpeg_decode_t) (msk : Nat) : Bool := ptr.flags &&& msk == msk

/-- The branch for `T_STRING` and `T_SYMBOL` of `eval_decoder_pixel_format_opt`. -/
def decoder_format_of_name (s : String) : Except Exc (Int × J_COLOR_SPACE × Int) :=
  if s = "RGB" ∨ s = "RGB24" then .ok (FMT_RGB, .JCS_RGB, 3)
  else if s = "YUV422" ∨ s = "YUYV" then
    .error ⟨.rb_eNotImpError, "not implemented colorspace"⟩
  else if s = "RGB565" then .error ⟨.rb_eNotImpError, "not implemented colorspace"⟩
  else if s = "GRAYSCALE" then .ok (FMT_GRAYSCALE, .JCS_GRAYSCALE, 1)
  else if s = "YUV444" ∨ s = "YCbCr" then .ok (FMT_YUV, .JCS_YCbCr, 3)
  else if s = "BGR" ∨ s = "BGR24" then .ok (FMT_BGR, .JCS_EXT_BGR, 3)
  else if s = "YVU444" ∨ s = "YCrCb" then .ok (FMT_YVU, .JCS_YCbCr, 3)
  else if s = "RGBX" ∨ s = "RGB32" then .ok (FMT_RGB32, .JCS_EXT_RGBX, 4)
  else if s = "BGRX" ∨ s = "BGR32" then .ok (FMT_BGR32, .JCS_EXT_BGRX, 4)
  else .error (create_argument_error "unsupportd :pixel_format option value")

def eval_decoder_pixel_format_opt (ptr : jpeg_decode_t) (opt : RVal) :
    Option Exc × jpeg_decode_t :=
  let r : Except Exc (Int × J_COLOR_SPACE × Int) :=
    match opt with
    | .Qundef => .ok (FMT_RGB, .JCS_RGB, 3)
    | .string s => decoder_format_of_name s
    | .symbol s => decoder_format_of_name s
    | _ => .error (create_type_error "unsupportd :pixel_format option type")
  match r with
  | .ok (format, color_space, components) =>
    (none, { ptr with format := format, out_color_space := color_space,
                      out_color_components := components })
  | .error ret => (some ret, ptr)

/-- The test `isnan(d) || isinf(d)`. -/
def not_finite : Double → Bool
  | .fin _ => false
  | _ => true

def eval_decoder_output_gamma_opt (ptr : jpeg_decode_t) (opt : RVal) :
    Option Exc × jpeg_decode_t :=
  let r : Except Exc Double :=
    match opt with
    | .Qundef => .ok (.fin 0)
    | .fixnum v => .ok (.fin v)
    | .flonum d =>
      if not_finite d then .error (create_argument_error "unsupported :output_gamma value")
      else .ok d
    | _ => .error (create_type_error "unsupported :output_gamma type")
  match r with
  | .ok gamma => (none, { ptr with output_gamma := gamma })
  | .error ret => (some ret, ptr)

def eval_decoder_do_fancy_upsampling_opt (ptr : jpeg_decode_t) (opt : RVal) :
    Option Exc × jpeg_decode_t :=
  (none, { ptr with do_fancy_upsampling := opt_true opt })

def eval_decoder_do_smoothing_opt (ptr : jpeg_decode_t) (opt : RVal) :
    Option Exc × jpeg_decode_t :=
  (none, { ptr with do_block_smoothing := opt_true opt })

/-- The dither mode and the `quant` flag of the first element of a `:dither` array. -/
def dither_mode_of (tmp : RVal) : Except Exc (J_DITHER_MODE × Bool) :=
  let of_name (s : String) : Except Exc (J_DITHER_MODE × Bool) :=
    if s = "NONE" then .ok (.JDITHER_NONE, false)
    else if s = "ORDERED" then .ok (.JDITHER_ORDERED, true)
    else if s = "FS" then .ok (.JDITHER_FS, true)
    else .error (create_argument_error "dither mode is illeagal value.")
  match tmp with
  | .string s => of_name s
  | .symbol s => of_name s
  | _ => .error (create_type_error "unsupported dither mode type")

/-- The branch for `T_ARRAY` of `eval_decoder_dither_opt`: an exception object, or
`mode`, `quant`, `pass2` and `ncol`. -/
def dither_of_array (elems : List RVal) :
    Except Fault (Except Exc (J_DITHER_MODE × Bool × Bool × Int)) :=
  if elems.length ≠ 3 then pure (.error (create_argument_error ":dither invalid size"))
  else
    match dither_mode_of (rb_ary_entry elems 0) with
    | .error e => pure (.error e)
    | .ok (mode, quant) =>
      let pass2 := RTEST (rb_ary_entry elems 1)
      match rb_ary_entry elems 2 with
      | .fixnum v =>
        if v < 8 then pure (.error (create_range_error "number of colors less than 0"))
        else if v > 256 then
          pure (.error (create_range_error "number of colors greater than 256"))
        else do
          let ncol ← FIX2INT v
          pure (.ok (mode, quant, pass2, ncol))
      | _ => pure (.error (create_type_error "unsupported number of colors type"))

def eval_decoder_dither_opt (ptr : jpeg_decode_t) (opt : RVal) :
    Except Fault (Option Exc × jpeg_decode_t) := do
  let r ←
    match opt with
    | .Qundef => pure (.ok (J_DITHER_MODE.JDITHER_NONE, false, false, (0 : Int)))
    | .ary elems => dither_of_array elems
    | _ => pure (.error (create_type_error "unsupported :dither type"))
  match r with
  | .error ret => pure (some ret, ptr)
  | .ok (mode, quant, pass2, ncol) =>
    let ptr := { ptr with dither_mode := mode, quantize_colors := quant,
                          two_pass_quantize := pass2, desired_number_of_colors := ncol }
    if mode ≠ .JDITHER_NONE then pure (none, SET_FLAG ptr F_DITHER) else pure (none, ptr)

def eval_decoder_without_meta_opt (ptr : jpeg_decode_t) (opt : RVal) :
    Option Exc × jpeg_decode_t :=
  if opt_true opt then (none, CLR_FLAG ptr F_NEED_META) else (none, SET_FLAG ptr F_NEED_META)

def eval_decoder_expand_colormap_opt (ptr : jpeg_decode_t) (opt : RVal) :
    Option Exc × jpeg_decode_t :=
  if opt_true opt then (none, SET_FLAG ptr F_EXPAND_COLORMAP)
  else (none, CLR_FLAG ptr F_EXPAND_COLORMAP)

/-- The cast `(int)` of a `long`. -/
def long_to_int (v : Int) : Int := to_int32 ((v % 2 ^ 32).toNat)

/-- The `switch (TYPE(opt))` of `eval_decoder_scale_opt`: an exception object, or
`scale_num` and `scale_denom`; the products by 1000 are taken exactly. -/
def scale_of (opt : RVal) : Except Fault (Except Exc (Int × Int)) :=
  match opt with
  | .Qundef => pure (.ok (1, 1))
  | .fixnum v =>
    if v ≤ 0 then pure (.error (create_range_error ":scale less equal 0"))
    else do
      let n ← FIX2INT v
      pure (.ok (n * 1000, 1000))
  | .flonum d =>
    match d with
    | .fin q =>
      if q ≤ 0 then pure (.error (create_range_error ":scale less equal 0"))
      else pure (.ok (NUM2INT (q * 1000), 1000))
    | _ => pure (.error (create_argument_error "unsupportd :quality option value"))
  | .rational num den => pure (.ok (long_to_int num, long_to_int den))
  | _ => pure (.error (create_type_error "unsupportd :scale option type"))

def eval_decoder_scale_opt (ptr : jpeg_decode_t) (opt : RVal) :
    Except Fault (Option Exc × jpeg_decode_t) := do
  let r ← scale_of opt
  match r with
  | .ok (scale_num, scale_denom) =>
    pure (none, { ptr with scale_num := scale_num, scale_denom := scale_denom })
  | .error ret => pure (some ret, ptr)

def eval_decoder_dct_method_opt (ptr : jpeg_decode_t) (opt : RVal) :
    Option Exc × jpeg_decode_t :=
  let r : Except Exc J_DCT_METHOD :=
    match opt with
    | .Qundef => .ok JDCT_FASTEST
    | .string s => dct_method_of_name s
    | .symbol s => dct_method_of_name s
    | _ => .error (create_type_error "unsupportd :dct_method option type")
  match r with
  | .ok dct_method => (none, { ptr with dct_method := dct_method })
  | .error ret => (some ret, ptr)

def eval_decoder_with_exif_tags_opt (ptr : jpeg_decode_t) (opt : RVal) :
    Option Exc × jpeg_decode_t :=
  if opt_true opt then (none, SET_FLAG ptr F_PARSE_EXIF) else (none, CLR_FLAG ptr F_PARSE_EXIF)

def eval_decoder_orientation_opt (ptr : jpeg_decode_t) (opt : RVal) :
    Option Exc × jpeg_decode_t :=
  if opt_true opt then (none, SET_FLAG ptr F_APPLY_ORIENTATION)
  else (none, CLR_FLAG ptr F_APPLY_ORIENTATION)

/-- The option values `rb_get_kwargs` hands to `set_decoder_context`
(`Qundef` for an absent key). -/
structure decoder_opts where
  pixel_format : RVal
  output_gamma : RVal
  do_fancy_upsampling : RVal
  do_smoothing : RVal
  dither : RVal
  without_meta : RVal
  expand_colormap : RVal
  scale : RVal
  dct_method : RVal
  with_exif_tags : RVal
  orientation : RVal

/-- One step `ret = eval(ptr, opt); if (RTEST(ret)) break;` followed by the rest. -/
def then_eval (r : Option Exc × jpeg_decode_t)
    (rest : jpeg_decode_t → Except Fault (Option Exc × jpeg_decode_t)) :
    Except Fault (Option Exc × jpeg_decode_t) :=
  match r with
  | (some e, p) => pure (some e, p)
  | (none, p) => rest p

/-- The function `set_decoder_context` up to the set-up of libjpeg. -/
def set_decoder_context (ptr : jpeg_decode_t) (opts : decoder_opts) :
    Except Fault (Option Exc × jpeg_decode_t) :=
  then_eval (eval_decoder_pixel_format_opt ptr opts.pixel_format) fun ptr =>
  then_eval (eval_decoder_output_gamma_opt ptr opts.output_gamma) fun ptr =>
  then_eval (eval_decoder_do_fancy_upsampling_opt ptr opts.do_fancy_upsampling) fun ptr =>
  then_eval (eval_decoder_do_smoothing_opt ptr opts.do_smoothing) fun ptr => do
  let r ← eval_decoder_dither_opt ptr opts.dither
  then_eval r fun ptr =>
  then_eval (eval_decoder_without_meta_opt ptr opts.without_meta) fun ptr =>
  then_eval (eval_decoder_expand_colormap_opt ptr opts.expand_colormap) fun ptr => do
  let r ← eval_decoder_scale_opt ptr opts.scale
  then_eval r fun ptr =>
  then_eval (eval_decoder_dct_method_opt ptr opts.dct_method) fun ptr =>
  then_eval (eval_decoder_with_exif_tags_opt ptr opts.with_exif_tags) fun ptr =>
  then_eval (eval_decoder_orientation_opt ptr opts.orientation) fun ptr =>
  pure (none, SET_FLAG { ptr with enable_1pass_quant := false, enable_external_quant := false,
                                  enable_2pass_quant := false, buffered_image := false,
                                  orientation_value := 0 } F_CREAT)

/-- The decoder context `rb_decoder_alloc` makes (`memset` to 0, default flags). -/
def decoder_ctx : jpeg_decode_t :=
  { flags := DEFAULT_DECODE_FLAGS, format := 0, out_color_space := .JCS_UNKNOWN,
    scale_num := 0, scale_denom := 0, out_color_components := 0, output_gamma := .fin 0,
    buffered_image := false, do_fancy_upsampling := false, do_block_smoothing := false,
    quantize_colors := false, dither_mode := .JDITHER_NONE, dct_method := .JDCT_ISLOW,
    two_pass_quantize := false, desired_number_of_colors := 0, enable_1pass_quant := false,
    enable_external_quant := false, enable_2pass_quant := false, orientation_value := 0 }

/-- No option given. -/
def decoder_opts_none : decoder_opts :=
  { pixel_format := .Qundef, output_gamma := .Qundef, do_fancy_upsampling := .Qundef,
    do_smoothing := .Qundef, dither := .Qundef, without_meta := .Qundef,
    expand_colormap := .Qundef, scale := .Qundef, dct_method := .Qundef,
    with_exif_tags := .Qundef, orientation := .Qundef }

/-- The output fields of `cinfo` that `create_meta` reads. -/
structure cinfo_t where
  output_width : Int
  output_height : Int
  output_components : Int
  out_color_components : Int
  deriving DecidableEq

/-- The instance variables `@width`, `@stride`, `@height` and `@num_components` of the
object `create_meta` returns. -/
structure meta_t where
  width : Int
  stride : Int
  height : Int
  num_components : Int
  deriving DecidableEq

/-- The function `create_meta`, for the four instance variables of `meta_t`. -/
def create_meta (ptr : jpeg_decode_t) (cinfo : cinfo_t) : meta_t :=
  let (width, height) :=
    if TEST_FLAG ptr F_APPLY_ORIENTATION ∧ ptr.orientation_value.toNat &&& 4 ≠ 0 then
      (cinfo.output_height, cinfo.output_width)
    else (cinfo.output_width, cinfo.output_height)
  let stride := cinfo.output_width * cinfo.output_components
  let ncompo :=
    if TEST_FLAG_ALL ptr (F_DITHER ||| F_EXPAND_COLORMAP) then cinfo.out_color_components
    else cinfo.output_components
  { width := width, stride := stride, height := height, num_components := ncompo }

/-! ## Lemmas on the readers -/

theorem load_of_lt {src : List Byte} {i : Nat} (h : i < src.length) :
    load src i = .ok (src[i]).val := by
  simp [load, List.getElem?_eq_getElem h]

theorem bytes_at_succ {src : List Byte} {p : Nat} (n : Nat) (h : p < src.length) :
    bytes_at src p (n + 1) = src[p] :: bytes_at src (p + 1) n := by
  unfold bytes_at
  rw [List.drop_eq_getElem_cons h, List.take_succ_cons]

theorem bytes_at_zero (src : List Byte) (p : Nat) : bytes_at src p 0 = [] := by
  simp [bytes_at]

theorem load_bytes_eq (src : List Byte) (n : Nat) : ∀ p, p + n ≤ src.length →
    load_bytes src p n = .ok (bytes_at src p n) := by
  induction n with
  | zero => intro p _; simp [load_bytes, bytes_at]
  | succ n ih =>
    intro p h
    have hp : p < src.length := by omega
    rw [load_bytes, List.getElem?_eq_getElem hp]
    simp only
    rw [ih (p + 1) (by omega), bytes_at_succ n hp]
    rfl

set_option maxRecDepth 100000 in
theorem shl8_mask (a : Byte) : (a.val <<< 8) &&& 0xff00 = a.val * 256 := by
  revert a; decide

set_option maxRecDepth 100000 in
theorem shl16_mask (a : Byte) : (a.val <<< 16) &&& 0x00ff0000 = a.val * 65536 := by
  revert a; decide

set_option maxRecDepth 100000 in
theorem shl24_mask (a : Byte) : (a.val <<< 24) &&& 0xff000000 = a.val * 16777216 := by
  revert a; decide

set_option maxRecDepth 100000 in
theorem and_ff (a : Byte) : a.val &&& 255 = a.val := by
  revert a; decide

theorem lor_byte (a : Nat) (b : Byte) : (a * 256) ||| b.val = a * 256 + b.val := by
  have h := Nat.mul_add_lt_is_or (i := 8) (b := b.val) (by simp) a
  rw [show (2 : Nat) ^ 8 = 256 by norm_num, Nat.mul_comm] at h
  exact h.symm

theorem lor_u16 (a b : Byte) : (a.val * 256) ||| b.val = a.val * 256 + b.val := lor_byte _ _

theorem lor_u32 (a b c d : Byte) :
    (a.val * 16777216) ||| (b.val * 65536) ||| (c.val * 256) ||| d.val
      = a.val * 16777216 + b.val * 65536 + c.val * 256 + d.val := by
  have hb := b.isLt
  have hc := c.isLt
  have h1 : (a.val * 16777216) ||| (b.val * 65536) = (a.val * 256 + b.val) * 65536 := by
    have h := Nat.mul_add_lt_is_or (i := 24) (b := b.val * 65536) (by norm_num; omega) a.val
    norm_num at h
    rw [Nat.mul_comm 16777216] at h
    rw [← h]; ring
  have h2 : ((a.val * 256 + b.val) * 65536) ||| (c.val * 256)
      = ((a.val * 256 + b.val) * 256 + c.val) * 256 := by
    have h := Nat.mul_add_lt_is_or (i := 16) (b := c.val * 256) (by norm_num; omega)
      (a.val * 256 + b.val)
    norm_num at h
    rw [Nat.mul_comm 65536] at h
    rw [← h]; ring
  rw [h1, h2, lor_byte]; ring

theorem get_u16_eq {src : List Byte} {p : Nat} (be : Bool) (h : p + 2 ≤ src.length) :
    get_u16 src p be = .ok (tiff_nat be (bytes_at src p 2)) := by
  have h0 : p < src.length := by omega
  have h1 : p + 1 < src.length := by omega
  rw [bytes_at_succ 1 h0, bytes_at_succ 0 h1, bytes_at_zero]
  unfold get_u16
  rw [load_of_lt h0, load_of_lt h1]
  cases be <;>
    simp [tiff_nat, be_nat, le_nat, bind, Except.bind, pure, Except.pure, shl8_mask,
      and_ff, lor_u16]
  omega

theorem get_u32_eq {src : List Byte} {p : Nat} (be : Bool) (h : p + 4 ≤ src.length) :
    get_u32 src p be = .ok (tiff_nat be (bytes_at src p 4)) := by
  have h0 : p < src.length := by omega
  have h1 : p + 1 < src.length := by omega
  have h2 : p + 2 < src.length := by omega
  have h3 : p + 3 < src.length := by omega
  rw [bytes_at_succ 3 h0, bytes_at_succ 2 h1, bytes_at_succ 1 h2, bytes_at_succ 0 h3,
    bytes_at_zero]
  unfold get_u32
  rw [load_of_lt h0, load_of_lt h1, load_of_lt h2, load_of_lt h3]
  cases be <;>
    simp [tiff_nat, be_nat, le_nat, bind, Except.bind, pure, Except.pure, shl8_mask,
      shl16_mask, shl24_mask, and_ff, lor_u32] <;> omega

/-! ## `exif_init` -/

theorem memcmp_eq_ok {src : List Byte} {p : Nat} (lit : List Byte)
    (h : p + lit.length ≤ src.length) :
    memcmp_eq src p lit = .ok (decide (bytes_at src p lit.length = lit)) := by
  simp [memcmp_eq, load_bytes_eq src lit.length p h, Except.map]

theorem sub_size_t_eq {a b : Nat} (ha : a < 2 ^ 64) (hb : b ≤ a) : sub_size_t a b = a - b := by
  unfold sub_size_t
  rw [Nat.mod_eq_of_lt ha, Nat.mod_eq_of_lt (lt_of_le_of_lt hb ha)]
  have : a + 2 ^ 64 - b = (a - b) + 2 ^ 64 := by omega
  rw [this, Nat.add_mod_right, Nat.mod_eq_of_lt (by omega)]

theorem exif_init_eq (src : List Byte) (h : 14 ≤ src.length) (hs : src.length < 2 ^ 64) :
    exif_init src src.length =
      if bytes_at src 0 6 ≠ exif_ident then
        .error (.raise .decerr_klass "invalid exif identifier")
      else if bytes_at src 6 2 ≠ mark_MM ∧ bytes_at src 6 2 ≠ mark_II then
        .error (.raise .decerr_klass "invalid tiff header")
      else if tiff_nat (decide (bytes_at src 6 2 = mark_MM)) (bytes_at src 8 2) ≠ 0x002a then
        .error (.raise .decerr_klass "invalid tiff identifier")
      else if tiff_nat (decide (bytes_at src 6 2 = mark_MM)) (bytes_at src 10 4) < 8
          ∨ src.length - 6 ≤ tiff_nat (decide (bytes_at src 6 2 = mark_MM)) (bytes_at src 10 4) then
        .error (.raise .decerr_klass "invalid offset dentifier")
      else
        .ok { be := decide (bytes_at src 6 2 = mark_MM), head := 6,
              cur := 6 + tiff_nat (decide (bytes_at src 6 2 = mark_MM)) (bytes_at src 10 4),
              size := sub_size_t src.length
                (add_u32 6 (tiff_nat (decide (bytes_at src 6 2 = mark_MM)) (bytes_at src 10 4))),
              tags := tag_tiff, next := false } := by
  have e1 := @memcmp_eq_ok src 0 exif_ident (by simp [exif_ident]; omega)
  have e2 := @memcmp_eq_ok src 6 mark_MM (by simp [mark_MM]; omega)
  have e3 := @memcmp_eq_ok src 6 mark_II (by simp [mark_II]; omega)
  have l1 : exif_ident.length = 6 := rfl
  have l2 : mark_MM.length = 2 := rfl
  have l3 : mark_II.length = 2 := rfl
  rw [l1] at e1; rw [l2] at e2; rw [l3] at e3
  have e4 := fun be => @get_u16_eq src 8 be (by omega)
  have e5 := fun be => @get_u32_eq src 10 be (by omega)
  have e6 : sub_size_t src.length 6 = src.length - 6 := sub_size_t_eq (by omega) (by omega)
  unfold exif_init
  rw [e1, e2, e3, e6]
  by_cases c1 : bytes_at src 0 6 = exif_ident
  · by_cases c2 : bytes_at src 6 2 = mark_MM
    · simp [c1, c2, e4, e5, bind, Except.bind, pure, Except.pure, throw, throwThe,
        MonadExceptOf.throw]
    · by_cases c3 : bytes_at src 6 2 = mark_II
      · have hne : mark_II ≠ mark_MM := by decide
        simp [c1, c3, hne, e4, e5, bind, Except.bind, pure, Except.pure, throw, throwThe,
          MonadExceptOf.throw]
      · simp [c1, c2, c3, bind, Except.bind, pure, Except.pure, throw, throwThe,
          MonadExceptOf.throw]
  · simp [c1, bind, Except.bind, pure, Except.pure, throw, throwThe, MonadExceptOf.throw]

/-- C3: on a payload of at least 14 bytes `exif_init` raises when bytes 0..5 are not
`Exif\0\0`, when bytes 6..7 are neither `II` nor `MM`, and when the 16-bit value at
bytes 8..9 in the marked byte order is not 0x002A; with all three valid and the
first-directory offset in range it returns the context with `be` false for `II` and
true for `MM`, `head` at byte 6, `cur` at `head + offset` and the table `tag_tiff`
(`size` being `size - (6 + offset)` in the arithmetic of the C types). -/
theorem exif_init_header (src : List Byte) (h14 : 14 ≤ src.length)
    (hs : src.length < 2 ^ 64) :
    (bytes_at src 0 6 ≠ exif_ident →
      ∃ msg, exif_init src src.length = .error (.raise .decerr_klass msg)) ∧
    (bytes_at src 6 2 ≠ mark_II ∧ bytes_at src 6 2 ≠ mark_MM →
      ∃ msg, exif_init src src.length = .error (.raise .decerr_klass msg)) ∧
    (∀ be : Bool, bytes_at src 6 2 = (if be then mark_MM else mark_II) →
      tiff_nat be (bytes_at src 8 2) ≠ 0x002a →
      ∃ msg, exif_init src src.length = .error (.raise .decerr_klass msg)) ∧
    (∀ be : Bool, bytes_at src 0 6 = exif_ident →
      bytes_at src 6 2 = (if be then mark_MM else mark_II) →
      tiff_nat be (bytes_at src 8 2) = 0x002a →
      8 ≤ tiff_nat be (bytes_at src 10 4) →
      tiff_nat be (bytes_at src 10 4) < src.length - 6 →
      exif_init src src.length = .ok
        { be := be, head := 6, cur := 6 + tiff_nat be (bytes_at src 10 4),
          size := sub_size_t src.length (add_u32 6 (tiff_nat be (bytes_at src 10 4))),
          tags := tag_tiff, next := false }) := by
  have key := exif_init_eq src h14 hs
  have hne : mark_II ≠ mark_MM := by decide
  refine ⟨?_, ?_, ?_, ?_⟩
  · intro h1
    rw [key, if_pos h1]
    exact ⟨_, rfl⟩
  · intro h2
    rw [key]
    by_cases h1 : bytes_at src 0 6 ≠ exif_ident
    · rw [if_pos h1]; exact ⟨_, rfl⟩
    · rw [if_neg h1, if_pos ⟨h2.2, h2.1⟩]; exact ⟨_, rfl⟩
  · intro be hbo hmag
    have hbe : decide (bytes_at src 6 2 = mark_MM) = be := by
      cases be <;> simp [hbo, hne]
    rw [key]
    by_cases h1 : bytes_at src 0 6 ≠ exif_ident
    · rw [if_pos h1]; exact ⟨_, rfl⟩
    · rw [if_neg h1]
      by_cases h2 : bytes_at src 6 2 ≠ mark_MM ∧ bytes_at src 6 2 ≠ mark_II
      · rw [if_pos h2]; exact ⟨_, rfl⟩
      · rw [if_neg h2, hbe, if_pos hmag]; exact ⟨_, rfl⟩
  · intro be hid hbo hmag hlo hhi
    have hbe : decide (bytes_at src 6 2 = mark_MM) = be := by
      cases be <;> simp [hbo, hne]
    have h2 : ¬ (bytes_at src 6 2 ≠ mark_MM ∧ bytes_at src 6 2 ≠ mark_II) := by
      cases be <;> simp [hbo]
    rw [key, if_neg (by simpa using hid), if_neg h2, hbe, if_neg (by simpa using hmag),
      if_neg (by omega)]

/-- Instance: the 15-byte little-endian payload `blob_ii_15` is accepted with
`be` false, `head` 6, `cur` 14 and the table `tag_tiff`. -/
theorem exif_init_header_witness :
    exif_init blob_ii_15 blob_ii_15.length = .ok
      { be := false, head := 6, cur := 14, size := 1, tags := tag_tiff, next := false } :=
  (exif_init_header blob_ii_15 (by decide) (by decide)).2.2.2 false
    (by decide) (by decide) (by decide) (by decide) (by decide)

/-- C4: with identifier, byte-order marker and magic valid, `exif_init` returns a
context exactly when `8 ≤ off < blob_size - 6` for the first-directory offset `off`,
and raises "invalid offset dentifier" otherwise; offset 8 is accepted (whenever
`8 < blob_size - 6`) and the offset `blob_size - 6` is rejected. -/
theorem exif_init_offset_range (src : List Byte) (be : Bool) (h14 : 14 ≤ src.length)
    (hs : src.length < 2 ^ 64) (hid : bytes_at src 0 6 = exif_ident)
    (hbo : bytes_at src 6 2 = (if be then mark_MM else mark_II))
    (hmag : tiff_nat be (bytes_at src 8 2) = 0x002a) :
    ((∃ ctx, exif_init src src.length = .ok ctx) ↔
      (8 ≤ tiff_nat be (bytes_at src 10 4) ∧
        tiff_nat be (bytes_at src 10 4) < src.length - 6)) ∧
    (¬ (8 ≤ tiff_nat be (bytes_at src 10 4) ∧
        tiff_nat be (bytes_at src 10 4) < src.length - 6) →
      exif_init src src.length
        = .error (.raise .decerr_klass "invalid offset dentifier")) ∧
    (tiff_nat be (bytes_at src 10 4) = 8 → 8 < src.length - 6 →
      ∃ ctx, exif_init src src.length = .ok ctx) ∧
    (tiff_nat be (bytes_at src 10 4) = src.length - 6 →
      exif_init src src.length
        = .error (.raise .decerr_klass "invalid offset dentifier")) := by
  have key := exif_init_eq src h14 hs
  have hne : mark_II ≠ mark_MM := by decide
  have hbe : decide (bytes_at src 6 2 = mark_MM) = be := by
    cases be <;> simp [hbo, hne]
  have h2 : ¬ (bytes_at src 6 2 ≠ mark_MM ∧ bytes_at src 6 2 ≠ mark_II) := by
    cases be <;> simp [hbo]
  rw [if_neg (by simpa using hid), if_neg h2, hbe, if_neg (by simpa using hmag)] at key
  have hrej : ¬ (8 ≤ tiff_nat be (bytes_at src 10 4) ∧
        tiff_nat be (bytes_at src 10 4) < src.length - 6) →
      exif_init src src.length
        = .error (.raise .decerr_klass "invalid offset dentifier") := by
    intro hn
    rw [key, if_pos (by omega)]
  have hacc : (8 ≤ tiff_nat be (bytes_at src 10 4) ∧
        tiff_nat be (bytes_at src 10 4) < src.length - 6) →
      ∃ ctx, exif_init src src.length = .ok ctx := by
    intro hn
    rw [key, if_neg (by omega)]
    exact ⟨_, rfl⟩
  refine ⟨⟨?_, hacc⟩, hrej, ?_, ?_⟩
  · rintro ⟨ctx, hctx⟩
    by_contra hn
    rw [hrej hn] at hctx
    cases hctx
  · intro h8 hlt
    exact hacc ⟨by omega, by omega⟩
  · intro heq
    exact hrej (by omega)

/-- Instance: offset 8 in the 15-byte payload `blob_ii_15` is accepted. -/
theorem exif_init_offset_range_witness :
    ∃ ctx, exif_init blob_ii_15 blob_ii_15.length = .ok ctx :=
  (exif_init_offset_range blob_ii_15 false (by decide) (by decide) (by decide) (by decide)
    (by decide)).2.2.1 (by decide) (by decide)

/-! ## `lookup_tag_symbol` -/

theorem table_ordered_chain : ∀ tbl : List tag_entry_t, table_ordered tbl = true →
    List.Chain' entry_le tbl
  | [], _ => List.chain'_nil
  | [_], _ => List.chain'_singleton _
  | a :: b :: rest, h => by
    simp only [table_ordered, Bool.and_eq_true, decide_eq_true_eq] at h
    exact List.chain'_cons.mpr ⟨h.1, table_ordered_chain (b :: rest) h.2⟩

theorem table_ordered_get {tbl : List tag_entry_t} (h : table_ordered tbl = true)
    {i j : Nat} (hij : i < j) (hi : i < tbl.length) (hj : j < tbl.length) :
    entry_le tbl[i] tbl[j] :=
  List.pairwise_iff_getElem.mp (List.chain'_iff_pairwise.mp (table_ordered_chain tbl h))
    i j hi hj hij

theorem tables_ordered : table_ordered tag_tiff = true ∧ table_ordered tag_exif = true ∧
    table_ordered tag_gps = true ∧ table_ordered tag_i14y = true := by
  refine ⟨?_, ?_, ?_, ?_⟩ <;> decide

theorem lookup_loop_spec (tbl : List tag_entry_t) (tag : Int)
    (hord : table_ordered tbl = true) :
    ∀ (fuel : Nat) (l r : Int), 0 ≤ l → r < tbl.length → l ≤ r + 1 → r + 1 - l < fuel →
      (∀ (j : Nat) (hj : j < tbl.length), (j : Int) < l → tbl[j].tag < tag) →
      (∀ (j : Nat) (hj : j < tbl.length), r < (j : Int) → tag < tbl[j].tag) →
      (∃ e ∈ tbl, e.tag = tag ∧
          lookup_loop tbl tag fuel l r = .ok (some (name_value e.name))) ∨
        ((∀ e ∈ tbl, e.tag ≠ tag) ∧ lookup_loop tbl tag fuel l r = .ok none) := by
  intro fuel
  induction fuel with
  | zero => intro l r _ _ _ hf; omega
  | succ fuel ih =>
    intro l r hl hr hlr hf hlo hhi
    rw [lookup_loop]
    by_cases hge : r ≥ l
    · rw [if_pos hge]
      have hdiv : (l + r).tdiv 2 = (l + r) / 2 := Int.tdiv_eq_ediv (by omega) (by omega)
      simp only [hdiv]
      have hi0 : 0 ≤ (l + r) / 2 := by omega
      have hi1 : l ≤ (l + r) / 2 := by omega
      have hi2 : (l + r) / 2 ≤ r := by omega
      have hi3 : ((l + r) / 2).toNat < tbl.length := by omega
      have hcast : ((((l + r) / 2).toNat : Nat) : Int) = (l + r) / 2 := Int.toNat_of_nonneg hi0
      rw [List.getElem?_eq_getElem hi3]
      simp only
      by_cases hlt : tbl[((l + r) / 2).toNat].tag < tag
      · rw [if_pos hlt]
        apply ih ((l + r) / 2 + 1) r (by omega) hr (by omega) (by omega) _ hhi
        intro j hj hjl
        by_cases hjeq : j = ((l + r) / 2).toNat
        · subst hjeq; exact hlt
        · have := table_ordered_get hord (i := j) (j := ((l + r) / 2).toNat) (by omega) hj hi3
          rcases this with h1 | h1
          · omega
          · rw [h1]; exact hlt
      · rw [if_neg hlt]
        by_cases hgt : tbl[((l + r) / 2).toNat].tag > tag
        · rw [if_pos hgt]
          apply ih l ((l + r) / 2 - 1) hl (by omega) (by omega) (by omega) hlo
          intro j hj hjr
          by_cases hjeq : j = ((l + r) / 2).toNat
          · subst hjeq; exact hgt
          · have := table_ordered_get hord (i := ((l + r) / 2).toNat) (j := j) (by omega) hi3 hj
            rcases this with h1 | h1
            · omega
            · rw [← h1]; exact hgt
        · rw [if_neg hgt]
          left
          refine ⟨tbl[((l + r) / 2).toNat], List.getElem_mem _, by omega, ?_⟩
          cases hname : tbl[((l + r) / 2).toNat].name <;> simp [name_value]
    · rw [if_neg hge]
      right
      refine ⟨?_, rfl⟩
      intro e he
      obtain ⟨j, hj, rfl⟩ := List.getElem_of_mem he
      by_cases hjl : (j : Int) < l
      · have := hlo j hj hjl; omega
      · have := hhi j hj (by omega); omega


theorem hex_digit_eq (d : Nat) (h : d < 16) : hex_digit d = lower_hex d := by
  interval_cases d <;> rfl

theorem to_uint32_of_nonneg {t : Int} (h0 : 0 ≤ t) (h1 : t < 2 ^ 32) :
    to_uint32 t = t.toNat := by
  unfold to_uint32
  rw [Int.emod_eq_of_lt h0 h1]

theorem sprintf_04x_eq (tag : Int) (h0 : 0 ≤ tag) (h1 : tag ≤ 0xFFFF) :
    sprintf_04x tag = hex4 tag.toNat := by
  have hu : to_uint32 tag = tag.toNat := to_uint32_of_nonneg h0 (by omega)
  have ht : tag.toNat < 65536 := by omega
  generalize tag.toNat = t at hu ht
  have hz : '0' = lower_hex 0 := rfl
  unfold sprintf_04x hex4
  rw [hu]
  by_cases c1 : t < 16
  · have e : hex_digits 8 t = [hex_digit t] := by simp [hex_digits, c1]
    rw [e, hex_digit_eq t c1]
    have a1 : t / 4096 % 16 = 0 := by omega
    have a2 : t / 256 % 16 = 0 := by omega
    have a3 : t / 16 % 16 = 0 := by omega
    have a4 : t % 16 = t := by omega
    rw [a1, a2, a3, a4]
    rfl
  · by_cases c2 : t < 256
    · have e : hex_digits 8 t = [hex_digit (t / 16), hex_digit (t % 16)] := by
        have : t / 16 < 16 := by omega
        simp [hex_digits, c1, this]
      rw [e, hex_digit_eq _ (by omega), hex_digit_eq _ (by omega)]
      have a1 : t / 4096 % 16 = 0 := by omega
      have a2 : t / 256 % 16 = 0 := by omega
      have a3 : t / 16 % 16 = t / 16 := by omega
      rw [a1, a2, a3]
      rfl
    · by_cases c3 : t < 4096
      · have e : hex_digits 8 t
            = [hex_digit (t / 16 / 16), hex_digit (t / 16 % 16), hex_digit (t % 16)] := by
          have h1 : ¬ t / 16 < 16 := by omega
          have h2 : t / 16 / 16 < 16 := by omega
          simp [hex_digits, c1, h1, h2]
        rw [e, hex_digit_eq _ (by omega), hex_digit_eq _ (by omega),
          hex_digit_eq _ (by omega)]
        have a1 : t / 4096 % 16 = 0 := by omega
        have a2 : t / 256 % 16 = t / 16 / 16 := by omega
        rw [a1, a2]
        rfl
      · have e : hex_digits 8 t
            = [hex_digit (t / 16 / 16 / 16), hex_digit (t / 16 / 16 % 16),
               hex_digit (t / 16 % 16), hex_digit (t % 16)] := by
          have h1 : ¬ t / 16 < 16 := by omega
          have h2 : ¬ t / 16 / 16 < 16 := by omega
          have h3 : t / 16 / 16 / 16 < 16 := by omega
          simp [hex_digits, c1, h1, h2, h3]
        rw [e, hex_digit_eq _ (by omega), hex_digit_eq _ (by omega),
          hex_digit_eq _ (by omega), hex_digit_eq _ (by omega)]
        have a1 : t / 4096 % 16 = t / 16 / 16 / 16 := by omega
        have a2 : t / 256 % 16 = t / 16 / 16 % 16 := by omega
        rw [a1, a2]
        rfl

theorem lookup_tag_symbol_spec (tbl : List tag_entry_t) (hord : table_ordered tbl = true)
    (tag : Int) (h0 : 0 ≤ tag) (h1 : tag ≤ 0xFFFF) :
    (∀ e ∈ tbl, e.tag = tag →
      lookup_tag_symbol tbl tbl.length tag = .ok (name_value e.name)) ∧
    ((∀ e ∈ tbl, e.tag ≠ tag) →
      lookup_tag_symbol tbl tbl.length tag
        = .ok (ID2SYM (String.mk ("tag_".toList ++ hex4 tag.toNat)))) := by
  have key := lookup_loop_spec tbl tag hord (tbl.length + 1) 0 ((tbl.length : Int) - 1)
    (by omega) (by omega) (by omega) (by omega)
    (fun j _ hj => by omega) (fun j hj hlt => by omega)
  constructor
  · intro e he hetag
    rcases key with ⟨e', he', htag', hres⟩ | ⟨hnone, _⟩
    · have hsame : e'.name = e.name := by
        obtain ⟨i, hi, rfl⟩ := List.getElem_of_mem he
        obtain ⟨j, hj, rfl⟩ := List.getElem_of_mem he'
        rcases Nat.lt_trichotomy i j with hij | hij | hij
        · rcases table_ordered_get hord hij hi hj with h | h
          · omega
          · rw [h]
        · subst hij; rfl
        · rcases table_ordered_get hord hij hj hi with h | h
          · omega
          · rw [h]
      unfold lookup_tag_symbol
      rw [hres, hsame]
      rfl
    · exact absurd hetag (hnone e he)
  · intro habs
    rcases key with ⟨e', he', htag', _⟩ | ⟨_, hres⟩
    · exact absurd htag' (habs e' he')
    · unfold lookup_tag_symbol
      rw [hres, ← sprintf_04x_eq tag h0 h1]
      rfl

/-- C5: for each of the tables `tag_tiff`, `tag_exif`, `tag_gps`, `tag_i14y` and every
tag id in 0..0xFFFF, `lookup_tag_symbol` returns the symbol of the name of any table
entry carrying that id (nil for an entry without name), and for an id no entry carries
the symbol `tag_` followed by the id in exactly four lower-case hexadecimal digits. -/
theorem lookup_tag_symbol_tables (tbl : List tag_entry_t)
    (htbl : tbl ∈ [tag_tiff, tag_exif, tag_gps, tag_i14y])
    (tag : Int) (h0 : 0 ≤ tag) (h1 : tag ≤ 0xFFFF) :
    (∀ e ∈ tbl, e.tag = tag →
      lookup_tag_symbol tbl tbl.length tag = .ok (name_value e.name)) ∧
    ((∀ e ∈ tbl, e.tag ≠ tag) →
      lookup_tag_symbol tbl tbl.length tag
        = .ok (ID2SYM (String.mk ("tag_".toList ++ hex4 tag.toNat)))) := by
  have hord : table_ordered tbl = true := by
    simp only [List.mem_cons, List.mem_singleton, List.not_mem_nil, or_false] at htbl
    rcases htbl with h | h | h | h <;> subst h
    · exact tables_ordered.1
    · exact tables_ordered.2.1
    · exact tables_ordered.2.2.1
    · exact tables_ordered.2.2.2
  exact lookup_tag_symbol_spec tbl hord tag h0 h1

/-- Instance: a named id, an id without name and an absent id. -/
theorem lookup_tag_symbol_tables_witness :
    lookup_tag_symbol tag_tiff tag_tiff.length 0x0112 = .ok (ID2SYM "orientation") ∧
    lookup_tag_symbol tag_exif tag_exif.length 0xa005 = .ok .Qnil ∧
    lookup_tag_symbol tag_gps tag_gps.length 0x0112
      = .ok (ID2SYM "tag_0112") :=
  ⟨(lookup_tag_symbol_tables tag_tiff (by simp) 0x0112 (by decide) (by decide)).1
      ⟨0x0112, some "orientation"⟩ (by decide) rfl,
   (lookup_tag_symbol_tables tag_exif (by simp) 0xa005 (by decide) (by decide)).1
      ⟨0xa005, none⟩ (by decide) rfl,
   (lookup_tag_symbol_tables tag_gps (by simp) 0x0112 (by decide) (by decide)).2
      (by decide)⟩

/-! ## Value decoders -/

theorem tiff_nat_enc1 (be : Bool) (v : Nat) (h : v < 256) :
    tiff_nat be (tiff_enc be 1 v) = v := by
  cases be <;> simp [tiff_nat, tiff_enc, enc_le, be_nat, le_nat] <;> omega

theorem tiff_nat_enc2 (be : Bool) (v : Nat) (h : v < 65536) :
    tiff_nat be (tiff_enc be 2 v) = v := by
  cases be <;> simp [tiff_nat, tiff_enc, enc_le, be_nat, le_nat] <;> omega

theorem tiff_nat_enc4 (be : Bool) (v : Nat) (h : v < 2 ^ 32) :
    tiff_nat be (tiff_enc be 4 v) = v := by
  cases be <;> simp [tiff_nat, tiff_enc, enc_le, be_nat, le_nat] <;> omega

theorem to_int32_enc (v : Int) (h0 : -(2 ^ 31) ≤ v) (h1 : v < 2 ^ 31) :
    to_int32 (v % 2 ^ 32).toNat = v := by
  unfold to_int32
  split <;> omega


theorem load_eq {src : List Byte} {p : Nat} (be : Bool) (h : p + 1 ≤ src.length) :
    load src p = .ok (tiff_nat be (bytes_at src p 1)) := by
  have h0 : p < src.length := by omega
  rw [bytes_at_succ 0 h0, bytes_at_zero, load_of_lt h0]
  cases be <;> simp [tiff_nat, be_nat, le_nat]

theorem get_s32_eq {src : List Byte} {p : Nat} (be : Bool) (h : p + 4 ≤ src.length) :
    get_s32 src p be = .ok (to_int32 (tiff_nat be (bytes_at src p 4))) := by
  unfold get_s32
  rw [get_u32_eq be h]
  rfl

/-- C6: in either byte order, a directory entry with count 1 whose value field starts
with the TIFF encoding of `v` decodes to the Fixnum `v`: for type byte (1) with
`v < 256`, type short (3) with `v < 65536`, type long (4) with `v < 2^32`, and type
signed long (9) with `-2^31 ≤ v < 2^31` stored in two's complement. -/
theorem integer_round_trip (src : List Byte) (ptr : exif_t)
    (hentry : ptr.cur + 12 ≤ src.length)
    (hcount : bytes_at src (ptr.cur + 4) 4 = tiff_enc ptr.be 4 1) :
    (∀ v : Nat, v < 256 → bytes_at src (ptr.cur + 8) 1 = tiff_enc ptr.be 1 v →
        exif_fetch_data src ptr 1 = .ok (.fixnum v)) ∧
    (∀ v : Nat, v < 65536 → bytes_at src (ptr.cur + 8) 2 = tiff_enc ptr.be 2 v →
        exif_fetch_data src ptr 3 = .ok (.fixnum v)) ∧
    (∀ v : Nat, v < 2 ^ 32 → bytes_at src (ptr.cur + 8) 4 = tiff_enc ptr.be 4 v →
        exif_fetch_data src ptr 4 = .ok (.fixnum v)) ∧
    (∀ v : Int, -(2 ^ 31) ≤ v → v < 2 ^ 31 →
        bytes_at src (ptr.cur + 8) 4 = tiff_enc_s32 ptr.be v →
        exif_fetch_data src ptr 9 = .ok (.fixnum v)) := by
  have hn : get_u32 src (ptr.cur + 4) ptr.be = .ok 1 := by
    rw [get_u32_eq ptr.be (by omega), hcount, tiff_nat_enc4 _ _ (by norm_num)]
  refine ⟨?_, ?_, ?_, ?_⟩
  · intro v hv hval
    have e : load src (ptr.cur + 8) = .ok v := by
      rw [load_eq ptr.be (by omega), hval, tiff_nat_enc1 _ _ hv]
    simp [exif_fetch_data, exif_fetch_byte_data, hn, e, bind, Except.bind, pure,
      Except.pure, INT2FIX]
  · intro v hv hval
    have e : get_u16 src (ptr.cur + 8) ptr.be = .ok v := by
      rw [get_u16_eq ptr.be (by omega), hval, tiff_nat_enc2 _ _ hv]
    simp [exif_fetch_data, exif_fetch_short_data, hn, e, bind, Except.bind, pure,
      Except.pure, INT2FIX]
  · intro v hv hval
    have e : get_u32 src (ptr.cur + 8) ptr.be = .ok v := by
      rw [get_u32_eq ptr.be (by omega), hval, tiff_nat_enc4 _ _ hv]
    simp [exif_fetch_data, exif_fetch_long_data, hn, e, bind, Except.bind, pure,
      Except.pure, INT2FIX]
  · intro v h0 h1 hval
    have e : get_s32 src (ptr.cur + 8) ptr.be = .ok v := by
      rw [get_s32_eq ptr.be (by omega), hval, tiff_enc_s32,
        tiff_nat_enc4 _ _ (by omega), to_int32_enc v h0 h1]
    simp [exif_fetch_data, exif_fetch_slong_data, hn, e, bind, Except.bind, pure,
      Except.pure, INT2FIX]


/-- Instance: the big-endian signed long FF FF FF FE decodes to -2. -/
theorem integer_round_trip_witness :
    exif_fetch_data blob_slong (ctx_first_entry 32) 9 = .ok (.fixnum (-2)) :=
  (integer_round_trip blob_slong (ctx_first_entry 32) (by decide) (by decide)).2.2.2 (-2)
    (by decide) (by decide) (by decide)

theorem loop_count_eq {n : Nat} (h : n < 2 ^ 31) : loop_count n = n := by
  unfold loop_count to_int32
  split <;> omega

theorem fetch_rational_eq {src : List Byte} (be : Bool) {p : Nat}
    (h : p + 8 ≤ src.length) : fetch_rational src be p = .ok (rational_at src be p) := by
  unfold fetch_rational rational_at
  rw [get_u32_eq be (by omega), get_u32_eq be (by omega)]
  simp [bind, Except.bind, pure, Except.pure, rb_rational_new]

theorem push_rationals_eq (src : List Byte) (be : Bool) :
    ∀ (k p : Nat), p + 8 * k ≤ src.length →
      push_rationals src be k p
        = .ok ((List.range k).map (fun i => rational_at src be (p + 8 * i))) := by
  intro k
  induction k with
  | zero => intro p _; rfl
  | succ k ih =>
    intro p h
    rw [push_rationals, fetch_rational_eq be (by omega), ih (p + 8) (by omega),
      List.range_succ_eq_map]
    simp [bind, Except.bind, pure, Except.pure, List.map_map, Function.comp_def]
    intro a _
    congr 1
    omega

/-- C7: a rational (type 5) entry inside a payload of fewer than 2^32 bytes, with
count `n` and value field `off`, whose `8 * n` data bytes at `head + off` lie inside
the payload: for `n = 1` the result is the pair of the two unsigned 32-bit values at
`head + off` and `head + off + 4`, a pair 0/0 being returned as 0/1; for `n ≥ 2` it is
the array of the `n` pairs read the same way at `head + off + 8 * i`. -/
theorem exif_fetch_rational_data_spec (src : List Byte) (ptr : exif_t) (n off : Nat)
    (hlen : src.length < 2 ^ 32)
    (hentry : ptr.cur + 12 ≤ src.length)
    (hn : tiff_nat ptr.be (bytes_at src (ptr.cur + 4) 4) = n)
    (hoff : tiff_nat ptr.be (bytes_at src (ptr.cur + 8) 4) = off)
    (hdata : ptr.head + off + 8 * n ≤ src.length) :
    (n = 1 → exif_fetch_data src ptr 5 = .ok (rational_at src ptr.be (ptr.head + off))) ∧
    (2 ≤ n → exif_fetch_data src ptr 5
      = .ok (.ary ((List.range n).map
          (fun i => rational_at src ptr.be (ptr.head + off + 8 * i))))) := by
  have e1 : get_u32 src (ptr.cur + 4) ptr.be = .ok n := by
    rw [get_u32_eq ptr.be (by omega), hn]
  have e2 : get_u32 src (ptr.cur + 8) ptr.be = .ok off := by
    rw [get_u32_eq ptr.be (by omega), hoff]
  constructor
  · intro h1
    subst h1
    have e3 := @fetch_rational_eq src ptr.be (ptr.head + off) (by omega)
    simp [exif_fetch_data, exif_fetch_rational_data, e1, e2, bind, Except.bind, e3]
  · intro h2
    have hc : loop_count n = n := loop_count_eq (by omega)
    have h0 : n ≠ 0 := by omega
    have h1 : n ≠ 1 := by omega
    simp [exif_fetch_data, exif_fetch_rational_data, e1, e2, bind, Except.bind, pure,
      Except.pure, h0, h1, hc, push_rationals_eq src ptr.be n (ptr.head + off) hdata]

/-- Instance: the rational 72/1 stored at offset 26 of `blob_rational`. -/
theorem exif_fetch_rational_data_spec_witness :
    exif_fetch_data blob_rational (ctx_first_entry 40) 5 = .ok (.rational 72 1) :=
  (exif_fetch_rational_data_spec blob_rational (ctx_first_entry 40) 1 26 (by decide)
    (by decide) (by decide) (by decide) (by decide)).1 rfl

/-- C8 (the code at the failing input): a signed-rational entry storing numerator
FF FF FF FF (-1) and denominator 2 is returned as 4294967295/2, because
`exif_fetch_srational_data` keeps both components in `uint32_t` variables. -/
theorem srational_minus_one_half (depth : Nat) :
    get_s32 blob_srational 32 true = .ok (-1) ∧
    get_s32 blob_srational 36 true = .ok 2 ∧
    exif_fetch_data blob_srational (ctx_first_entry 40) 10
      = .ok (.rational 4294967295 2) ∧
    create_exif_tags_hash (depth + 1) [blob_srational]
      = .ok (.hash [(ID2SYM "tag_9204", .rational 4294967295 2)]) :=
  ⟨rfl, rfl, rfl, rfl⟩

theorem strip_bang_decomp (bs : List Byte) :
    ∃ pre post, bs = pre ++ strip_bang bs ++ post ∧
      (∀ b ∈ pre, is_strip_byte b = true) ∧ (∀ b ∈ post, is_strip_byte b = true) ∧
      (∀ b, (strip_bang bs).head? = some b → is_strip_byte b = false) ∧
      (∀ b, (strip_bang bs).getLast? = some b → is_strip_byte b = false) := by
  have hm : (bs.dropWhile is_strip_byte)
      = strip_bang bs ++ ((bs.dropWhile is_strip_byte).reverse.takeWhile is_strip_byte).reverse := by
    unfold strip_bang
    rw [← List.reverse_append, List.takeWhile_append_dropWhile, List.reverse_reverse]
  refine ⟨bs.takeWhile is_strip_byte,
    ((bs.dropWhile is_strip_byte).reverse.takeWhile is_strip_byte).reverse, ?_, ?_, ?_, ?_, ?_⟩
  · rw [List.append_assoc, ← hm, List.takeWhile_append_dropWhile]
  · intro b hb
    exact List.mem_takeWhile_imp hb
  · intro b hb
    exact List.mem_takeWhile_imp (List.mem_reverse.mp hb)
  · intro b hb
    have h1 : (bs.dropWhile is_strip_byte).head? = some b := by
      rw [hm, List.head?_append, hb]
      rfl
    have h2 := List.head?_dropWhile_not is_strip_byte bs
    rw [h1] at h2
    exact h2
  · intro b hb
    unfold strip_bang at hb
    rw [List.getLast?_reverse] at hb
    have h2 := List.head?_dropWhile_not is_strip_byte (bs.dropWhile is_strip_byte).reverse
    rw [hb] at h2
    exact h2

theorem exif_fetch_ascii_data_eq (src : List Byte) (ptr : exif_t) (n off : Nat)
    (hentry : ptr.cur + 12 ≤ src.length)
    (hn : tiff_nat ptr.be (bytes_at src (ptr.cur + 4) 4) = n)
    (hoff : tiff_nat ptr.be (bytes_at src (ptr.cur + 8) 4) = off)
    (hdata : 4 < n → ptr.head + off + n ≤ src.length) :
    exif_fetch_ascii_data src ptr = .ok (.utf8 (strip_bang (value_bytes src ptr n off))) := by
  have e1 : get_u32 src (ptr.cur + 4) ptr.be = .ok n := by
    rw [get_u32_eq ptr.be (by omega), hn]
  have e2 : get_u32 src (ptr.cur + 8) ptr.be = .ok off := by
    rw [get_u32_eq ptr.be (by omega), hoff]
  unfold exif_fetch_ascii_data value_bytes
  by_cases h4 : n ≤ 4
  · have e3 := load_bytes_eq src n (ptr.cur + 8) (by omega)
    simp [e1, e3, h4, bind, Except.bind, pure, Except.pure, Nat.not_lt.mpr h4]
  · have e3 := load_bytes_eq src n (ptr.head + off) (hdata (by omega))
    simp [e1, e2, e3, h4, bind, Except.bind, pure, Except.pure, Nat.lt_of_not_le h4]


/-- C9 (counterexample): the ASCII entry with the four value bytes `" ab\0"` decodes to
`"ab"`, while trimming at the end only leaves `" ab"`: the leading space is removed
too. -/
theorem ascii_leading_space_removed :
    exif_fetch_data blob_ascii (ctx_first_entry 32) 2 = .ok (.utf8 [0x61, 0x62]) ∧
    rstrip (value_bytes blob_ascii (ctx_first_entry 32) 4 0x20616200) = [0x20, 0x61, 0x62] ∧
    exif_fetch_data blob_ascii (ctx_first_entry 32) 2
      ≠ .ok (.utf8 (rstrip (value_bytes blob_ascii (ctx_first_entry 32) 4 0x20616200))) := by
  refine ⟨rfl, rfl, ?_⟩
  rw [show exif_fetch_data blob_ascii (ctx_first_entry 32) 2 = .ok (.utf8 [0x61, 0x62])
        from rfl,
      show rstrip (value_bytes blob_ascii (ctx_first_entry 32) 4 0x20616200)
        = [0x20, 0x61, 0x62] from rfl]
  intro h
  injection h with h
  injection h with h
  exact absurd (congrArg List.length h) (by decide)

/-- C9 (amended): an ASCII (type 2) entry inside the payload with count `n` and value
field `off`, whose data (for `n > 4`) lies inside the payload, decodes to the text
obtained from its `n` value bytes (the value field for `n ≤ 4`, the bytes at
`head + off` otherwise) by dropping the NUL and white-space bytes at both ends and
nothing else: the value bytes are `pre ++ text ++ post` with `pre` and `post` made of
such bytes only and `text` neither starting nor ending with one. -/
theorem exif_fetch_ascii_data_spec (src : List Byte) (ptr : exif_t) (n off : Nat)
    (hentry : ptr.cur + 12 ≤ src.length)
    (hn : tiff_nat ptr.be (bytes_at src (ptr.cur + 4) 4) = n)
    (hoff : tiff_nat ptr.be (bytes_at src (ptr.cur + 8) 4) = off)
    (hdata : 4 < n → ptr.head + off + n ≤ src.length) :
    ∃ pre text post, exif_fetch_data src ptr 2 = .ok (.utf8 text) ∧
      value_bytes src ptr n off = pre ++ text ++ post ∧
      (∀ b ∈ pre, is_strip_byte b = true) ∧ (∀ b ∈ post, is_strip_byte b = true) ∧
      (∀ b, text.head? = some b → is_strip_byte b = false) ∧
      (∀ b, text.getLast? = some b → is_strip_byte b = false) := by
  obtain ⟨pre, post, h1, h2, h3, h4, h5⟩ := strip_bang_decomp (value_bytes src ptr n off)
  refine ⟨pre, strip_bang (value_bytes src ptr n off), post, ?_, h1, h2, h3, h4, h5⟩
  have := exif_fetch_ascii_data_eq src ptr n off hentry hn hoff hdata
  simpa [exif_fetch_data] using this

/-- Instance: the amended statement at the entry of `blob_ascii`. -/
theorem exif_fetch_ascii_data_spec_witness :
    ∃ pre text post,
      exif_fetch_data blob_ascii (ctx_first_entry 32) 2 = .ok (.utf8 text) ∧
      value_bytes blob_ascii (ctx_first_entry 32) 4 0x20616200 = pre ++ text ++ post ∧
      (∀ b ∈ pre, is_strip_byte b = true) ∧ (∀ b ∈ post, is_strip_byte b = true) ∧
      (∀ b, text.head? = some b → is_strip_byte b = false) ∧
      (∀ b, text.getLast? = some b → is_strip_byte b = false) :=
  exif_fetch_ascii_data_spec blob_ascii (ctx_first_entry 32) 4 0x20616200 (by decide)
    (by decide) (by decide) (by decide)

/-- C10 (counterexample): an ASCII entry with count 0 decodes to the empty string,
not to nil. -/
theorem ascii_count_zero_not_nil :
    tiff_nat true (bytes_at blob_ascii_empty ((ctx_first_entry 32).cur + 4) 4) = 0 ∧
    exif_fetch_data blob_ascii_empty (ctx_first_entry 32) 2 = .ok (.utf8 []) ∧
    exif_fetch_data blob_ascii_empty (ctx_first_entry 32) 2 ≠ .ok .Qnil := by
  refine ⟨by decide, rfl, ?_⟩
  rw [show exif_fetch_data blob_ascii_empty (ctx_first_entry 32) 2 = .ok (.utf8 [])
        from rfl]
  intro h
  injection h with h
  cases h

/-- C10 (amended): an entry inside the payload whose count field is 0 decodes to nil
for the type codes 1, 3, 4, 5, 9 and 10, to the empty text for type 2 (ASCII) and to
the empty byte string for type 7 (undefined). -/
theorem count_zero_decoding (src : List Byte) (ptr : exif_t)
    (hentry : ptr.cur + 12 ≤ src.length)
    (hn : tiff_nat ptr.be (bytes_at src (ptr.cur + 4) 4) = 0) :
    (∀ type ∈ [1, 3, 4, 5, 9, 10], exif_fetch_data src ptr type = .ok .Qnil) ∧
    exif_fetch_data src ptr 2 = .ok (.utf8 []) ∧
    exif_fetch_data src ptr 7 = .ok (.binary []) := by
  have e1 : get_u32 src (ptr.cur + 4) ptr.be = .ok 0 := by
    rw [get_u32_eq ptr.be (by omega), hn]
  have e2 := @get_u32_eq src (ptr.cur + 8) ptr.be (by omega)
  refine ⟨?_, ?_, ?_⟩
  · intro type ht
    simp only [List.mem_cons, List.mem_singleton, List.not_mem_nil, or_false] at ht
    rcases ht with h | h | h | h | h | h <;> subst h
    · simp [exif_fetch_data, exif_fetch_byte_data, e1, bind, Except.bind, pure, Except.pure]
    · simp [exif_fetch_data, exif_fetch_short_data, e1, bind, Except.bind, pure, Except.pure]
    · simp [exif_fetch_data, exif_fetch_long_data, e1, bind, Except.bind, pure, Except.pure]
    · simp [exif_fetch_data, exif_fetch_rational_data, e1, e2, bind, Except.bind, pure,
        Except.pure]
    · simp [exif_fetch_data, exif_fetch_slong_data, e1, bind, Except.bind, pure, Except.pure]
    · simp [exif_fetch_data, exif_fetch_srational_data, e1, e2, bind, Except.bind, pure,
        Except.pure]
  · simp [exif_fetch_data, exif_fetch_ascii_data, e1, bind, Except.bind, pure, Except.pure,
      load_bytes, strip_bang]
  · simp [exif_fetch_data, exif_fetch_undefined_data, e1, bind, Except.bind, pure,
      Except.pure, load_bytes]

/-- Instance: count 0 read as a long gives nil, read as ASCII the empty text. -/
theorem count_zero_decoding_witness :
    exif_fetch_data blob_ascii_empty (ctx_first_entry 32) 4 = .ok .Qnil ∧
    exif_fetch_data blob_ascii_empty (ctx_first_entry 32) 2 = .ok (.utf8 []) :=
  ⟨(count_zero_decoding blob_ascii_empty (ctx_first_entry 32) (by decide) (by decide)).1 4
      (by decide),
   (count_zero_decoding blob_ascii_empty (ctx_first_entry 32) (by decide) (by decide)).2.1⟩

/-- C1 (the code at the failing input): on the 15-byte payload `blob_ii_15`, whose
header is valid and whose first-directory offset 8 passes the range test of
`exif_init`, `create_exif_tags_hash` reads the entry count at indices 14 and 15, and
index 15 is past the end of the payload. -/
theorem create_exif_tags_hash_reads_past_end (depth : Nat) :
    blob_ii_15.length = 15 ∧
    create_exif_tags_hash (depth + 1) [blob_ii_15] = .error (.oob 15) :=
  ⟨rfl, rfl⟩

/-- C2 (the code at the failing input): on the 16-byte payload `blob_ii_16`, whose root
directory declares one entry, `pick_exif_orientation` reads the tag of that entry at
index 16, past the end of the payload. -/
theorem pick_exif_orientation_reads_past_end :
    blob_ii_16.length = 16 ∧
    pick_exif_orientation [blob_ii_16] = .error (.oob 16) :=
  ⟨rfl, rfl⟩

/-! ## Value data: sequences and location -/

theorem push_bytes_eq (src : List Byte) (be : Bool) :
    ∀ (k p : Nat), p + k ≤ src.length →
      push_bytes src k p
        = .ok ((List.range k).map (fun i => .fixnum (int_elem src be 1 p i))) := by
  intro k
  induction k with
  | zero => intro p _; rfl
  | succ k ih =>
    intro p h
    rw [push_bytes, load_eq be (by omega), ih (p + 1) (by omega), List.range_succ_eq_map]
    simp [bind, Except.bind, pure, Except.pure, List.map_map, Function.comp_def, INT2FIX,
      int_elem, type_width]
    intro a _
    congr 2
    omega

theorem push_shorts_eq (src : List Byte) (be : Bool) :
    ∀ (k p : Nat), p + 2 * k ≤ src.length →
      push_shorts src be k p
        = .ok ((List.range k).map (fun i => .fixnum (int_elem src be 3 p i))) := by
  intro k
  induction k with
  | zero => intro p _; rfl
  | succ k ih =>
    intro p h
    rw [push_shorts, get_u16_eq be (by omega), ih (p + 2) (by omega),
      List.range_succ_eq_map]
    simp [bind, Except.bind, pure, Except.pure, List.map_map, Function.comp_def, INT2FIX,
      int_elem, type_width]
    intro a _
    congr 2
    omega

theorem push_longs_eq (src : List Byte) (be : Bool) :
    ∀ (k p : Nat), p + 4 * k ≤ src.length →
      push_longs src be k p
        = .ok ((List.range k).map (fun i => .fixnum (int_elem src be 4 p i))) := by
  intro k
  induction k with
  | zero => intro p _; rfl
  | succ k ih =>
    intro p h
    rw [push_longs, get_u32_eq be (by omega), ih (p + 4) (by omega),
      List.range_succ_eq_map]
    simp [bind, Except.bind, pure, Except.pure, List.map_map, Function.comp_def, INT2FIX,
      int_elem, type_width]
    intro a _
    congr 2
    omega

theorem push_slongs_eq (src : List Byte) (be : Bool) :
    ∀ (k p : Nat), p + 4 * k ≤ src.length →
      push_slongs src be k p
        = .ok ((List.range k).map (fun i => .fixnum (int_elem src be 9 p i))) := by
  intro k
  induction k with
  | zero => intro p _; rfl
  | succ k ih =>
    intro p h
    rw [push_slongs, get_s32_eq be (by omega), ih (p + 4) (by omega),
      List.range_succ_eq_map]
    simp [bind, Except.bind, pure, Except.pure, List.map_map, Function.comp_def, INT2FIX,
      int_elem, type_width]
    intro a _
    congr 3
    omega


theorem tiff_nat_lt4 (be : Bool) (src : List Byte) (p : Nat) (h : p + 4 ≤ src.length) :
    tiff_nat be (bytes_at src p 4) < 2 ^ 32 := by
  have h0 : p < src.length := by omega
  have h1 : p + 1 < src.length := by omega
  have h2 : p + 2 < src.length := by omega
  have h3 : p + 3 < src.length := by omega
  rw [bytes_at_succ 3 h0, bytes_at_succ 2 h1, bytes_at_succ 1 h2, bytes_at_succ 0 h3,
    bytes_at_zero]
  have b0 := (src[p]).isLt
  have b1 := (src[p + 1]).isLt
  have b2 := (src[p + 2]).isLt
  have b3 := (src[p + 3]).isLt
  cases be <;> simp [tiff_nat, be_nat, le_nat] <;> omega

theorem to_uint32_to_int32 (u : Nat) (h : u < 2 ^ 32) : (to_uint32 (to_int32 u) : Int) = u := by
  unfold to_uint32 to_int32
  split <;> omega

theorem fetch_srational_eq {src : List Byte} (be : Bool) {p : Nat}
    (h : p + 8 ≤ src.length) : fetch_srational src be p = .ok (rational_at src be p) := by
  unfold fetch_srational rational_at
  rw [get_s32_eq be (by omega), get_s32_eq be (by omega)]
  have e1 := to_uint32_to_int32 _ (tiff_nat_lt4 be src p (by omega))
  have e2 := to_uint32_to_int32 _ (tiff_nat_lt4 be src (p + 4) (by omega))
  have e1n : to_uint32 (to_int32 (tiff_nat be (bytes_at src p 4)))
      = tiff_nat be (bytes_at src p 4) := by exact_mod_cast e1
  have e2n : to_uint32 (to_int32 (tiff_nat be (bytes_at src (p + 4) 4)))
      = tiff_nat be (bytes_at src (p + 4) 4) := by exact_mod_cast e2
  simp [bind, Except.bind, pure, Except.pure, rb_rational_new, e1n, e2n]

theorem push_srationals_eq (src : List Byte) (be : Bool) :
    ∀ (k p : Nat), p + 8 * k ≤ src.length →
      push_srationals src be k p
        = .ok ((List.range k).map (fun i => rational_at src be (p + 8 * i))) := by
  intro k
  induction k with
  | zero => intro p _; rfl
  | succ k ih =>
    intro p h
    rw [push_srationals, fetch_srational_eq be (by omega), ih (p + 8) (by omega),
      List.range_succ_eq_map]
    simp [bind, Except.bind, pure, Except.pure, List.map_map, Function.comp_def]
    intro a _
    congr 1
    omega

theorem exif_fetch_data_eq (src : List Byte) (ptr : exif_t) (type n off : Nat)
    (htype : type ∈ [1, 2, 3, 4, 5, 7, 9, 10])
    (hlen : src.length < 2 ^ 31)
    (hentry : ptr.cur + 12 ≤ src.length)
    (hn : tiff_nat ptr.be (bytes_at src (ptr.cur + 4) 4) = n)
    (hoff : tiff_nat ptr.be (bytes_at src (ptr.cur + 8) 4) = off)
    (h1 : 1 ≤ n)
    (hdata : value_pos ptr type n off + type_width type * n ≤ src.length) :
    exif_fetch_data src ptr type
      = .ok (decode_at src ptr.be type n (value_pos ptr type n off)) := by
  have e1 : get_u32 src (ptr.cur + 4) ptr.be = .ok n := by
    rw [get_u32_eq ptr.be (by omega), hn]
  have e2 : get_u32 src (ptr.cur + 8) ptr.be = .ok off := by
    rw [get_u32_eq ptr.be (by omega), hoff]
  have h0 : n ≠ 0 := by omega
  simp only [List.mem_cons, List.mem_singleton, List.not_mem_nil, or_false] at htype
  rcases htype with h | h | h | h | h | h | h | h <;> subst h
  · -- byte
    simp only [value_pos, type_width] at hdata ⊢
    simp only [true_or, if_true, Nat.one_mul] at hdata ⊢
    have hc : loop_count n = n := loop_count_eq (by omega)
    by_cases c1 : n = 1
    · subst c1
      have e3 := @load_eq src (ptr.cur + 8) ptr.be (by omega)
      simp [exif_fetch_data, exif_fetch_byte_data, e1, e3, bind, Except.bind, pure,
        Except.pure, INT2FIX, decode_at, int_elem, type_width]
    · by_cases c4 : n ≤ 4
      · have c234 : n = 2 ∨ n = 3 ∨ n = 4 := by omega
        have e3 := push_bytes_eq src ptr.be n (ptr.cur + 8) (by omega)
        simp [exif_fetch_data, exif_fetch_byte_data, e1, e3, bind, Except.bind, pure,
          Except.pure, decode_at, h0, c1, c234, c4, hc]
      · have c234 : ¬ (n = 2 ∨ n = 3 ∨ n = 4) := by omega
        rw [if_neg c4] at hdata
        have e3 := push_bytes_eq src ptr.be n (ptr.head + off) (by omega)
        simp [exif_fetch_data, exif_fetch_byte_data, e1, e2, e3, bind, Except.bind, pure,
          Except.pure, decode_at, h0, c1, c234, c4, hc]
  · -- ASCII
    simp only [value_pos, type_width] at hdata ⊢
    simp only [true_or, or_true, if_true, Nat.one_mul] at hdata ⊢
    by_cases c4 : n ≤ 4
    · have e3 := load_bytes_eq src n (ptr.cur + 8) (by omega)
      simp [exif_fetch_data, exif_fetch_ascii_data, e1, e3, bind, Except.bind, pure,
        Except.pure, decode_at, c4, Nat.not_lt.mpr c4]
    · rw [if_neg c4] at hdata
      have e3 := load_bytes_eq src n (ptr.head + off) (by omega)
      simp [exif_fetch_data, exif_fetch_ascii_data, e1, e2, e3, bind, Except.bind, pure,
        Except.pure, decode_at, c4, Nat.lt_of_not_le c4]
  · -- short
    simp only [value_pos, type_width] at hdata ⊢
    simp only [show ¬ ((3 : Nat) = 1 ∨ (3 : Nat) = 2 ∨ (3 : Nat) = 7) by decide, if_false,
      if_true] at hdata ⊢
    have hc : loop_count n = n := loop_count_eq (by omega)
    by_cases c1 : n = 1
    · subst c1
      have e3 := @get_u16_eq src (ptr.cur + 8) ptr.be (by omega)
      simp [exif_fetch_data, exif_fetch_short_data, e1, e3, bind, Except.bind, pure,
        Except.pure, INT2FIX, decode_at, int_elem, type_width]
    · by_cases c2 : n = 2
      · subst c2
        have e3 := push_shorts_eq src ptr.be 2 (ptr.cur + 8) (by omega)
        simp [exif_fetch_data, exif_fetch_short_data, e1, e3, bind, Except.bind, pure,
          Except.pure, decode_at, hc]
      · have c4 : ¬ 2 * n ≤ 4 := by omega
        rw [if_neg c4] at hdata
        have e3 := push_shorts_eq src ptr.be n (ptr.head + off) (by omega)
        simp [exif_fetch_data, exif_fetch_short_data, e1, e2, e3, bind, Except.bind, pure,
          Except.pure, decode_at, h0, c1, c2, c4, hc]
  · -- long
    simp only [value_pos, type_width] at hdata ⊢
    simp only [show ¬ ((4 : Nat) = 1 ∨ (4 : Nat) = 2 ∨ (4 : Nat) = 7) by decide,
      show ¬ ((4 : Nat) = 3) by decide, true_or, if_false, if_true] at hdata ⊢
    have hc : loop_count n = n := loop_count_eq (by omega)
    by_cases c1 : n = 1
    · subst c1
      have e3 := @get_u32_eq src (ptr.cur + 8) ptr.be (by omega)
      simp [exif_fetch_data, exif_fetch_long_data, e1, e3, bind, Except.bind, pure,
        Except.pure, INT2FIX, decode_at, int_elem, type_width]
    · have c4 : ¬ 4 * n ≤ 4 := by omega
      rw [if_neg c4] at hdata
      have e3 := push_longs_eq src ptr.be n (ptr.head + off) (by omega)
      simp [exif_fetch_data, exif_fetch_long_data, e1, e2, e3, bind, Except.bind, pure,
        Except.pure, decode_at, h0, c1, c4, hc]
  · -- rational
    simp only [value_pos, type_width] at hdata ⊢
    simp only [show ¬ ((5 : Nat) = 1 ∨ (5 : Nat) = 2 ∨ (5 : Nat) = 7) by decide,
      show ¬ ((5 : Nat) = 3) by decide, show ¬ ((5 : Nat) = 4 ∨ (5 : Nat) = 9) by decide,
      true_or, if_false, if_true] at hdata ⊢
    have hc : loop_count n = n := loop_count_eq (by omega)
    have c4 : ¬ 8 * n ≤ 4 := by omega
    rw [if_neg c4] at hdata ⊢
    by_cases c1 : n = 1
    · subst c1
      have e3 := @fetch_rational_eq src ptr.be (ptr.head + off) (by omega)
      simp [exif_fetch_data, exif_fetch_rational_data, e1, e2, e3, bind, Except.bind,
        decode_at]
    · have e3 := push_rationals_eq src ptr.be n (ptr.head + off) (by omega)
      simp [exif_fetch_data, exif_fetch_rational_data, e1, e2, e3, bind, Except.bind, pure,
        Except.pure, decode_at, h0, c1, hc]
  · -- undefined
    simp only [value_pos, type_width] at hdata ⊢
    simp only [true_or, or_true, if_true, Nat.one_mul] at hdata ⊢
    by_cases c4 : n ≤ 4
    · have e3 := load_bytes_eq src n (ptr.cur + 8) (by omega)
      simp [exif_fetch_data, exif_fetch_undefined_data, e1, e3, bind, Except.bind, pure,
        Except.pure, decode_at, c4, Nat.not_lt.mpr c4]
    · rw [if_neg c4] at hdata
      have e3 := load_bytes_eq src n (ptr.head + off) (by omega)
      simp [exif_fetch_data, exif_fetch_undefined_data, e1, e2, e3, bind, Except.bind, pure,
        Except.pure, decode_at, c4, Nat.lt_of_not_le c4]
  · -- signed long
    simp only [value_pos, type_width] at hdata ⊢
    simp only [show ¬ ((9 : Nat) = 1 ∨ (9 : Nat) = 2 ∨ (9 : Nat) = 7) by decide,
      show ¬ ((9 : Nat) = 3) by decide, or_true, if_false, if_true] at hdata ⊢
    have hc : loop_count n = n := loop_count_eq (by omega)
    by_cases c1 : n = 1
    · subst c1
      have e3 := @get_s32_eq src (ptr.cur + 8) ptr.be (by omega)
      simp [exif_fetch_data, exif_fetch_slong_data, e1, e3, bind, Except.bind, pure,
        Except.pure, INT2FIX, decode_at, int_elem, type_width]
    · have c4 : ¬ 4 * n ≤ 4 := by omega
      rw [if_neg c4] at hdata
      have e3 := push_slongs_eq src ptr.be n (ptr.head + off) (by omega)
      simp [exif_fetch_data, exif_fetch_slong_data, e1, e2, e3, bind, Except.bind, pure,
        Except.pure, decode_at, h0, c1, c4, hc]
  · -- signed rational
    simp only [value_pos, type_width] at hdata ⊢
    simp only [show ¬ ((10 : Nat) = 1 ∨ (10 : Nat) = 2 ∨ (10 : Nat) = 7) by decide,
      show ¬ ((10 : Nat) = 3) by decide, show ¬ ((10 : Nat) = 4 ∨ (10 : Nat) = 9) by decide,
      or_true, if_false, if_true] at hdata ⊢
    have hc : loop_count n = n := loop_count_eq (by omega)
    have c4 : ¬ 8 * n ≤ 4 := by omega
    rw [if_neg c4] at hdata ⊢
    by_cases c1 : n = 1
    · subst c1
      have e3 := @fetch_srational_eq src ptr.be (ptr.head + off) (by omega)
      simp [exif_fetch_data, exif_fetch_srational_data, e1, e2, e3, bind, Except.bind,
        decode_at]
    · have e3 := push_srationals_eq src ptr.be n (ptr.head + off) (by omega)
      simp [exif_fetch_data, exif_fetch_srational_data, e1, e2, e3, bind, Except.bind, pure,
        Except.pure, decode_at, h0, c1, hc]


/-- C11: an entry of type byte (1), short (3), long (4) or signed long (9) inside a
payload (shorter than 2^31 bytes) with count `n ≥ 1`, whose value data of `n` elements
of width `w` lies inside the payload: for `n = 1` the result is the Fixnum read from
the first `w` bytes of the value data; for `n ≥ 2` it is the array of the `n` Fixnums
whose `i`-th element is read from bytes `[i * w, (i + 1) * w)` of the value data, in
order. -/
theorem integer_sequence_decoding (src : List Byte) (ptr : exif_t) (type n off : Nat)
    (htype : type ∈ [1, 3, 4, 9])
    (hlen : src.length < 2 ^ 31)
    (hentry : ptr.cur + 12 ≤ src.length)
    (hn : tiff_nat ptr.be (bytes_at src (ptr.cur + 4) 4) = n)
    (hoff : tiff_nat ptr.be (bytes_at src (ptr.cur + 8) 4) = off)
    (h1 : 1 ≤ n)
    (hdata : value_pos ptr type n off + type_width type * n ≤ src.length) :
    (n = 1 → exif_fetch_data src ptr type
      = .ok (.fixnum (int_elem src ptr.be type (value_pos ptr type n off) 0))) ∧
    (2 ≤ n → exif_fetch_data src ptr type
      = .ok (.ary ((List.range n).map
          (fun i => .fixnum (int_elem src ptr.be type (value_pos ptr type n off) i))))) := by
  have hsup : type ∈ [1, 2, 3, 4, 5, 7, 9, 10] := by
    simp only [List.mem_cons, List.mem_singleton, List.not_mem_nil, or_false] at htype ⊢
    omega
  have key := exif_fetch_data_eq src ptr type n off hsup hlen hentry hn hoff h1 hdata
  have h2 : type ≠ 2 := by
    simp only [List.mem_cons, List.mem_singleton, List.not_mem_nil, or_false] at htype
    omega
  have h7 : type ≠ 7 := by
    simp only [List.mem_cons, List.mem_singleton, List.not_mem_nil, or_false] at htype
    omega
  have h5 : ¬ (type = 5 ∨ type = 10) := by
    simp only [List.mem_cons, List.mem_singleton, List.not_mem_nil, or_false] at htype
    omega
  rw [key]
  unfold decode_at
  rw [if_neg h2, if_neg h7, if_neg h5]
  constructor
  · intro hn1
    rw [if_pos hn1]
  · intro hn2
    rw [if_neg (by omega)]

/-- Instance: two inline shorts. -/
theorem integer_sequence_decoding_witness :
    exif_fetch_data blob_shorts (ctx_first_entry 32) 3 = .ok (.ary [.fixnum 8, .fixnum 7]) :=
  (integer_sequence_decoding blob_shorts (ctx_first_entry 32) 3 2 0x00080007 (by decide)
    (by decide) (by decide) (by decide) (by decide) (by decide) (by decide)).2 (by decide)

/-- C12: for an entry of a supported type with count `n ≥ 1` whose value data lies
inside the payload, the decoded value is the one decoded from the data starting at
the value field of the entry (its last 4 bytes, index `cur + 8`) when
`width * n ≤ 4`, and from the data starting at `head + off` otherwise; `width * n ≤ 4`
holds exactly for byte/ASCII/undefined with `n ≤ 4`, short with `n ≤ 2` and
long/signed long with `n ≤ 1`, never for the rational types. -/
theorem value_data_location (src : List Byte) (ptr : exif_t) (type n off : Nat)
    (htype : type ∈ [1, 2, 3, 4, 5, 7, 9, 10])
    (hlen : src.length < 2 ^ 31)
    (hentry : ptr.cur + 12 ≤ src.length)
    (hn : tiff_nat ptr.be (bytes_at src (ptr.cur + 4) 4) = n)
    (hoff : tiff_nat ptr.be (bytes_at src (ptr.cur + 8) 4) = off)
    (h1 : 1 ≤ n)
    (hdata : value_pos ptr type n off + type_width type * n ≤ src.length) :
    exif_fetch_data src ptr type
      = .ok (decode_at src ptr.be type n
          (if type_width type * n ≤ 4 then ptr.cur + 8 else ptr.head + off)) ∧
    (type_width type * n ≤ 4 ↔
      ((type = 1 ∨ type = 2 ∨ type = 7) ∧ n ≤ 4) ∨ (type = 3 ∧ n ≤ 2) ∨
        ((type = 4 ∨ type = 9) ∧ n ≤ 1)) := by
  refine ⟨exif_fetch_data_eq src ptr type n off htype hlen hentry hn hoff h1 hdata, ?_⟩
  simp only [List.mem_cons, List.mem_singleton, List.not_mem_nil, or_false] at htype
  rcases htype with h | h | h | h | h | h | h | h <;> subst h <;>
    simp [type_width] <;> omega

/-- Instance: the rational of `blob_rational` is read at `head + 26`, not in the value
field. -/
theorem value_data_location_witness :
    exif_fetch_data blob_rational (ctx_first_entry 40) 5
      = .ok (decode_at blob_rational true 5 1 (6 + 26)) :=
  (value_data_location blob_rational (ctx_first_entry 40) 5 1 26 (by decide)
    (by decide) (by decide) (by decide) (by decide) (by decide) (by decide)).1

/-! ## The entry loop of `exif_read` -/

theorem lookup_loop_total (tbl : List tag_entry_t) (tag : Int) :
    ∀ (fuel : Nat) (l r : Int), 0 ≤ l → r < tbl.length → l ≤ r + 1 → r + 1 - l < fuel →
      ∃ v, lookup_loop tbl tag fuel l r = .ok v := by
  intro fuel
  induction fuel with
  | zero => intro l r _ _ _ hf; omega
  | succ fuel ih =>
    intro l r hl hr hlr hf
    rw [lookup_loop]
    by_cases hge : r ≥ l
    · rw [if_pos hge]
      have hdiv : (l + r).tdiv 2 = (l + r) / 2 := Int.tdiv_eq_ediv (by omega) (by omega)
      simp only [hdiv]
      have hi3 : ((l + r) / 2).toNat < tbl.length := by omega
      rw [List.getElem?_eq_getElem hi3]
      simp only
      split
      · exact ih ((l + r) / 2 + 1) r (by omega) hr (by omega) (by omega)
      · split
        · exact ih l ((l + r) / 2 - 1) hl (by omega) (by omega) (by omega)
        · split <;> exact ⟨_, rfl⟩
    · rw [if_neg hge]
      exact ⟨_, rfl⟩

theorem lookup_tag_symbol_total (tbl : List tag_entry_t) (tag : Int) :
    ∃ v, lookup_tag_symbol tbl tbl.length tag = .ok v := by
  obtain ⟨v, hv⟩ := lookup_loop_total tbl tag (tbl.length + 1) 0 ((tbl.length : Int) - 1)
    (by omega) (by omega) (by omega) (by omega)
  unfold lookup_tag_symbol
  rw [hv]
  cases v <;> exact ⟨_, rfl⟩

theorem exif_fetch_tag_header_eq (src : List Byte) (ptr : exif_t)
    (h : ptr.cur + 4 ≤ src.length) :
    exif_fetch_tag_header src ptr = .ok (entry_tag src ptr, entry_type src ptr) := by
  unfold exif_fetch_tag_header entry_tag entry_type
  rw [Nat.add_zero, get_u16_eq ptr.be (by omega), get_u16_eq ptr.be (by omega)]
  rfl

theorem exif_read_succ (src : List Byte) (depth : Nat) (ptr : exif_t)
    (dst : List (VALUE × VALUE)) :
    exif_read src (depth + 1) ptr dst
      = (do
          let ntag ← get_u16 src ptr.cur ptr.be
          let (ptr, dst) ← exif_read_entries src (child_read src depth) ntag
            (exif_increase ptr 2) dst
          let off ← get_u32 src ptr.cur ptr.be
          if off ≠ 0 then
            pure ({ ptr with cur := ptr.head + off, next := true }, dst)
          else
            pure (ptr, dst)) := rfl

theorem exif_read_entries_succ (src : List Byte)
    (child : exif_t → Except Fault (List (VALUE × VALUE))) (k : Nat) (ptr : exif_t)
    (dst : List (VALUE × VALUE)) :
    exif_read_entries src child (k + 1) ptr dst
      = (exif_read_entry src child ptr).bind
          (fun kv => exif_read_entries src child k (exif_increase ptr 12)
            (rb_hash_aset dst kv.1 kv.2)) := by
  simp only [exif_read_entries, exif_read_entry, bind, Except.bind, pure, Except.pure]
  cases exif_fetch_tag_header src ptr with
  | error e => rfl
  | ok v =>
    simp only
    split_ifs
    · cases exif_fetch_child_ifd src ptr tag_exif with
      | error e => rfl
      | ok c => simp only; cases child c <;> rfl
    · cases exif_fetch_child_ifd src ptr tag_gps with
      | error e => rfl
      | ok c => simp only; cases child c <;> rfl
    · cases exif_fetch_child_ifd src ptr tag_i14y with
      | error e => rfl
      | ok c => simp only; cases child c <;> rfl
    · cases lookup_tag_symbol ptr.tags ptr.tags.length v.1 with
      | error e => rfl
      | ok key => simp only; cases exif_fetch_data src ptr v.2 <;> rfl

theorem exif_read_entries_split (src : List Byte)
    (child : exif_t → Except Fault (List (VALUE × VALUE))) :
    ∀ (i j : Nat) (ptr : exif_t) (dst : List (VALUE × VALUE)),
      exif_read_entries src child (i + j) ptr dst
        = (exif_read_entries src child i ptr dst).bind
            (fun r => exif_read_entries src child j r.1 r.2) := by
  intro i
  induction i with
  | zero => intro j ptr dst; simp [exif_read_entries, Except.bind, pure, Except.pure]
  | succ i ih =>
    intro j ptr dst
    rw [show i + 1 + j = (i + j) + 1 by omega, exif_read_entries_succ,
      exif_read_entries_succ]
    cases exif_read_entry src child ptr with
    | error e => rfl
    | ok kv => exact ih j _ _

theorem exif_read_entries_ctx (src : List Byte)
    (child : exif_t → Except Fault (List (VALUE × VALUE))) :
    ∀ (i : Nat) (ptr p : exif_t) (dst d : List (VALUE × VALUE)),
      exif_read_entries src child i ptr dst = .ok (p, d) →
        p.be = ptr.be ∧ p.head = ptr.head ∧ p.cur = ptr.cur + 12 * i ∧ p.tags = ptr.tags := by
  intro i
  induction i with
  | zero =>
    intro ptr p dst d h
    simp [exif_read_entries, pure, Except.pure] at h
    obtain ⟨rfl, _⟩ := h
    simp
  | succ i ih =>
    intro ptr p dst d h
    rw [exif_read_entries_succ] at h
    cases hkv : exif_read_entry src child ptr with
    | error e => rw [hkv] at h; cases h
    | ok kv =>
      rw [hkv] at h
      have := ih _ _ _ _ h
      simp only [exif_increase] at this
      refine ⟨this.1, this.2.1, ?_, this.2.2.2⟩
      omega


theorem exif_read_entry_bad_type (src : List Byte)
    (child : exif_t → Except Fault (List (VALUE × VALUE))) (ptr : exif_t)
    (hin : ptr.cur + 4 ≤ src.length)
    (htag : entry_tag src ptr ∉ [34665, 34853, 40965])
    (htype : entry_type src ptr ∉ [1, 2, 3, 4, 5, 7, 9, 10]) :
    exif_read_entry src child ptr
      = .error (.raise .decerr_klass "invalid tag data type") := by
  simp only [List.mem_cons, List.mem_singleton, List.not_mem_nil, or_false, not_or] at htag htype
  obtain ⟨v, hv⟩ := lookup_tag_symbol_total ptr.tags (entry_tag src ptr)
  unfold exif_read_entry
  rw [exif_fetch_tag_header_eq src ptr hin]
  simp only [bind, Except.bind, if_neg htag.1, if_neg htag.2.1, if_neg htag.2.2, hv]
  simp [exif_fetch_data, htype, throw, throwThe, MonadExceptOf.throw]

/-- C13: when entry `i` of the directory at the cursor has a tag id other than the
three pointer tags and a type code outside {1, 2, 3, 4, 5, 7, 9, 10}, `exif_read`
never returns a document; it raises "invalid tag data type" whenever the `i` entries
before it are read without failure; and when the directory is the root directory of
the payload, `create_exif_tags_hash` returns no document either. -/
theorem exif_read_unsupported_type (src : List Byte) (depth : Nat) (ptr : exif_t)
    (dst : List (VALUE × VALUE)) (i : Nat)
    (hi : i < tiff_nat ptr.be (bytes_at src ptr.cur 2))
    (hin : ptr.cur + 2 + 12 * i + 4 ≤ src.length)
    (htag : entry_tag src (entry_ctx ptr i) ∉ [34665, 34853, 40965])
    (htype : entry_type src (entry_ctx ptr i) ∉ [1, 2, 3, 4, 5, 7, 9, 10]) :
    (∀ r, exif_read src depth ptr dst ≠ .ok r) ∧
    (∀ p d, exif_read_entries src (child_read src depth) i (exif_increase ptr 2) dst
        = .ok (p, d) →
      exif_read src (depth + 1) ptr dst
        = .error (.raise .decerr_klass "invalid tag data type")) ∧
    (14 ≤ src.length → bytes_at src 0 6 = exif_ident →
      exif_init src src.length = .ok ptr → dst = [] →
      ∀ doc, create_exif_tags_hash depth [src] ≠ .ok doc) := by
  have hcnt : get_u16 src ptr.cur ptr.be = .ok (tiff_nat ptr.be (bytes_at src ptr.cur 2)) :=
    get_u16_eq ptr.be (by omega)
  have hsplit : ∀ dep, exif_read_entries src (child_read src dep)
      (tiff_nat ptr.be (bytes_at src ptr.cur 2)) (exif_increase ptr 2) dst
      = (exif_read_entries src (child_read src dep) i (exif_increase ptr 2) dst).bind
          (fun r => exif_read_entries src (child_read src dep)
            (tiff_nat ptr.be (bytes_at src ptr.cur 2) - i - 1 + 1) r.1 r.2) := by
    intro dep
    rw [← exif_read_entries_split]
    congr 1
    omega
  have hraise : ∀ dep p d,
      exif_read_entries src (child_read src dep) i (exif_increase ptr 2) dst = .ok (p, d) →
      exif_read src (dep + 1) ptr dst
        = .error (.raise .decerr_klass "invalid tag data type") := by
    intro dep p d hpre
    obtain ⟨hbe, _, hcur, _⟩ := exif_read_entries_ctx src _ i _ p dst d hpre
    simp only [exif_increase] at hcur
    have hbad := exif_read_entry_bad_type src (child_read src dep) p (by omega)
      (by simpa [entry_tag, entry_ctx, hbe, hcur] using htag)
      (by simpa [entry_type, entry_ctx, hbe, hcur] using htype)
    rw [exif_read_succ, hcnt]
    simp only [bind, Except.bind]
    rw [hsplit dep, hpre]
    simp only [Except.bind]
    rw [exif_read_entries_succ, hbad]
    rfl
  have hnot : ∀ dep r, exif_read src dep ptr dst ≠ .ok r := by
    intro dep r
    cases dep with
    | zero => intro h; cases h
    | succ dep =>
      cases hpre : exif_read_entries src (child_read src dep) i (exif_increase ptr 2) dst with
      | error e =>
        rw [exif_read_succ, hcnt]
        simp only [bind, Except.bind]
        rw [hsplit dep, hpre]
        intro h
        cases h
      | ok pd =>
        rw [hraise dep pd.1 pd.2 hpre]
        intro h
        cases h
  refine ⟨hnot depth, hraise depth, ?_⟩
  intro h14 hid hinit hdst doc
  subst hdst
  have hlen : ¬ src.length < 14 := by omega
  unfold create_exif_tags_hash
  simp only [create_exif_tags_hash_loop, if_neg hlen, hid, ne_eq, not_true_eq_false,
    if_false, create_exif_tags_hash_marker, hinit, bind, Except.bind]
  cases hr : exif_read src depth ptr [] with
  | error e => simp [Except.map]
  | ok r => exact absurd hr (hnot depth r)

/-- Instance: the root directory of `blob_badtype`, whose only entry has type 6. -/
theorem exif_read_unsupported_type_witness :
    exif_read blob_badtype 1 (ctx_root 32) []
      = .error (.raise .decerr_klass "invalid tag data type") :=
  (exif_read_unsupported_type blob_badtype 0 (ctx_root 32) [] 0 (by decide) (by decide)
    (by decide) (by decide)).2.1 _ _ rfl


theorem exif_fetch_child_ifd_eq (src : List Byte) (ptr : exif_t) (tbl : List tag_entry_t)
    (h : ptr.cur + 12 ≤ src.length) :
    exif_fetch_child_ifd src ptr tbl = .ok (child_ctx src ptr tbl) := by
  unfold exif_fetch_child_ifd child_ctx
  rw [get_u32_eq ptr.be (by omega)]
  rfl

/-- C14: for an entry inside the payload whose tag id is 0x8769, 0x8825 or 0xA005, one
round of the entry loop of `exif_read` reads the directory at `head + value_or_offset`
with the table `tag_exif`, `tag_gps` or `tag_i14y`, the byte order and the header base
of the parent, into a fresh hash, stores that hash under the key `exif`, `gps` or
`interoperability` and goes on with the next entry; a failure of the child read is the
failure of the round. -/
theorem exif_read_pointer_entry (src : List Byte) (depth k : Nat) (ptr : exif_t)
    (dst : List (VALUE × VALUE)) (tag : Nat) (key : String) (tbl : List tag_entry_t)
    (hp : (tag, key, tbl) ∈ pointer_tags)
    (hentry : ptr.cur + 12 ≤ src.length)
    (htag : entry_tag src ptr = tag) :
    ((child_ctx src ptr tbl).be = ptr.be ∧ (child_ctx src ptr tbl).head = ptr.head ∧
      (child_ctx src ptr tbl).cur
        = ptr.head + tiff_nat ptr.be (bytes_at src (ptr.cur + 8) 4) ∧
      (child_ctx src ptr tbl).tags = tbl) ∧
    (∀ c h, exif_read src depth (child_ctx src ptr tbl) [] = .ok (c, h) →
      exif_read_entries src (child_read src depth) (k + 1) ptr dst
        = exif_read_entries src (child_read src depth) k (exif_increase ptr 12)
            (rb_hash_aset dst (ID2SYM key) (.hash h))) ∧
    (∀ f, exif_read src depth (child_ctx src ptr tbl) [] = .error f →
      exif_read_entries src (child_read src depth) (k + 1) ptr dst = .error f) := by
  have hhdr := exif_fetch_tag_header_eq src ptr (by omega)
  have hstep : exif_read_entry src (child_read src depth) ptr
      = (child_read src depth (child_ctx src ptr tbl)).map
          (fun h => (ID2SYM key, VALUE.hash h)) := by
    simp only [pointer_tags, List.mem_cons, List.mem_singleton, List.not_mem_nil, or_false,
      Prod.mk.injEq] at hp
    unfold exif_read_entry
    rw [hhdr]
    simp only [bind, Except.bind, htag]
    rcases hp with ⟨h1, h2, h3⟩ | ⟨h1, h2, h3⟩ | ⟨h1, h2, h3⟩ <;> subst h1 h2 h3
    · rw [exif_fetch_child_ifd_eq src ptr tag_exif hentry]
      simp only [if_true]
      cases child_read src depth (child_ctx src ptr tag_exif) <;> rfl
    · rw [exif_fetch_child_ifd_eq src ptr tag_gps hentry]
      simp only [show ¬ ((0x8825 : Nat) = 34665) by decide, if_false, if_true]
      cases child_read src depth (child_ctx src ptr tag_gps) <;> rfl
    · rw [exif_fetch_child_ifd_eq src ptr tag_i14y hentry]
      simp only [show ¬ ((0xA005 : Nat) = 34665) by decide,
        show ¬ ((0xA005 : Nat) = 34853) by decide, if_false, if_true]
      cases child_read src depth (child_ctx src ptr tag_i14y) <;> rfl
  refine ⟨⟨rfl, rfl, rfl, rfl⟩, ?_, ?_⟩
  · intro c h hread
    rw [exif_read_entries_succ, hstep]
    simp only [child_read, hread, Except.map, Except.bind]
  · intro f hread
    rw [exif_read_entries_succ, hstep]
    simp only [child_read, hread, Except.map, Except.bind]

/-- Instance: the Exif pointer entry of `blob_subifd`; the Exif directory at offset 26
holds the id 0x0112, which the table `tag_exif` does not name. -/
theorem exif_read_pointer_entry_witness :
    exif_read_entries blob_subifd (child_read blob_subifd 1) 1 (ctx_first_entry 50) []
      = exif_read_entries blob_subifd (child_read blob_subifd 1) 0
          (exif_increase (ctx_first_entry 50) 12)
          (rb_hash_aset [] (ID2SYM "exif")
            (.hash [(ID2SYM "tag_0112", .fixnum 6)])) :=
  (exif_read_pointer_entry blob_subifd 1 0 (ctx_first_entry 50) [] 0x8769 "exif" tag_exif
    (by simp [pointer_tags]) (by decide) (by decide)).2.1 _ _ rfl

set_option maxRecDepth 100000 in
theorem nameless_entries_are_pointers :
    ∀ tbl ∈ [tag_tiff, tag_exif, tag_gps, tag_i14y], ∀ e ∈ tbl, e.name = none →
      e.tag = 34665 ∨ e.tag = 34853 ∨ e.tag = 40965 := by
  decide

theorem tiff_nat_lt2 (be : Bool) (src : List Byte) (p : Nat) (h : p + 2 ≤ src.length) :
    tiff_nat be (bytes_at src p 2) < 65536 := by
  have h0 : p < src.length := by omega
  have h1 : p + 1 < src.length := by omega
  rw [bytes_at_succ 1 h0, bytes_at_succ 0 h1, bytes_at_zero]
  have b0 := (src[p]).isLt
  have b1 := (src[p + 1]).isLt
  cases be <;> simp [tiff_nat, be_nat, le_nat] <;> omega

theorem tables_ordered_mem (tbl : List tag_entry_t)
    (htbl : tbl ∈ [tag_tiff, tag_exif, tag_gps, tag_i14y]) : table_ordered tbl = true := by
  simp only [List.mem_cons, List.mem_singleton, List.not_mem_nil, or_false] at htbl
  rcases htbl with h | h | h | h <;> subst h
  · exact tables_ordered.1
  · exact tables_ordered.2.1
  · exact tables_ordered.2.2.1
  · exact tables_ordered.2.2.2

theorem exif_read_entry_key_of_ok (src : List Byte)
    (child : exif_t → Except Fault (List (VALUE × VALUE))) (ptr : exif_t)
    (htbl : ptr.tags ∈ [tag_tiff, tag_exif, tag_gps, tag_i14y])
    (hin : ptr.cur + 4 ≤ src.length) (kv : VALUE × VALUE)
    (hkv : exif_read_entry src child ptr = .ok kv) :
    ∃ name, kv.1 = .symbol name ∧
      entry_key_name src ptr name := by
  unfold entry_key_name
  unfold exif_read_entry at hkv
  rw [exif_fetch_tag_header_eq src ptr hin] at hkv
  simp only [bind, Except.bind, pure, Except.pure] at hkv
  by_cases c1 : entry_tag src ptr = 34665
  · rw [if_pos c1] at hkv
    refine ⟨"exif", ?_, Or.inl ⟨(0x8769, "exif", tag_exif), by simp [pointer_tags], c1, rfl⟩⟩
    split at hkv
    · cases hkv
    · split at hkv
      · cases hkv
      · cases hkv; rfl
  · rw [if_neg c1] at hkv
    by_cases c2 : entry_tag src ptr = 34853
    · rw [if_pos c2] at hkv
      refine ⟨"gps", ?_, Or.inl ⟨(0x8825, "gps", tag_gps), by simp [pointer_tags], c2, rfl⟩⟩
      split at hkv
      · cases hkv
      · split at hkv
        · cases hkv
        · cases hkv; rfl
    · rw [if_neg c2] at hkv
      by_cases c3 : entry_tag src ptr = 40965
      · rw [if_pos c3] at hkv
        refine ⟨"interoperability", ?_,
          Or.inl ⟨(0xA005, "interoperability", tag_i14y), by simp [pointer_tags], c3, rfl⟩⟩
        split at hkv
        · cases hkv
        · split at hkv
          · cases hkv
          · cases hkv; rfl
      · rw [if_neg c3] at hkv
        have hnp : ∀ tk ∈ pointer_tags, entry_tag src ptr ≠ tk.1 := by
          intro tk htk
          simp only [pointer_tags, List.mem_cons, List.mem_singleton, List.not_mem_nil,
            or_false] at htk
          rcases htk with h | h | h <;> subst h <;> assumption
        have hlt : entry_tag src ptr < 65536 := tiff_nat_lt2 ptr.be src ptr.cur (by omega)
        have hspec := lookup_tag_symbol_spec ptr.tags (tables_ordered_mem _ htbl)
          (entry_tag src ptr : Int) (by omega) (by omega)
        by_cases hex : ∃ e ∈ ptr.tags, e.tag = (entry_tag src ptr : Int)
        · obtain ⟨e, he, hetag⟩ := hex
          rw [hspec.1 e he hetag] at hkv
          cases hname : e.name with
          | none =>
            have hptr := nameless_entries_are_pointers ptr.tags htbl e he hname
            rw [hetag] at hptr
            omega
          | some name =>
            refine ⟨name, ?_, Or.inr ⟨hnp, Or.inl ⟨e, he, hetag, hname⟩⟩⟩
            rw [hname] at hkv
            simp only [name_value, ID2SYM] at hkv
            split at hkv
            · cases hkv
            · cases hkv; rfl
        · have habs : ∀ e ∈ ptr.tags, e.tag ≠ (entry_tag src ptr : Int) := by
            intro e he h
            exact hex ⟨e, he, h⟩
          rw [hspec.2 habs] at hkv
          refine ⟨_, ?_, Or.inr ⟨hnp, Or.inr ⟨habs, rfl⟩⟩⟩
          simp only [ID2SYM, Int.toNat_ofNat] at hkv
          split at hkv
          · cases hkv
          · cases hkv; rfl

/-- C16: for an entry whose header lies inside the payload, read with one of the four
tag tables, the round of the entry loop of `exif_read` either fails or stores the value
under a symbol (never nil): `exif`, `gps` or `interoperability` for a pointer tag, and
otherwise the name the table gives to the tag id or, for an id the table does not
hold, `tag_` followed by the id in four lower-case hexadecimal digits. -/
theorem exif_read_entry_key (src : List Byte)
    (child : exif_t → Except Fault (List (VALUE × VALUE))) (k : Nat) (ptr : exif_t)
    (dst : List (VALUE × VALUE))
    (htbl : ptr.tags ∈ [tag_tiff, tag_exif, tag_gps, tag_i14y])
    (hin : ptr.cur + 4 ≤ src.length) :
    (∃ f, exif_read_entries src child (k + 1) ptr dst = .error f) ∨
    (∃ name val,
      exif_read_entries src child (k + 1) ptr dst
        = exif_read_entries src child k (exif_increase ptr 12)
            (rb_hash_aset dst (.symbol name) val) ∧
      entry_key_name src ptr name) := by
  rw [exif_read_entries_succ]
  cases hkv : exif_read_entry src child ptr with
  | error f => exact Or.inl ⟨f, rfl⟩
  | ok kv =>
    obtain ⟨name, hname, hchar⟩ := exif_read_entry_key_of_ok src child ptr htbl hin kv hkv
    refine Or.inr ⟨name, kv.2, ?_, hchar⟩
    simp only [Except.bind, hname]

/-- Instance: the entry of the Exif directory of `blob_subifd`, id 0x0112. -/
theorem exif_read_entry_key_witness :
    (∃ f, exif_read_entries blob_subifd (child_read blob_subifd 0) 1 ctx_subifd_entry []
        = .error f) ∨
    (∃ name val,
      exif_read_entries blob_subifd (child_read blob_subifd 0) 1 ctx_subifd_entry []
        = exif_read_entries blob_subifd (child_read blob_subifd 0) 0
            (exif_increase ctx_subifd_entry 12) (rb_hash_aset [] (.symbol name) val) ∧
      entry_key_name blob_subifd ctx_subifd_entry name) :=
  exif_read_entry_key blob_subifd (child_read blob_subifd 0) 0 ctx_subifd_entry []
    (by simp [ctx_subifd_entry]) (by decide)

/-! ## Thumbnail and orientation resolver -/

/-- C15 (the code at the failing input): on `blob_thumbnail` the second directory holds
both thumbnail tags as integers; the document stored under `thumbnail` gets the key
`jpeg_interchange` with the bytes FF D8 of `[head + 44, head + 46)`, and still holds
the two raw tags `jpeg_interchange_format` and `jpeg_interchange_format_length`. -/
theorem thumbnail_tags_not_removed (depth : Nat) :
    create_exif_tags_hash (depth + 1) [blob_thumbnail]
      = .ok (.hash [(ID2SYM "thumbnail",
          .hash [(ID2SYM "jpeg_interchange_format", .fixnum 44),
                 (ID2SYM "jpeg_interchange_format_length", .fixnum 2),
                 (ID2SYM "jpeg_interchange", .binary [0xff, 0xd8])])]) ∧
    bytes_at blob_thumbnail (6 + 44) 2 = [0xff, 0xd8] :=
  ⟨rfl, rfl⟩


theorem to_int32_eq_one (u : Nat) (h : u < 2 ^ 32) : to_int32 u = 1 ↔ u = 1 := by
  unfold to_int32
  split <;> omega

theorem pick_entries_succ (src : List Byte) (be : Bool) (k p : Nat)
    (h : p + 12 ≤ src.length) :
    pick_entries src be (k + 1) p
      = if is_orientation_entry src be p then
          .ok (some (tiff_nat be (bytes_at src (p + 8) 2) : Int))
        else pick_entries src be k (p + 12) := by
  have hlt := tiff_nat_lt4 be src (p + 4) (by omega)
  have h1 := to_int32_eq_one _ hlt
  conv_lhs => unfold pick_entries
  unfold is_orientation_entry
  rw [Nat.add_zero, get_u16_eq be (by omega), get_u16_eq be (by omega),
    get_u32_eq be (by omega), get_u16_eq be (by omega)]
  simp only [bind, Except.bind, pure, Except.pure, h1]

theorem pick_entries_none (src : List Byte) (be : Bool) :
    ∀ (k p : Nat), p + 12 * k ≤ src.length →
      (∀ j < k, ¬ is_orientation_entry src be (p + 12 * j)) →
      pick_entries src be k p = .ok none := by
  intro k
  induction k with
  | zero => intro p _ _; rfl
  | succ k ih =>
    intro p h hno
    rw [pick_entries_succ src be k p (by omega), if_neg (by simpa using hno 0 (by omega))]
    apply ih (p + 12) (by omega)
    intro j hj
    have := hno (j + 1) (by omega)
    rwa [show p + 12 * (j + 1) = p + 12 + 12 * j by omega] at this

theorem pick_entries_found (src : List Byte) (be : Bool) :
    ∀ (i k p : Nat), i < k → p + 12 * (i + 1) ≤ src.length →
      (∀ j < i, ¬ is_orientation_entry src be (p + 12 * j)) →
      is_orientation_entry src be (p + 12 * i) →
      pick_entries src be k p
        = .ok (some (tiff_nat be (bytes_at src (p + 12 * i + 8) 2) : Int)) := by
  intro i
  induction i with
  | zero =>
    intro k p hk h _ hyes
    obtain ⟨k, rfl⟩ : ∃ k0, k = k0 + 1 := ⟨k - 1, by omega⟩
    rw [pick_entries_succ src be k p (by omega), if_pos (by simpa using hyes)]
  | succ i ih =>
    intro k p hk h hno hyes
    obtain ⟨k, rfl⟩ : ∃ k0, k = k0 + 1 := ⟨k - 1, by omega⟩
    rw [pick_entries_succ src be k p (by omega), if_neg (by simpa using hno 0 (by omega))]
    rw [ih k (p + 12) (by omega) (by omega) _
      (by rwa [show p + 12 + 12 * i = p + 12 * (i + 1) by omega])]
    · rw [show p + 12 + 12 * i + 8 = p + 12 * (i + 1) + 8 by omega]
    · intro j hj
      have := hno (j + 1) (by omega)
      rwa [show p + 12 * (j + 1) = p + 12 + 12 * j by omega] at this

theorem pick_markers_valid (src : List Byte) (rest : List (List Byte)) (be : Bool)
    (off : Nat) (hv : valid_header src be off) :
    pick_markers (src :: rest)
      = (do
          let n ← get_u16 src (6 + off) be
          let found ← pick_entries src be n (6 + off + 2)
          match found with
          | some v => pure v
          | none => pick_markers rest) := by
  obtain ⟨h14, hlen, hid, hbo, hmag, hoff, hlo, hhi⟩ := hv
  have hne : mark_II ≠ mark_MM := by decide
  have hbe : decide (bytes_at src 6 2 = mark_MM) = be := by
    cases be <;> simp [hbo, hne]
  have h2 : ¬ (bytes_at src 6 2 ≠ mark_MM ∧ bytes_at src 6 2 ≠ mark_II) := by
    cases be <;> simp [hbo]
  have e1 : get_u16 src 8 be = .ok 0x002a := by
    rw [get_u16_eq be (by omega), hmag]
  have e2 : get_u32 src 10 be = .ok off := by
    rw [get_u32_eq be (by omega), hoff]
  have e3 : sub_u32 src.length 6 = src.length - 6 := by
    unfold sub_u32
    omega
  have e4 : add_u32 6 off = 6 + off := by
    unfold add_u32
    exact Nat.mod_eq_of_lt (by omega)
  rw [pick_markers, if_neg (by omega), if_neg (by simpa using hid), if_neg h2]
  simp only [hbe, e1, e2, e3, e4, bind, Except.bind, pure, Except.pure]
  rw [if_neg (by simp), if_neg (by omega)]


theorem pick_markers_no_entry (src : List Byte) (rest : List (List Byte)) (be : Bool)
    (off : Nat) (hv : valid_header src be off)
    (hdir : 6 + off + 2 + 12 * tiff_nat be (bytes_at src (6 + off) 2) ≤ src.length)
    (hno : ∀ j < tiff_nat be (bytes_at src (6 + off) 2),
      ¬ is_orientation_entry src be (6 + off + 2 + 12 * j)) :
    pick_markers (src :: rest) = pick_markers rest := by
  rw [pick_markers_valid src rest be off hv, get_u16_eq be (by omega)]
  simp only [bind, Except.bind]
  rw [pick_entries_none src be _ _ hdir hno]

/-- C17: for a payload with a valid header whose root directory holds at entry `i` the
first entry with tag 0x0112, type short and count 1, with value `v`, all entries up to
it lying inside the payload, the resolver stores `v - 1` when `1 ≤ v ≤ 8` and 0
otherwise (code `v`, or code 1); and when no entry of the root directory is such an
entry, the resolver stores 0 whatever the rest of the payload (a sub-directory
included) holds. -/
theorem pick_exif_orientation_value (src : List Byte) (rest : List (List Byte))
    (be : Bool) (off : Nat) (hv : valid_header src be off) :
    (∀ i : Nat, i < tiff_nat be (bytes_at src (6 + off) 2) →
      6 + off + 2 + 12 * (i + 1) ≤ src.length →
      (∀ j < i, ¬ is_orientation_entry src be (6 + off + 2 + 12 * j)) →
      is_orientation_entry src be (6 + off + 2 + 12 * i) →
      pick_exif_orientation (src :: rest)
        = .ok (if 1 ≤ tiff_nat be (bytes_at src (6 + off + 2 + 12 * i + 8) 2) ∧
                  tiff_nat be (bytes_at src (6 + off + 2 + 12 * i + 8) 2) ≤ 8
               then (tiff_nat be (bytes_at src (6 + off + 2 + 12 * i + 8) 2) : Int) - 1
               else 0)) ∧
    (6 + off + 2 + 12 * tiff_nat be (bytes_at src (6 + off) 2) ≤ src.length →
      (∀ j < tiff_nat be (bytes_at src (6 + off) 2),
        ¬ is_orientation_entry src be (6 + off + 2 + 12 * j)) →
      pick_exif_orientation [src] = .ok 0) := by
  constructor
  · intro i hi hin hfirst hent
    have hlen := hv.1
    unfold pick_exif_orientation
    rw [pick_markers_valid src rest be off hv, get_u16_eq be (by omega)]
    simp only [bind, Except.bind]
    rw [pick_entries_found src be i _ _ hi hin hfirst hent]
    simp only [pure, Except.pure]
    congr 1
    split_ifs <;> first | rfl | omega
  · intro hdir hno
    unfold pick_exif_orientation
    rw [pick_markers_no_entry src [] be off hv hdir hno]
    rfl

/-- Instance: orientation 6 in the root directory gives 5, and the same entry placed
only in the Exif sub-directory of `blob_subifd` gives 0. -/
theorem pick_exif_orientation_value_witness :
    pick_exif_orientation [blob_orientation] = .ok 5 ∧
    pick_exif_orientation [blob_subifd] = .ok 0 :=
  ⟨(pick_exif_orientation_value blob_orientation [] true 8 (by decide)).1 0
      (by decide) (by decide) (by decide) (by decide),
   (pick_exif_orientation_value blob_subifd [] true 8 (by decide)).2
      (by decide) (by decide)⟩


theorem load_error_oob (src : List Byte) (p : Nat) (f : Fault)
    (h : load src p = .error f) : ∃ i, f = .oob i := by
  unfold load at h
  split at h
  · cases h
  · cases h; exact ⟨_, rfl⟩

theorem get_u16_error_oob (src : List Byte) (p : Nat) (be : Bool) (f : Fault)
    (h : get_u16 src p be = .error f) : ∃ i, f = .oob i := by
  unfold get_u16 at h
  simp only [bind, Except.bind] at h
  cases h0 : load src p with
  | error e => rw [h0] at h; cases h; exact load_error_oob src p _ h0
  | ok a =>
    rw [h0] at h
    cases h1 : load src (p + 1) with
    | error e => rw [h1] at h; cases h; exact load_error_oob src _ _ h1
    | ok b => rw [h1] at h; simp only at h; split at h <;> cases h

theorem get_u32_error_oob (src : List Byte) (p : Nat) (be : Bool) (f : Fault)
    (h : get_u32 src p be = .error f) : ∃ i, f = .oob i := by
  unfold get_u32 at h
  simp only [bind, Except.bind] at h
  cases h0 : load src p with
  | error e => rw [h0] at h; cases h; exact load_error_oob src p _ h0
  | ok a =>
    rw [h0] at h
    cases h1 : load src (p + 1) with
    | error e => rw [h1] at h; cases h; exact load_error_oob src _ _ h1
    | ok b =>
      rw [h1] at h
      cases h2 : load src (p + 2) with
      | error e => rw [h2] at h; cases h; exact load_error_oob src _ _ h2
      | ok c =>
        rw [h2] at h
        cases h3 : load src (p + 3) with
        | error e => rw [h3] at h; cases h; exact load_error_oob src _ _ h3
        | ok d => rw [h3] at h; simp only at h; split at h <;> cases h

theorem pick_entries_error_oob (src : List Byte) (be : Bool) :
    ∀ (k p : Nat) (f : Fault), pick_entries src be k p = .error f → ∃ i, f = .oob i := by
  intro k
  induction k with
  | zero => intro p f h; cases h
  | succ k ih =>
    intro p f h
    unfold pick_entries at h
    simp only [bind, Except.bind] at h
    cases h0 : get_u16 src (p + 0) be with
    | error e => rw [h0] at h; cases h; exact get_u16_error_oob _ _ _ _ h0
    | ok a =>
      rw [h0] at h
      cases h1 : get_u16 src (p + 2) be with
      | error e => rw [h1] at h; cases h; exact get_u16_error_oob _ _ _ _ h1
      | ok b =>
        rw [h1] at h
        cases h2 : get_u32 src (p + 4) be with
        | error e => rw [h2] at h; cases h; exact get_u32_error_oob _ _ _ _ h2
        | ok c =>
          rw [h2] at h
          simp only at h
          split at h
          · cases h3 : get_u16 src (p + 8) be with
            | error e => rw [h3] at h; cases h; exact get_u16_error_oob _ _ _ _ h3
            | ok d => rw [h3] at h; cases h
          · exact ih _ _ h

theorem pick_markers_error_oob :
    ∀ (markers : List (List Byte)) (f : Fault), pick_markers markers = .error f →
      ∃ i, f = .oob i := by
  intro markers
  induction markers with
  | nil => intro f h; cases h
  | cons data rest ih =>
    intro f h
    unfold pick_markers at h
    split at h
    · exact ih f h
    · split at h
      · exact ih f h
      · split at h
        · exact ih f h
        · simp only [bind, Except.bind] at h
          cases h0 : get_u16 data 8 (decide (bytes_at data 6 2 = mark_MM)) with
          | error e => rw [h0] at h; cases h; exact get_u16_error_oob _ _ _ _ h0
          | ok a =>
            rw [h0] at h
            simp only at h
            split at h
            · exact ih f h
            · cases h1 : get_u32 data 10 (decide (bytes_at data 6 2 = mark_MM)) with
              | error e => rw [h1] at h; cases h; exact get_u32_error_oob _ _ _ _ h1
              | ok off =>
                rw [h1] at h
                simp only at h
                split at h
                · exact ih f h
                · cases h2 : get_u16 data (add_u32 6 off)
                      (decide (bytes_at data 6 2 = mark_MM)) with
                  | error e => rw [h2] at h; cases h; exact get_u16_error_oob _ _ _ _ h2
                  | ok n =>
                    rw [h2] at h
                    simp only at h
                    cases h3 : pick_entries data (decide (bytes_at data 6 2 = mark_MM)) n
                        (add_u32 6 off + 2) with
                    | error e =>
                      rw [h3] at h; cases h; exact pick_entries_error_oob _ _ _ _ _ h3
                    | ok found =>
                      rw [h3] at h
                      simp only at h
                      cases found with
                      | none => exact ih f h
                      | some v => cases h

theorem pick_markers_skip (src : List Byte) (rest : List (List Byte))
    (hlen : src.length < 2 ^ 32)
    (hbad : src.length < 14 ∨ bytes_at src 0 6 ≠ exif_ident ∨
      (bytes_at src 6 2 ≠ mark_MM ∧ bytes_at src 6 2 ≠ mark_II) ∨
      (14 ≤ src.length ∧
        tiff_nat (decide (bytes_at src 6 2 = mark_MM)) (bytes_at src 8 2) ≠ 0x002a) ∨
      (14 ≤ src.length ∧
        (tiff_nat (decide (bytes_at src 6 2 = mark_MM)) (bytes_at src 10 4) < 8 ∨
         src.length - 6 ≤ tiff_nat (decide (bytes_at src 6 2 = mark_MM)) (bytes_at src 10 4)))) :
    pick_markers (src :: rest) = pick_markers rest := by
  rw [pick_markers]
  by_cases c0 : src.length < 14
  · rw [if_pos c0]
  · rw [if_neg c0]
    by_cases c1 : bytes_at src 0 6 ≠ exif_ident
    · rw [if_pos c1]
    · rw [if_neg c1]
      by_cases c2 : bytes_at src 6 2 ≠ mark_MM ∧ bytes_at src 6 2 ≠ mark_II
      · rw [if_pos c2]
      · rw [if_neg c2]
        have e1 := @get_u16_eq src 8 (decide (bytes_at src 6 2 = mark_MM)) (by omega)
        have e2 := @get_u32_eq src 10 (decide (bytes_at src 6 2 = mark_MM)) (by omega)
        have e3 : sub_u32 src.length 6 = src.length - 6 := by
          unfold sub_u32
          omega
        simp only [e1, e2, e3, bind, Except.bind]
        by_cases c3 : tiff_nat (decide (bytes_at src 6 2 = mark_MM)) (bytes_at src 8 2)
            ≠ 0x002a
        · rw [if_pos c3]
        · rw [if_neg c3]
          have c4 : tiff_nat (decide (bytes_at src 6 2 = mark_MM)) (bytes_at src 10 4) < 8 ∨
              src.length - 6 ≤
                tiff_nat (decide (bytes_at src 6 2 = mark_MM)) (bytes_at src 10 4) := by
            rcases hbad with h | h | h | h | h
            · exact absurd h c0
            · exact absurd h c1
            · exact absurd h c2
            · exact absurd h.2 c3
            · exact h.2
          rw [if_pos (by simpa using c4)]

/-- C18: the resolver never raises, whatever the marker list; on a single payload
(shorter than 2^32 bytes) it stores 0, that is code 1, when the payload is shorter than
14 bytes or has an invalid identifier, byte-order marker, magic or first-directory
offset, and when the header is valid, the root directory lies inside the payload and
none of its entries has tag 0x0112 with type short and count 1 (the orientation tag
is absent, or has another type or another count). -/
theorem pick_exif_orientation_default (src : List Byte) (hlen : src.length < 2 ^ 32) :
    (∀ (markers : List (List Byte)) (klass : Klass) (msg : String),
      pick_exif_orientation markers ≠ .error (.raise klass msg)) ∧
    ((src.length < 14 ∨ bytes_at src 0 6 ≠ exif_ident ∨
      (bytes_at src 6 2 ≠ mark_MM ∧ bytes_at src 6 2 ≠ mark_II) ∨
      (14 ≤ src.length ∧
        tiff_nat (decide (bytes_at src 6 2 = mark_MM)) (bytes_at src 8 2) ≠ 0x002a) ∨
      (14 ≤ src.length ∧
        (tiff_nat (decide (bytes_at src 6 2 = mark_MM)) (bytes_at src 10 4) < 8 ∨
         src.length - 6 ≤
           tiff_nat (decide (bytes_at src 6 2 = mark_MM)) (bytes_at src 10 4)))) →
      pick_exif_orientation [src] = .ok 0) ∧
    (∀ (be : Bool) (off : Nat), valid_header src be off →
      6 + off + 2 + 12 * tiff_nat be (bytes_at src (6 + off) 2) ≤ src.length →
      (∀ j < tiff_nat be (bytes_at src (6 + off) 2),
        ¬ is_orientation_entry src be (6 + off + 2 + 12 * j)) →
      pick_exif_orientation [src] = .ok 0) := by
  refine ⟨?_, ?_, ?_⟩
  · intro markers klass msg h
    unfold pick_exif_orientation at h
    simp only [bind, Except.bind] at h
    cases hm : pick_markers markers with
    | error f =>
      rw [hm] at h
      obtain ⟨i, hi⟩ := pick_markers_error_oob markers f hm
      subst hi
      cases h
    | ok v => rw [hm] at h; cases h
  · intro hbad
    unfold pick_exif_orientation
    rw [pick_markers_skip src [] hlen hbad]
    rfl
  · intro be off hv hdir hno
    unfold pick_exif_orientation
    rw [pick_markers_no_entry src [] be off hv hdir hno]
    rfl

/-- Instance: an orientation tag of type long is ignored. -/
theorem pick_exif_orientation_default_witness :
    pick_exif_orientation [blob_orientation_long] = .ok 0 :=
  (pick_exif_orientation_default blob_orientation_long (by decide)).2.2 true 8
    (by decide) (by decide) (by decide)

/-! ## Geometric transforms -/

theorem peek_nat {buf : List Byte} {i : Nat} (h : i < buf.length) :
    peek buf (i : Int) = .ok buf[i] := by
  simp [peek, List.getElem?_eq_getElem h]

theorem poke_nat {buf : List Byte} {i : Nat} (h : i < buf.length) (v : Byte) :
    poke buf (i : Int) v = .ok (buf.set i v) := by
  simp [poke, h]

theorem SWAP_nat {buf : List Byte} {a b : Nat} (ha : a < buf.length) (hb : b < buf.length) :
    SWAP buf (a : Int) (b : Int) = .ok ((buf.set a buf[b]).set b buf[a]) := by
  unfold SWAP
  rw [peek_nat ha, peek_nat hb]
  simp only [bind, Except.bind]
  rw [poke_nat ha]
  simp only
  rw [poke_nat (by simpa using hb)]

theorem swap_unit_spec (k : Nat) : ∀ (buf : List Byte) (a b : Nat),
    a + k ≤ b → b + k ≤ buf.length →
    ∃ buf', swap_unit k buf (a : Int) (b : Int) = .ok buf' ∧ buf'.length = buf.length ∧
      ∀ i : Nat, buf'[i]? =
        if a ≤ i ∧ i < a + k then buf[i - a + b]?
        else if b ≤ i ∧ i < b + k then buf[i - b + a]? else buf[i]? := by
  induction k with
  | zero =>
    intro buf a b _ _
    refine ⟨buf, rfl, rfl, ?_⟩
    intro i
    rw [if_neg (by omega), if_neg (by omega)]
  | succ k ih =>
    intro buf a b hab hb
    have ha' : a < buf.length := by omega
    have hb' : b < buf.length := by omega
    obtain ⟨buf', h1, h2, h3⟩ := ih ((buf.set a buf[b]).set b buf[a]) (a + 1) (b + 1)
      (by omega) (by simp; omega)
    refine ⟨buf', ?_, ?_, ?_⟩
    · rw [swap_unit, SWAP_nat ha' hb']
      simp only [bind, Except.bind]
      have e1 : ((a : Int) + 1) = ((a + 1 : Nat) : Int) := by push_cast; rfl
      have e2 : ((b : Int) + 1) = ((b + 1 : Nat) : Int) := by push_cast; rfl
      rw [e1, e2, h1]
    · rw [h2]; simp
    · intro i
      rw [h3 i]
      simp only [List.getElem?_set, List.length_set]
      by_cases c1 : a ≤ i ∧ i < a + (k + 1)
      · rw [if_pos c1]
        by_cases c0 : i = a
        · subst c0
          rw [if_neg (by omega), if_neg (by omega), if_neg (by omega), if_pos rfl, if_pos ha']
          rw [show i - i + b = b by omega, List.getElem?_eq_getElem hb']
        · rw [if_pos (by omega), if_neg (by omega), if_neg (by omega)]
          congr 1
          omega
      · rw [if_neg c1]
        by_cases c2 : b ≤ i ∧ i < b + (k + 1)
        · rw [if_pos c2, if_neg (by omega)]
          by_cases c0 : i = b
          · subst c0
            rw [if_neg (by omega), if_pos rfl, if_pos (by simpa using hb')]
            rw [show i - i + a = a by omega, List.getElem?_eq_getElem ha']
          · rw [if_pos (by omega), if_neg (by omega), if_neg (by omega)]
            congr 1
            omega
        · rw [if_neg c2, if_neg (by omega), if_neg (by omega), if_neg (by omega),
            if_neg (by omega)]

theorem copy_unit_spec (img : List Byte) (k : Nat) : ∀ (dst : List Byte) (a b : Nat),
    a + k ≤ img.length → b + k ≤ dst.length →
    ∃ dst', copy_unit img k dst (a : Int) (b : Int) = .ok dst' ∧ dst'.length = dst.length ∧
      ∀ i : Nat, dst'[i]? = if b ≤ i ∧ i < b + k then img[i - b + a]? else dst[i]? := by
  induction k with
  | zero =>
    intro dst a b _ _
    refine ⟨dst, rfl, rfl, ?_⟩
    intro i
    rw [if_neg (by omega)]
  | succ k ih =>
    intro dst a b ha hb
    have ha' : a < img.length := by omega
    have hb' : b < dst.length := by omega
    obtain ⟨dst', h1, h2, h3⟩ := ih (dst.set b img[a]) (a + 1) (b + 1)
      (by omega) (by simp; omega)
    refine ⟨dst', ?_, ?_, ?_⟩
    · rw [copy_unit, peek_nat ha']
      simp only [bind, Except.bind]
      rw [poke_nat hb']
      simp only
      have e1 : ((a : Int) + 1) = ((a + 1 : Nat) : Int) := by push_cast; rfl
      have e2 : ((b : Int) + 1) = ((b + 1 : Nat) : Int) := by push_cast; rfl
      rw [e1, e2, h1]
    · rw [h2]; simp
    · intro i
      rw [h3 i]
      simp only [List.getElem?_set]
      by_cases c1 : b ≤ i ∧ i < b + (k + 1)
      · rw [if_pos c1]
        by_cases c0 : i = b
        · subst c0
          rw [if_neg (by omega), if_pos rfl, if_pos hb']
          rw [show i - i + a = a by omega, List.getElem?_eq_getElem ha']
        · rw [if_pos (by omega)]
          congr 1
          omega
      · rw [if_neg c1, if_neg (by omega), if_neg (by omega)]


theorem mul_idx_lt {u n k w : Nat} (hu : u < n) (hk : k < w) : u * w + k < n * w := by
  have h1 : (u + 1) * w ≤ n * w := Nat.mul_le_mul_right w hu
  rw [Nat.succ_mul] at h1
  omega

theorem swap_while_rev (w : Nat) (hw : 1 ≤ w) : ∀ (fuel N : Nat) (buf : List Byte) (a : Nat),
    a + N * w ≤ buf.length → N < 2 * fuel →
    ∃ buf', swap_while (swap_unit w) (w : Int) fuel buf (a : Int)
          ((a : Int) + ((N * w : Nat) : Int) - (w : Int))
        = .ok (buf', ((a + N / 2 * w : Nat) : Int)) ∧
      buf'.length = buf.length ∧
      (∀ u k, u < N → k < w → buf'[a + u * w + k]? = buf[a + (N - 1 - u) * w + k]?) ∧
      (∀ i, (i < a ∨ a + N * w ≤ i) → buf'[i]? = buf[i]?) := by
  intro fuel
  induction fuel with
  | zero => intro N buf a _ h; omega
  | succ fuel ih =>
    intro N buf a hlen hfuel
    rw [swap_while]
    by_cases hN : N ≤ 1
    · have hNw : N * w ≤ w := by
        calc N * w ≤ 1 * w := Nat.mul_le_mul_right w hN
          _ = w := Nat.one_mul w
      rw [if_neg (by omega)]
      refine ⟨buf, ?_, rfl, ?_, fun i _ => rfl⟩
      · have : N / 2 = 0 := by omega
        rw [this, Nat.zero_mul, Nat.add_zero]
        rfl
      · intro u k hu hk
        have hu0 : u = 0 := by omega
        subst hu0
        rw [show N - 1 - 0 = 0 by omega]
    · obtain ⟨M, rfl⟩ : ∃ M, N = M + 2 := ⟨N - 2, by omega⟩
      have e2 : (M + 2) * w = M * w + 2 * w := Nat.add_mul M 2 w
      have e1 : (M + 1) * w = M * w + w := Nat.succ_mul M w
      rw [if_pos (by omega)]
      have edp : (a : Int) + (((M + 2) * w : Nat) : Int) - (w : Int)
          = ((a + (M + 1) * w : Nat) : Int) := by omega
      rw [edp]
      obtain ⟨buf1, s1, s2, s3⟩ := swap_unit_spec w buf a (a + (M + 1) * w)
        (by omega) (by omega)
      rw [s1]
      simp only [bind, Except.bind]
      obtain ⟨buf', r1, r2, r3, r4⟩ := ih M buf1 (a + w) (by omega) (by omega)
      have esp : (a : Int) + (w : Int) = ((a + w : Nat) : Int) := by omega
      have edp2 : ((a + (M + 1) * w : Nat) : Int) - (w : Int)
          = ((a + w : Nat) : Int) + ((M * w : Nat) : Int) - (w : Int) := by omega
      rw [esp, edp2, r1]
      have ehalf : (M + 2) / 2 = M / 2 + 1 := by omega
      refine ⟨buf', ?_, by rw [r2, s2], ?_, ?_⟩
      · rw [ehalf, Nat.succ_mul]
        congr 2
        omega
      · intro u k hu hk
        by_cases hu0 : u = 0
        · subst hu0
          rw [Nat.zero_mul, Nat.add_zero, r4 (a + k) (Or.inl (by omega)), s3 (a + k),
            if_pos (by omega), show M + 2 - 1 - 0 = M + 1 by omega]
          congr 1
          omega
        · by_cases hu1 : u = M + 1
          · subst hu1
            rw [show M + 2 - 1 - (M + 1) = 0 by omega, Nat.zero_mul, Nat.add_zero,
              r4 (a + (M + 1) * w + k) (Or.inr (by omega)), s3 (a + (M + 1) * w + k),
              if_neg (by omega), if_pos (by omega)]
            congr 1
            omega
          · obtain ⟨v, rfl⟩ : ∃ v, u = v + 1 := ⟨u - 1, by omega⟩
            have hv : v < M := by omega
            have ev : (v + 1) * w = v * w + w := Nat.succ_mul v w
            have em : (M - v) * w = (M - 1 - v) * w + w := by
              rw [show M - v = (M - 1 - v) + 1 by omega, Nat.succ_mul]
            have hlt := @mul_idx_lt (M - 1 - v) M k w (by omega) hk
            have hlt2 := @mul_idx_lt v M k w hv hk
            have := r3 v k hv hk
            rw [show a + (v + 1) * w + k = a + w + v * w + k by omega, this,
              s3 (a + w + (M - 1 - v) * w + k), if_neg (by omega), if_neg (by omega),
              show M + 2 - 1 - (v + 1) = M - v by omega]
            congr 1
            omega
      · intro i hi
        rw [r4 i (by omega), s3 i, if_neg (by omega), if_neg (by omega)]


theorem rev_index {wd ht x y : Nat} (hx : x < wd) (hy : y < ht) :
    wd * ht - 1 - (y * wd + x) = (ht - 1 - y) * wd + (wd - 1 - x) := by
  obtain ⟨c, rfl⟩ : ∃ c, ht = c + y + 1 := ⟨ht - 1 - y, by omega⟩
  have e : wd * (c + y + 1) = c * wd + y * wd + wd := by ring
  rw [show c + y + 1 - 1 - y = c by omega, e]
  omega

theorem upside_down_units (w : Nat) (hw : 1 ≤ w) (img : List Byte) (n : Nat)
    (hlen : n * w ≤ img.length) (dp : Int) (hdp : dp = ((n * w : Nat) : Int) - (w : Int)) :
    ∃ out, (swap_while (swap_unit w) (w : Int) (img.length + 1) img 0 dp).map Prod.fst
        = .ok out ∧ out.length = img.length ∧
      (∀ u k, u < n → k < w → out[u * w + k]? = img[(n - 1 - u) * w + k]?) ∧
      (∀ i, n * w ≤ i → out[i]? = img[i]?) := by
  have hn : n ≤ n * w := Nat.le_mul_of_pos_right n hw
  obtain ⟨out, r1, r2, r3, r4⟩ := swap_while_rev w hw (img.length + 1) n img 0
    (by omega) (by omega)
  have e : dp = (((0 : Nat) : Int) + ((n * w : Nat) : Int) - (w : Int)) := by omega
  refine ⟨out, ?_, r2, ?_, ?_⟩
  · rw [e, show (0 : Int) = ((0 : Nat) : Int) from rfl, r1]
    rfl
  · intro u k hu hk
    have := r3 u k hu hk
    simpa using this
  · intro i hi
    exact r4 i (Or.inr (by omega))

theorem do_upside_down_px (img : List Byte) (wd ht nc : Nat)
    (hnc : nc = 1 ∨ nc = 3 ∨ nc = 4) (hlen : img.length = wd * ht * nc) :
    ∃ out, do_upside_down img wd ht nc = .ok out ∧ out.length = img.length ∧
      ∀ x y k, x < wd → y < ht → k < nc →
        px out wd nc x y k = px img wd nc (wd - 1 - x) (ht - 1 - y) k := by
  have key : ∀ (w : Nat) (dp : Int), 1 ≤ w → nc = w →
      dp = (((wd * ht) * w : Nat) : Int) - (w : Int) →
      ∃ out, (swap_while (swap_unit w) (w : Int) (img.length + 1) img 0 dp).map Prod.fst
          = .ok out ∧ out.length = img.length ∧
        ∀ x y k, x < wd → y < ht → k < nc →
          px out wd nc x y k = px img wd nc (wd - 1 - x) (ht - 1 - y) k := by
    intro w dp hw hncw hdp
    subst hncw
    obtain ⟨out, r1, r2, r3, _⟩ := upside_down_units nc hw img (wd * ht) (by omega) dp hdp
    refine ⟨out, r1, r2, ?_⟩
    intro x y k hx hy hk
    have hu : y * wd + x < wd * ht := by
      have := @mul_idx_lt y ht x wd hy hx
      rw [Nat.mul_comm wd ht]
      exact this
    unfold px
    rw [r3 (y * wd + x) k hu hk, rev_index hx hy]
  rcases hnc with h | h | h
  · obtain ⟨out, r1, r2⟩ := key 1 (((wd * ht : Nat) : Int) - 1) (by omega) h (by omega)
    refine ⟨out, ?_, r2⟩
    rw [← r1]
    simp [do_upside_down, do_upside_down8, h]
  · obtain ⟨out, r1, r2⟩ := key 3 (((wd * ht * 3 : Nat) : Int) - 3) (by omega) h (by omega)
    refine ⟨out, ?_, r2⟩
    rw [← r1]
    simp [do_upside_down, do_upside_down24, h]
  · obtain ⟨out, r1, r2⟩ := key 4 (4 * (((wd * ht : Nat) : Int) - 1)) (by omega) h (by omega)
    refine ⟨out, ?_, r2⟩
    rw [← r1]
    simp [do_upside_down, do_upside_down32, h]


theorem flip_rows_spec (w wd : Nat) (hw : 1 ≤ w) (st half : Int) (fuel : Nat)
    (hst : st = ((wd * w : Nat) : Int)) (hhalf : half = ((wd / 2 * w : Nat) : Int))
    (hfuel : wd < 2 * fuel) :
    ∀ (n : Nat) (buf : List Byte) (s : Nat), s + n * (wd * w) ≤ buf.length →
    ∃ buf', flip_rows w st half fuel n buf (s : Int) ((s : Int) + (st - (w : Int)))
        = .ok buf' ∧ buf'.length = buf.length ∧
      (∀ j u k, j < n → u < wd → k < w →
        buf'[s + j * (wd * w) + u * w + k]? = buf[s + j * (wd * w) + (wd - 1 - u) * w + k]?) ∧
      (∀ i, (i < s ∨ s + n * (wd * w) ≤ i) → buf'[i]? = buf[i]?) := by
  intro n
  induction n with
  | zero =>
    intro buf s _
    exact ⟨buf, rfl, rfl, fun j u k hj => by omega, fun i _ => rfl⟩
  | succ n ih =>
    intro buf s hlen
    have en : (n + 1) * (wd * w) = n * (wd * w) + wd * w := Nat.succ_mul n (wd * w)
    obtain ⟨buf1, r1, r2, r3, r4⟩ := swap_while_rev w hw fuel wd buf s (by omega) hfuel
    obtain ⟨buf', q1, q2, q3, q4⟩ := ih buf1 (s + wd * w) (by omega)
    have edp : (s : Int) + (st - (w : Int))
        = (s : Int) + ((wd * w : Nat) : Int) - (w : Int) := by omega
    have esp : (((s + wd / 2 * w : Nat) : Int) - half + st) = ((s + wd * w : Nat) : Int) := by
      omega
    refine ⟨buf', ?_, by rw [q2, r2], ?_, ?_⟩
    · rw [flip_rows, edp, r1]
      simp only [bind, Except.bind]
      rw [esp, q1]
    · intro j u k hj hu hk
      have huw := @mul_idx_lt u wd k w hu hk
      have huw2 := @mul_idx_lt (wd - 1 - u) wd k w (by omega) hk
      by_cases hj0 : j = 0
      · subst hj0
        rw [Nat.zero_mul, Nat.add_zero, q4 (s + u * w + k) (Or.inl (by omega)), r3 u k hu hk]
      · obtain ⟨i, rfl⟩ : ∃ i, j = i + 1 := ⟨j - 1, by omega⟩
        have ei : (i + 1) * (wd * w) = i * (wd * w) + wd * w := Nat.succ_mul i (wd * w)
        have hi : i < n := by omega
        have hin : (i + 1) * (wd * w) ≤ n * (wd * w) := Nat.mul_le_mul_right _ hi
        have := q3 i u k hi hu hk
        rw [show s + (i + 1) * (wd * w) + u * w + k = s + wd * w + i * (wd * w) + u * w + k
              by omega, this,
          r4 (s + wd * w + i * (wd * w) + (wd - 1 - u) * w + k) (Or.inr (by omega))]
        congr 1
        omega
    · intro i hi
      rw [q4 i (by omega), r4 i (by omega)]

theorem do_flip_horizon_px (img : List Byte) (wd ht nc : Nat)
    (hnc : nc = 1 ∨ nc = 2 ∨ nc = 3 ∨ nc = 4) (hlen : img.length = wd * ht * nc) :
    ∃ out, do_flip_horizon img wd ht nc = .ok out ∧ out.length = img.length ∧
      ∀ x y k, x < wd → y < ht → k < nc →
        px out wd nc x y k = px img wd nc (wd - 1 - x) y k := by
  have hsz : ht * (wd * nc) = wd * ht * nc := by ring
  have hnc1 : 1 ≤ nc := by omega
  have key : ∀ (st half dp : Int), st = ((wd * nc : Nat) : Int) →
      half = ((wd / 2 * nc : Nat) : Int) → dp = st - (nc : Int) →
      ∃ out, flip_rows nc st half (img.length + 1) ht img 0 dp = .ok out ∧
        out.length = img.length ∧
        ∀ x y k, x < wd → y < ht → k < nc →
          px out wd nc x y k = px img wd nc (wd - 1 - x) y k := by
    intro st half dp hst hhalf hdp
    by_cases h0 : ht = 0
    · subst h0
      exact ⟨img, rfl, rfl, fun x y k _ hy => by omega⟩
    · have hwd : wd ≤ wd * ht * nc := by
        calc wd = wd * 1 := (Nat.mul_one wd).symm
          _ ≤ wd * (ht * nc) := Nat.mul_le_mul_left wd (Nat.mul_pos (by omega) hnc1)
          _ = wd * ht * nc := by ring
      obtain ⟨out, r1, r2, r3, _⟩ := flip_rows_spec nc wd hnc1 st half (img.length + 1)
        hst hhalf (by omega) ht img 0 (by omega)
      refine ⟨out, ?_, r2, ?_⟩
      · rw [← r1, hdp]
        simp
      · intro x y k hx hy hk
        have := r3 y x k hy hx hk
        unfold px
        rw [show (y * wd + x) * nc + k = 0 + y * (wd * nc) + x * nc + k by ring,
          show (y * wd + (wd - 1 - x)) * nc + k = 0 + y * (wd * nc) + (wd - 1 - x) * nc + k
            by ring]
        exact this
  rcases hnc with h | h | h | h <;> subst h
  · obtain ⟨out, r1, r2⟩ := key wd ((wd / 2 : Nat)) ((wd : Int) - 1)
      (by omega) (by omega) (by omega)
    exact ⟨out, by rw [← r1]; simp [do_flip_horizon, do_flip_horizon8], r2⟩
  · obtain ⟨out, r1, r2⟩ := key (2 * wd) (2 * (wd / 2 : Nat)) (2 * ((wd : Int) - 1))
      (by omega) (by omega) (by omega)
    exact ⟨out, by rw [← r1]; simp [do_flip_horizon, do_flip_horizon16], r2⟩
  · obtain ⟨out, r1, r2⟩ := key (wd * 3) ((wd / 2 : Nat) * 3) (((wd * 3 : Nat) : Int) - 3)
      (by omega) (by omega) (by omega)
    exact ⟨out, by rw [← r1]; simp [do_flip_horizon, do_flip_horizon24], r2⟩
  · obtain ⟨out, r1, r2⟩ := key (4 * wd) (4 * (wd / 2 : Nat)) (4 * ((wd : Int) - 1))
      (by omega) (by omega) (by omega)
    exact ⟨out, by rw [← r1]; simp [do_flip_horizon, do_flip_horizon32], r2⟩


theorem radix_unique {S a r a' r' : Nat} (hr : r < S) (hr' : r' < S)
    (h : a * S + r = a' * S + r') : a = a' ∧ r = r' := by
  have hS : 0 < S := by omega
  have h1 : (S * a + r) / S = a := by
    rw [Nat.mul_add_div hS, Nat.div_eq_of_lt hr, Nat.add_zero]
  have h2 : (S * a' + r') / S = a' := by
    rw [Nat.mul_add_div hS, Nat.div_eq_of_lt hr', Nat.add_zero]
  have h3 : S * a + r = S * a' + r' := by
    rw [Nat.mul_comm S a, Nat.mul_comm S a']
    exact h
  have ha : a = a' := by rw [← h1, ← h2, h3]
  subst ha
  exact ⟨rfl, by omega⟩

theorem transpose_row_spec (w S : Nat) (hS : w ≤ S) (img : List Byte) :
    ∀ (n : Nat) (dst : List Byte) (sp dp : Nat),
    sp + n * w ≤ img.length → dp + n * S ≤ dst.length + (S - w) →
    ∃ dst', transpose_row w (S : Int) img n dst (sp : Int) (dp : Int)
        = .ok (dst', ((sp + n * w : Nat) : Int)) ∧ dst'.length = dst.length ∧
      (∀ x k, x < n → k < w → dst'[dp + x * S + k]? = img[sp + x * w + k]?) ∧
      (∀ j, (∀ x k, x < n → k < w → j ≠ dp + x * S + k) → dst'[j]? = dst[j]?) := by
  intro n
  induction n with
  | zero =>
    intro dst sp dp _ _
    refine ⟨dst, ?_, rfl, fun x k hx => by omega, fun j _ => rfl⟩
    rw [Nat.zero_mul, Nat.add_zero]
    rfl
  | succ n ih =>
    intro dst sp dp hsp hdp
    have en : (n + 1) * w = n * w + w := Nat.succ_mul n w
    have eS : (n + 1) * S = n * S + S := Nat.succ_mul n S
    obtain ⟨dst1, c1, c2, c3⟩ := copy_unit_spec img w dst sp dp (by omega) (by omega)
    obtain ⟨dst', r1, r2, r3, r4⟩ := ih dst1 (sp + w) (dp + S) (by omega) (by omega)
    have e1 : (sp : Int) + (w : Int) = ((sp + w : Nat) : Int) := by omega
    have e2 : (dp : Int) + (S : Int) = ((dp + S : Nat) : Int) := by omega
    refine ⟨dst', ?_, by rw [r2, c2], ?_, ?_⟩
    · rw [transpose_row, c1]
      simp only [bind, Except.bind]
      rw [e1, e2, r1]
      congr 3
      omega
    · intro x k hx hk
      by_cases hx0 : x = 0
      · subst hx0
        rw [Nat.zero_mul, Nat.add_zero, Nat.zero_mul, Nat.add_zero, r4 (dp + k), c3 (dp + k),
          if_pos (by omega)]
        · congr 1
          omega
        · intro x' k' _ hk'
          omega
      · obtain ⟨v, rfl⟩ : ∃ v, x = v + 1 := ⟨x - 1, by omega⟩
        have ev : (v + 1) * w = v * w + w := Nat.succ_mul v w
        have evS : (v + 1) * S = v * S + S := Nat.succ_mul v S
        have := r3 v k (by omega) hk
        rw [show dp + (v + 1) * S + k = dp + S + v * S + k by omega, this]
        congr 1
        omega
    · intro j hj
      rw [r4 j, c3 j, if_neg]
      · intro hin
        exact hj 0 (j - dp) (by omega) (by omega) (by omega)
      · intro x k hx hk hjeq
        have evS : (x + 1) * S = x * S + S := Nat.succ_mul x S
        exact hj (x + 1) k (by omega) hk (by omega)


theorem transpose_rows_spec (w wd ht : Nat) (img : List Byte)
    (himg : ht * (wd * w) ≤ img.length) :
    ∀ (n y0 : Nat) (dst : List Byte), y0 + n = ht → wd * (ht * w) ≤ dst.length →
    ∃ dst', transpose_rows w ((ht * w : Nat) : Int) img wd n (y0 : Int) dst
          ((y0 * (wd * w) : Nat) : Int) = .ok dst' ∧ dst'.length = dst.length ∧
      (∀ y x k, y0 ≤ y → y < ht → x < wd → k < w →
        dst'[y * w + x * (ht * w) + k]? = img[y * (wd * w) + x * w + k]?) ∧
      (∀ j, (∀ y x k, y0 ≤ y → y < ht → x < wd → k < w → j ≠ y * w + x * (ht * w) + k) →
        dst'[j]? = dst[j]?) := by
  intro n
  induction n with
  | zero =>
    intro y0 dst hy _
    exact ⟨dst, rfl, rfl, fun y x k h1 h2 => by omega, fun j _ => rfl⟩
  | succ n ih =>
    intro y0 dst hy hdst
    have hy0 : y0 < ht := by omega
    have hwS : w ≤ ht * w := Nat.le_mul_of_pos_left w (by omega)
    have ey : (y0 + 1) * (wd * w) = y0 * (wd * w) + wd * w := Nat.succ_mul y0 (wd * w)
    have ey2 : (y0 + 1) * w = y0 * w + w := Nat.succ_mul y0 w
    have hrow : (y0 + 1) * (wd * w) ≤ ht * (wd * w) := Nat.mul_le_mul_right _ hy0
    have hyw : (y0 + 1) * w ≤ ht * w := Nat.mul_le_mul_right _ hy0
    obtain ⟨dst1, c1, c2, c3, c4⟩ := transpose_row_spec w (ht * w) hwS img wd dst
      (y0 * (wd * w)) (y0 * w) (by omega) (by omega)
    obtain ⟨dst', r1, r2, r3, r4⟩ := ih (y0 + 1) dst1 (by omega) (by omega)
    have e1 : (y0 : Int) * (w : Int) = ((y0 * w : Nat) : Int) := by push_cast; rfl
    have e2 : (y0 : Int) + 1 = ((y0 + 1 : Nat) : Int) := by omega
    have e3 : ((y0 * (wd * w) + wd * w : Nat) : Int) = (((y0 + 1) * (wd * w) : Nat) : Int) := by
      omega
    refine ⟨dst', ?_, by rw [r2, c2], ?_, ?_⟩
    · rw [transpose_rows, e1, c1]
      simp only [bind, Except.bind]
      rw [e2, e3, r1]
    · intro y x k hy1 hy2 hx hk
      by_cases hyy : y = y0
      · subst hyy
        rw [r4 (y * w + x * (ht * w) + k), c3 x k hx hk]
        intro y' x' k' hy1' hy2' hx' hk' heq
        have hr : y * w + k < ht * w := mul_idx_lt hy2 hk
        have hr' : y' * w + k' < ht * w := mul_idx_lt hy2' hk'
        have h1 : x * (ht * w) + (y * w + k) = x' * (ht * w) + (y' * w + k') := by omega
        have h2 := (radix_unique hr hr' h1).2
        have h3 := (radix_unique hk hk' h2).1
        omega
      · exact r3 y x k (by omega) hy2 hx hk
    · intro j hj
      rw [r4 j, c4 j]
      · intro x k hx hk
        exact hj y0 x k (Nat.le_refl y0) hy0 hx hk
      · intro y x k hy1 hy2 hx hk
        exact hj y x k (by omega) hy2 hx hk

theorem do_transpose_px (img dst : List Byte) (wd ht nc : Nat)
    (hnc : nc = 1 ∨ nc = 2 ∨ nc = 3 ∨ nc = 4) (himg : img.length = wd * ht * nc)
    (hdst : dst.length = wd * ht * nc) :
    ∃ out, do_transpose img wd ht nc dst = .ok out ∧ out.length = dst.length ∧
      ∀ x y k, x < wd → y < ht → k < nc →
        px out ht nc y x k = px img wd nc x y k := by
  have e1 : ht * (wd * nc) = wd * ht * nc := by ring
  have e2 : wd * (ht * nc) = wd * ht * nc := by ring
  have key : ∀ (st : Int), st = ((ht * nc : Nat) : Int) →
      ∃ out, transpose_rows nc st img wd ht 0 dst 0 = .ok out ∧ out.length = dst.length ∧
        ∀ x y k, x < wd → y < ht → k < nc →
          px out ht nc y x k = px img wd nc x y k := by
    intro st hst
    subst hst
    obtain ⟨out, r1, r2, r3, _⟩ := transpose_rows_spec nc wd ht img (by omega)
      ht 0 dst (by omega) (by omega)
    refine ⟨out, ?_, r2, ?_⟩
    · rw [← r1]
      simp
    · intro x y k hx hy hk
      unfold px
      rw [show (x * ht + y) * nc + k = y * nc + x * (ht * nc) + k by ring,
        show (y * wd + x) * nc + k = y * (wd * nc) + x * nc + k by ring]
      exact r3 y x k (Nat.zero_le y) hy hx hk
  rcases hnc with h | h | h | h <;> subst h
  · obtain ⟨out, r1, r2⟩ := key ht (by omega)
    exact ⟨out, by rw [← r1]; simp [do_transpose, do_transpose8], r2⟩
  · obtain ⟨out, r1, r2⟩ := key (2 * ht) (by omega)
    exact ⟨out, by rw [← r1]; simp [do_transpose, do_transpose16], r2⟩
  · obtain ⟨out, r1, r2⟩ := key (ht * 3) (by omega)
    exact ⟨out, by rw [← r1]; simp [do_transpose, do_transpose24], r2⟩
  · obtain ⟨out, r1, r2⟩ := key (4 * ht) (by omega)
    exact ⟨out, by rw [← r1]; simp [do_transpose, do_transpose32], r2⟩


theorem list_length_six (d : List Byte) (h : d.length = 6) :
    ∃ a b c e f g, d = [a, b, c, e, f, g] := by
  rcases d with _ | ⟨a, _ | ⟨b, _ | ⟨c, _ | ⟨e, _ | ⟨f, _ | ⟨g, _ | ⟨_, _⟩⟩⟩⟩⟩⟩⟩ <;>
    first
    | exact ⟨_, _, _, _, _, _, rfl⟩
    | (simp at h)

/-- C20: for element widths 1, 2, 3 and 4 and a `wd x ht` source, `do_transpose` fills
the destination (a buffer of the same size, any contents) so that the element at
column `x`, row `y` of the source stands at column `y`, row `x` of the `ht x wd`
destination: the bytes of destination element `x * ht + y` are those of source element
`y * wd + x`; the 3 x 2 grayscale buffer [1,2,3,4,5,6] gives [1,4,2,5,3,6]. -/
theorem do_transpose_spec (img dst : List Byte) (wd ht nc : Nat)
    (hnc : nc = 1 ∨ nc = 2 ∨ nc = 3 ∨ nc = 4) (himg : img.length = wd * ht * nc)
    (hdst : dst.length = wd * ht * nc) :
    (∃ out, do_transpose img wd ht nc dst = .ok out ∧ out.length = wd * ht * nc ∧
      ∀ x y k, x < wd → y < ht → k < nc →
        out[(x * ht + y) * nc + k]? = img[(y * wd + x) * nc + k]?) ∧
    (∀ d : List Byte, d.length = 6 →
      do_transpose [1, 2, 3, 4, 5, 6] 3 2 1 d = .ok [1, 4, 2, 5, 3, 6]) := by
  constructor
  · obtain ⟨out, r1, r2, r3⟩ := do_transpose_px img dst wd ht nc hnc himg hdst
    exact ⟨out, r1, by rw [r2, hdst], r3⟩
  · intro d hd
    obtain ⟨a, b, c, e, f, g, rfl⟩ := list_length_six d hd
    rfl

/-- Instance: a 2 x 2 image of 3-byte pixels. -/
theorem do_transpose_spec_witness :
    ∃ out, do_transpose [1, 2, 3, 4, 5, 6, 7, 8, 9, 10, 11, 12] 2 2 3
        [0, 0, 0, 0, 0, 0, 0, 0, 0, 0, 0, 0] = .ok out ∧ out.length = 2 * 2 * 3 ∧
      ∀ x y k, x < 2 → y < 2 → k < 3 →
        out[(x * 2 + y) * 3 + k]?
          = ([1, 2, 3, 4, 5, 6, 7, 8, 9, 10, 11, 12] : List Byte)[(y * 2 + x) * 3 + k]? :=
  (do_transpose_spec [1, 2, 3, 4, 5, 6, 7, 8, 9, 10, 11, 12]
    [0, 0, 0, 0, 0, 0, 0, 0, 0, 0, 0, 0] 2 2 3 (by decide) (by decide) (by decide)).1


/-- C19: for a `wd x ht` image of 1, 3 or 4 bytes per pixel and a work buffer of the
same size, `apply_orientation` with value `code - 1` gives: code 1 the image itself;
2 `out(x,y) = src(wd-1-x, y)`; 3 `out(x,y) = src(wd-1-x, ht-1-y)`;
4 `out(x,y) = src(x, ht-1-y)`; and, the output being `ht x wd`, 5 `out(x,y) = src(y, x)`;
6 `out(x,y) = src(y, ht-1-x)`; 7 `out(x,y) = src(wd-1-y, ht-1-x)`;
8 `out(x,y) = src(wd-1-y, x)`.  Code 3 runs `do_upside_down` alone (no transpose) and
code 6 runs `do_transpose` followed by `do_flip_horizon`. -/
theorem apply_orientation_spec (img buf : List Byte) (wd ht nc : Nat)
    (hnc : nc = 1 ∨ nc = 3 ∨ nc = 4) (himg : img.length = wd * ht * nc)
    (hbuf : buf.length = img.length) :
    apply_orientation 0 wd ht nc img buf = .ok img ∧
    (∃ out, apply_orientation 1 wd ht nc img buf = .ok out ∧ out.length = img.length ∧
      ∀ x y k, x < wd → y < ht → k < nc →
        px out wd nc x y k = px img wd nc (wd - 1 - x) y k) ∧
    (∃ out, apply_orientation 2 wd ht nc img buf = .ok out ∧ out.length = img.length ∧
      ∀ x y k, x < wd → y < ht → k < nc →
        px out wd nc x y k = px img wd nc (wd - 1 - x) (ht - 1 - y) k) ∧
    (∃ out, apply_orientation 3 wd ht nc img buf = .ok out ∧ out.length = img.length ∧
      ∀ x y k, x < wd → y < ht → k < nc →
        px out wd nc x y k = px img wd nc x (ht - 1 - y) k) ∧
    (∃ out, apply_orientation 4 wd ht nc img buf = .ok out ∧ out.length = img.length ∧
      ∀ x y k, x < ht → y < wd → k < nc →
        px out ht nc x y k = px img wd nc y x k) ∧
    (∃ out, apply_orientation 5 wd ht nc img buf = .ok out ∧ out.length = img.length ∧
      ∀ x y k, x < ht → y < wd → k < nc →
        px out ht nc x y k = px img wd nc y (ht - 1 - x) k) ∧
    (∃ out, apply_orientation 6 wd ht nc img buf = .ok out ∧ out.length = img.length ∧
      ∀ x y k, x < ht → y < wd → k < nc →
        px out ht nc x y k = px img wd nc (wd - 1 - y) (ht - 1 - x) k) ∧
    (∃ out, apply_orientation 7 wd ht nc img buf = .ok out ∧ out.length = img.length ∧
      ∀ x y k, x < ht → y < wd → k < nc →
        px out ht nc x y k = px img wd nc (wd - 1 - y) x k) ∧
    apply_orientation 2 wd ht nc img buf = do_upside_down img wd ht nc ∧
    apply_orientation 5 wd ht nc img buf
      = (do_transpose img wd ht nc buf).bind (fun t => do_flip_horizon t ht wd nc) := by
  have hnc4 : nc = 1 ∨ nc = 2 ∨ nc = 3 ∨ nc = 4 := by omega
  have hsw : ht * wd * nc = wd * ht * nc := by ring
  -- the three operators on the image itself
  obtain ⟨f, f1, f2, f3⟩ := do_flip_horizon_px img wd ht nc hnc4 himg
  obtain ⟨u, u1, u2, u3⟩ := do_upside_down_px img wd ht nc hnc himg
  obtain ⟨uf, uf1, uf2, uf3⟩ := do_flip_horizon_px u wd ht nc hnc4 (by rw [u2, himg])
  -- the transposed image and the operators on it
  obtain ⟨t, t1, t2, t3⟩ := do_transpose_px img buf wd ht nc hnc4 himg (by rw [hbuf, himg])
  have tlen : t.length = ht * wd * nc := by rw [t2, hbuf, himg, hsw]
  obtain ⟨tf, tf1, tf2, tf3⟩ := do_flip_horizon_px t ht wd nc hnc4 tlen
  obtain ⟨tu, tu1, tu2, tu3⟩ := do_upside_down_px t ht wd nc hnc tlen
  obtain ⟨tuf, tuf1, tuf2, tuf3⟩ := do_flip_horizon_px tu ht wd nc hnc4 (by rw [tu2, tlen])
  refine ⟨rfl, ⟨f, ?_, f2, f3⟩, ⟨u, ?_, u2, u3⟩, ⟨uf, ?_, by rw [uf2, u2], ?_⟩,
    ⟨t, ?_, by rw [t2, hbuf], ?_⟩, ⟨tf, ?_, by rw [tf2, t2, hbuf], ?_⟩,
    ⟨tu, ?_, by rw [tu2, t2, hbuf], ?_⟩, ⟨tuf, ?_, by rw [tuf2, tu2, t2, hbuf], ?_⟩, ?_, ?_⟩
  · rw [← f1]; rfl
  · show (do_upside_down img wd ht nc).bind (fun i => pure i) = _
    rw [u1]; rfl
  · show (do_upside_down img wd ht nc).bind (fun i => do_flip_horizon i wd ht nc) = _
    rw [u1]; exact uf1
  · intro x y k hx hy hk
    rw [uf3 x y k hx hy hk, u3 (wd - 1 - x) y k (by omega) hy hk,
      show wd - 1 - (wd - 1 - x) = x by omega]
  · show (do_transpose img wd ht nc buf).bind (fun o => pure o) = _
    rw [t1]; rfl
  · intro x y k hx hy hk
    exact t3 y x k hy hx hk
  · show (do_transpose img wd ht nc buf).bind (fun o => do_flip_horizon o ht wd nc) = _
    rw [t1]; exact tf1
  · intro x y k hx hy hk
    rw [tf3 x y k hx hy hk, t3 y (ht - 1 - x) k hy (by omega) hk]
  · show (do_transpose img wd ht nc buf).bind
      (fun o => (do_upside_down o ht wd nc).bind (fun i => pure i)) = _
    rw [t1]
    show (do_upside_down t ht wd nc).bind (fun i => pure i) = _
    rw [tu1]; rfl
  · intro x y k hx hy hk
    rw [tu3 x y k hx hy hk, t3 (wd - 1 - y) (ht - 1 - x) k (by omega) (by omega) hk]
  · show (do_transpose img wd ht nc buf).bind
      (fun o => (do_upside_down o ht wd nc).bind (fun i => do_flip_horizon i ht wd nc)) = _
    rw [t1]
    show (do_upside_down t ht wd nc).bind (fun i => do_flip_horizon i ht wd nc) = _
    rw [tu1]; exact tuf1
  · intro x y k hx hy hk
    rw [tuf3 x y k hx hy hk, tu3 (ht - 1 - x) y k (by omega) hy hk,
      t3 (wd - 1 - y) (ht - 1 - (ht - 1 - x)) k (by omega) (by omega) hk,
      show ht - 1 - (ht - 1 - x) = x by omega]
  · show (do_upside_down img wd ht nc).bind (fun i => pure i) = _
    rw [u1]; rfl
  · rfl

/-- Witness for C19 on the 3 x 2 grayscale image `[1,2,3,4,5,6]`. -/
theorem apply_orientation_spec_witness :
    ([1, 2, 3, 4, 5, 6] : List Byte).length = 3 * 2 * 1 ∧
    apply_orientation 0 3 2 1 [1, 2, 3, 4, 5, 6] [0, 0, 0, 0, 0, 0]
      = .ok [1, 2, 3, 4, 5, 6] ∧
    apply_orientation 2 3 2 1 [1, 2, 3, 4, 5, 6] [0, 0, 0, 0, 0, 0]
      = do_upside_down [1, 2, 3, 4, 5, 6] 3 2 1 ∧
    apply_orientation 5 3 2 1 [1, 2, 3, 4, 5, 6] [0, 0, 0, 0, 0, 0]
      = .ok [4, 1, 5, 2, 6, 3] :=
  have h := apply_orientation_spec [1, 2, 3, 4, 5, 6] [0, 0, 0, 0, 0, 0] 3 2 1
    (Or.inl rfl) rfl rfl
  ⟨rfl, h.1, h.2.2.2.2.2.2.2.2.1, by decide⟩

/-! ## Geometric transforms: single operators -/

theorem px_ext (a b : List Byte) (wd ht nc : Nat) (ha : a.length = wd * ht * nc)
    (hb : b.length = wd * ht * nc)
    (h : ∀ x y k, x < wd → y < ht → k < nc → px a wd nc x y k = px b wd nc x y k) :
    a = b := by
  apply List.ext_getElem?
  intro i
  by_cases hi : i < wd * ht * nc
  · have hnc : 0 < nc := by
      rcases Nat.eq_zero_or_pos nc with h0 | h0
      · subst h0; simp at hi
      · exact h0
    have hq : i / nc < wd * ht := by
      rw [Nat.div_lt_iff_lt_mul hnc]; exact hi
    have hwd : 0 < wd := by
      rcases Nat.eq_zero_or_pos wd with h0 | h0
      · subst h0; simp at hq
      · exact h0
    have hy : i / nc / wd < ht := by
      rw [Nat.div_lt_iff_lt_mul hwd, Nat.mul_comm]; exact hq
    have hx : i / nc % wd < wd := Nat.mod_lt _ hwd
    have hk : i % nc < nc := Nat.mod_lt _ hnc
    have e : (i / nc / wd * wd + i / nc % wd) * nc + i % nc = i := by
      rw [Nat.div_add_mod' (i / nc) wd, Nat.div_add_mod' i nc]
    have := h (i / nc % wd) (i / nc / wd) (i % nc) hx hy hk
    unfold px at this
    rw [e] at this
    exact this
  · rw [List.getElem?_eq_none (by omega), List.getElem?_eq_none (by omega)]

/-- C21 (counterexample): on the 2 x 2 grayscale image `[1,2,3,4]` `do_upside_down`
returns `[4,3,2,1]`; the element at column 0, row 0 of the output is 4, the input
element at column 1, row 1, and not 3, the input element at column 0, row 1: the
statement "output (x, y) = input (x, ht-1-y)" fails. -/
theorem do_upside_down_not_vertical_flip :
    do_upside_down [1, 2, 3, 4] 2 2 1 = .ok [4, 3, 2, 1] ∧
    px [4, 3, 2, 1] 2 1 0 0 0 = some 4 ∧ px [1, 2, 3, 4] 2 1 0 (2 - 1 - 0) 0 = some 3 ∧
    ¬ (∀ (img : List Byte) (wd ht nc : Nat), nc = 1 → img.length = wd * ht * nc →
        ∃ out, do_upside_down img wd ht nc = .ok out ∧
          ∀ x y k, x < wd → y < ht → k < nc →
            px out wd nc x y k = px img wd nc x (ht - 1 - y) k) := by
  refine ⟨by decide, by decide, by decide, ?_⟩
  intro h
  obtain ⟨out, h1, h2⟩ := h [1, 2, 3, 4] 2 2 1 rfl rfl
  have e : do_upside_down [1, 2, 3, 4] 2 2 1 = .ok [4, 3, 2, 1] := by decide
  rw [e] at h1
  injection h1 with h1
  subst h1
  have := h2 0 0 0 (by decide) (by decide) (by decide)
  revert this
  decide

/-- C21 (amended): for a `wd x ht` image of 1, 3 or 4 bytes per pixel `do_upside_down`
exchanges row `y` with row `ht-1-y` and column `x` with column `wd-1-x`: the output
element at `(x, y)` is the input element at `(wd-1-x, ht-1-y)`, all bytes kept. In an
image of width 1 this is the exchange of the rows alone. -/
theorem do_upside_down_rotates (img : List Byte) (wd ht nc : Nat)
    (hnc : nc = 1 ∨ nc = 3 ∨ nc = 4) (hlen : img.length = wd * ht * nc) :
    ∃ out, do_upside_down img wd ht nc = .ok out ∧ out.length = img.length ∧
      (∀ x y k, x < wd → y < ht → k < nc →
        px out wd nc x y k = px img wd nc (wd - 1 - x) (ht - 1 - y) k) ∧
      (wd = 1 → ∀ x y k, x < wd → y < ht → k < nc →
        px out wd nc x y k = px img wd nc x (ht - 1 - y) k) := by
  obtain ⟨out, h1, h2, h3⟩ := do_upside_down_px img wd ht nc hnc hlen
  refine ⟨out, h1, h2, h3, ?_⟩
  intro hw x y k hx hy hk
  rw [h3 x y k hx hy hk]
  congr 1
  omega

/-- Witness for the amended C21 on a 2 x 2 grayscale image. -/
theorem do_upside_down_rotates_witness :
    ([1, 2, 3, 4] : List Byte).length = 2 * 2 * 1 ∧
    ∃ out, do_upside_down [1, 2, 3, 4] 2 2 1 = .ok out ∧
      out.length = ([1, 2, 3, 4] : List Byte).length ∧
      (∀ x y k, x < 2 → y < 2 → k < 1 →
        px out 2 1 x y k = px [1, 2, 3, 4] 2 1 (2 - 1 - x) (2 - 1 - y) k) ∧
      ((2 : Nat) = 1 → ∀ x y k, x < 2 → y < 2 → k < 1 →
        px out 2 1 x y k = px [1, 2, 3, 4] 2 1 x (2 - 1 - y) k) :=
  ⟨rfl, do_upside_down_rotates [1, 2, 3, 4] 2 2 1 (Or.inl rfl) rfl⟩

/-- C22: for a `wd x ht` image whose elements have 1, 2, 3 or 4 bytes, in a buffer of
exactly `wd * ht * nc` bytes, `do_flip_horizon` returns (no access outside the buffer
happens, which would be an `oob` fault) a buffer of the same size in which every byte
`k` of the element at `(x, y)` is byte `k` of the input element at `(wd-1-x, y)`. -/
theorem do_flip_horizon_spec (img : List Byte) (wd ht nc : Nat)
    (hnc : nc = 1 ∨ nc = 2 ∨ nc = 3 ∨ nc = 4) (hlen : img.length = wd * ht * nc) :
    (∃ out, do_flip_horizon img wd ht nc = .ok out ∧ out.length = img.length ∧
      ∀ x y k, x < wd → y < ht → k < nc →
        px out wd nc x y k = px img wd nc (wd - 1 - x) y k) ∧
    (∀ i, do_flip_horizon img wd ht nc ≠ .error (.oob i)) := by
  obtain ⟨out, h1, h2, h3⟩ := do_flip_horizon_px img wd ht nc hnc hlen
  refine ⟨⟨out, h1, h2, h3⟩, ?_⟩
  intro i h
  rw [h1] at h
  cases h

/-- Witness for C22: a 3 x 2 image of 2-byte elements (odd width). -/
theorem do_flip_horizon_spec_witness :
    do_flip_horizon [1, 2, 3, 4, 5, 6, 7, 8, 9, 10, 11, 12] 3 2 2
      = .ok [5, 6, 3, 4, 1, 2, 11, 12, 9, 10, 7, 8] ∧
    ∃ out, do_flip_horizon [1, 2, 3, 4, 5, 6, 7, 8, 9, 10, 11, 12] 3 2 2 = .ok out ∧
      out.length = ([1, 2, 3, 4, 5, 6, 7, 8, 9, 10, 11, 12] : List Byte).length ∧
      ∀ x y k, x < 3 → y < 2 → k < 2 →
        px out 3 2 x y k = px [1, 2, 3, 4, 5, 6, 7, 8, 9, 10, 11, 12] 3 2 (3 - 1 - x) y k :=
  ⟨by decide,
   (do_flip_horizon_spec [1, 2, 3, 4, 5, 6, 7, 8, 9, 10, 11, 12] 3 2 2
      (Or.inr (Or.inl rfl)) rfl).1⟩

/-- C23: for a `wd x ht` image of 1, 3 or 4 bytes per pixel, `do_flip_horizon` applied
twice, `do_upside_down` applied twice, and `do_transpose` from `wd x ht` followed by
`do_transpose` from `ht x wd` (into destination buffers of the size of the image) each
return the original buffer. -/
theorem single_flag_involutions (img : List Byte) (wd ht nc : Nat)
    (hnc : nc = 1 ∨ nc = 3 ∨ nc = 4) (hlen : img.length = wd * ht * nc) :
    (do_flip_horizon img wd ht nc).bind (fun o => do_flip_horizon o wd ht nc) = .ok img ∧
    (do_upside_down img wd ht nc).bind (fun o => do_upside_down o wd ht nc) = .ok img ∧
    (∀ d1 d2 : List Byte, d1.length = img.length → d2.length = img.length →
      (do_transpose img wd ht nc d1).bind (fun t => do_transpose t ht wd nc d2)
        = .ok img) := by
  have hnc4 : nc = 1 ∨ nc = 2 ∨ nc = 3 ∨ nc = 4 := by omega
  have hsw : ht * wd * nc = wd * ht * nc := by ring
  refine ⟨?_, ?_, ?_⟩
  · obtain ⟨f, f1, f2, f3⟩ := do_flip_horizon_px img wd ht nc hnc4 hlen
    obtain ⟨g, g1, g2, g3⟩ := do_flip_horizon_px f wd ht nc hnc4 (by rw [f2, hlen])
    rw [f1]
    show do_flip_horizon f wd ht nc = _
    rw [g1]
    congr 1
    apply px_ext g img wd ht nc (by rw [g2, f2, hlen]) hlen
    intro x y k hx hy hk
    rw [g3 x y k hx hy hk, f3 (wd - 1 - x) y k (by omega) hy hk,
      show wd - 1 - (wd - 1 - x) = x by omega]
  · obtain ⟨f, f1, f2, f3⟩ := do_upside_down_px img wd ht nc hnc hlen
    obtain ⟨g, g1, g2, g3⟩ := do_upside_down_px f wd ht nc hnc (by rw [f2, hlen])
    rw [f1]
    show do_upside_down f wd ht nc = _
    rw [g1]
    congr 1
    apply px_ext g img wd ht nc (by rw [g2, f2, hlen]) hlen
    intro x y k hx hy hk
    rw [g3 x y k hx hy hk, f3 (wd - 1 - x) (ht - 1 - y) k (by omega) (by omega) hk,
      show wd - 1 - (wd - 1 - x) = x by omega, show ht - 1 - (ht - 1 - y) = y by omega]
  · intro d1 d2 hd1 hd2
    obtain ⟨t, t1, t2, t3⟩ := do_transpose_px img d1 wd ht nc hnc4 hlen (by rw [hd1, hlen])
    obtain ⟨g, g1, g2, g3⟩ := do_transpose_px t d2 ht wd nc hnc4
      (by rw [t2, hd1, hlen, hsw]) (by rw [hd2, hlen, hsw])
    rw [t1]
    show do_transpose t ht wd nc d2 = _
    rw [g1]
    congr 1
    apply px_ext g img wd ht nc (by rw [g2, hd2, hlen]) hlen
    intro x y k hx hy hk
    rw [g3 y x k hy hx hk, t3 x y k hx hy hk]

/-- Witness for C23 on a 3 x 2 grayscale image. -/
theorem single_flag_involutions_witness :
    (do_transpose [1, 2, 3, 4, 5, 6] 3 2 1 [0, 0, 0, 0, 0, 0]).bind
        (fun t => do_transpose t 2 3 1 [9, 9, 9, 9, 9, 9])
      = .ok [1, 2, 3, 4, 5, 6] ∧
    (do_upside_down [1, 2, 3, 4, 5, 6] 3 2 1).bind (fun o => do_upside_down o 3 2 1)
      = .ok [1, 2, 3, 4, 5, 6] :=
  have h := single_flag_involutions [1, 2, 3, 4, 5, 6] 3 2 1 (Or.inl rfl) rfl
  ⟨h.2.2 [0, 0, 0, 0, 0, 0] [9, 9, 9, 9, 9, 9] rfl rfl, h.2.1⟩

/-! ## Row conversion, chroma swap, palette expansion -/

theorem peek_eq {buf : List Byte} {i : Int} {n : Nat} (hi : i = (n : Int))
    (h : n < buf.length) : peek buf i = .ok buf[n] := by
  subst hi
  exact peek_nat h

theorem poke_eq {buf : List Byte} {i : Int} {n : Nat} (hi : i = (n : Int))
    (h : n < buf.length) (v : Byte) : poke buf i v = .ok (buf.set n v) := by
  subst hi
  exact poke_nat h v

theorem assign_eq {src dst : List Byte} {dp sp : Int} {a b : Nat} (hd : dp = (a : Int))
    (hs : sp = (b : Int)) (ha : a < dst.length) (hb : b < src.length) :
    assign src dst dp sp = .ok (dst.set a src[b]) := by
  unfold assign
  rw [peek_eq hs hb]
  exact poke_eq hd ha _

theorem div_mod_idx {L r t : Nat} (ht : t < L) : (r * L + t) / L = r ∧ (r * L + t) % L = t := by
  have hL : 0 < L := by omega
  constructor
  · rw [Nat.mul_comm, Nat.mul_add_div hL, Nat.div_eq_of_lt ht, Nat.add_zero]
  · rw [Nat.mul_comm, Nat.mul_add_mod, Nat.mod_eq_of_lt ht]

/-- A loop whose body writes `L` bytes at the destination pointer, byte `t` being
`val b t` for the source offset `b`, writes `n * L` bytes. -/
theorem for_rows_spec (body : List Byte → Int → Int → Except Fault (List Byte × Int))
    (L S : Nat) (val : Nat → Nat → Option Byte) (P : Nat → Prop)
    (hbody : ∀ (dst : List Byte) (a b : Nat), a + L ≤ dst.length → P b →
      ∃ dst', body dst (a : Int) (b : Int) = .ok (dst', ((a + L : Nat) : Int)) ∧
        dst'.length = dst.length ∧
        ∀ i, dst'[i]? = if a ≤ i ∧ i < a + L then val b (i - a) else dst[i]?) :
    ∀ (n : Nat) (dst : List Byte) (a b : Nat), a + n * L ≤ dst.length →
      (∀ r, r < n → P (b + r * S)) →
      ∃ dst', for_rows body (S : Int) n dst (a : Int) (b : Int)
          = .ok (dst', ((a + n * L : Nat) : Int)) ∧
        dst'.length = dst.length ∧
        ∀ i, dst'[i]? = if a ≤ i ∧ i < a + n * L
          then val (b + (i - a) / L * S) ((i - a) % L) else dst[i]? := by
  intro n
  induction n with
  | zero =>
    intro dst a b _ _
    refine ⟨dst, ?_, rfl, ?_⟩
    · rw [Nat.zero_mul, Nat.add_zero]; rfl
    · intro i
      rw [if_neg (by omega)]
  | succ n ih =>
    intro dst a b hlen hP
    have en : (n + 1) * L = n * L + L := Nat.succ_mul n L
    obtain ⟨d1, b1, b2, b3⟩ := hbody dst a b (by omega) (by simpa using hP 0 (by omega))
    obtain ⟨d2, r1, r2, r3⟩ := ih d1 (a + L) (b + S) (by omega) (by
      intro r hr
      have := hP (r + 1) (by omega)
      rw [Nat.succ_mul] at this
      rw [show b + S + r * S = b + (r * S + S) by omega]
      exact this)
    refine ⟨d2, ?_, by rw [r2, b2], ?_⟩
    · rw [for_rows, b1]
      simp only [bind, Except.bind]
      rw [show (b : Int) + (S : Int) = ((b + S : Nat) : Int) by omega, r1]
      congr 3
      omega
    · intro i
      rw [r3 i]
      by_cases c1 : a + L ≤ i ∧ i < a + L + n * L
      · rw [if_pos c1, if_pos (by omega)]
        have hL : 0 < L := by
          rcases Nat.eq_zero_or_pos L with h0 | h0
          · subst h0; omega
          · exact h0
        have e1 : (i - a) / L = (i - (a + L)) / L + 1 := by
          rw [show i - a = (i - (a + L)) + L by omega, Nat.add_div_right _ hL]
        have e2 : (i - a) % L = (i - (a + L)) % L := by
          rw [show i - a = (i - (a + L)) + L by omega, Nat.add_mod_right]
        rw [e1, e2, Nat.succ_mul,
          show b + S + (i - (a + L)) / L * S = b + ((i - (a + L)) / L * S + S) by omega]
      · rw [if_neg c1, b3 i]
        by_cases c2 : a ≤ i ∧ i < a + L
        · rw [if_pos c2, if_pos (by omega)]
          rw [Nat.div_eq_of_lt (by omega), Nat.mod_eq_of_lt (by omega), Nat.zero_mul,
            Nat.add_zero]
        · rw [if_neg c2, if_neg (by omega)]

theorem copy_row_spec (data : List Byte) (size : Nat) (dst : List Byte) (a b : Nat)
    (ha : a + size ≤ dst.length) (hb : b + size ≤ data.length) :
    ∃ dst', copy_row data size dst (a : Int) (b : Int)
        = .ok (dst', ((a + size : Nat) : Int)) ∧ dst'.length = dst.length ∧
      ∀ i, dst'[i]? = if a ≤ i ∧ i < a + size then data[b + (i - a)]? else dst[i]? := by
  obtain ⟨d1, c1, c2, c3⟩ := copy_unit_spec data size dst b a hb ha
  refine ⟨d1, ?_, c2, ?_⟩
  · unfold copy_row memcpy
    rw [c1]
    simp only [bind, Except.bind, pure, Except.pure]
    congr 3
  · intro i
    rw [c3 i]
    split
    · congr 1; omega
    · rfl

theorem yuv422_pair_spec (data dst : List Byte) (a b : Nat)
    (ha : a + 6 ≤ dst.length) (hb : b + 4 ≤ data.length) :
    ∃ dst', yuv422_pair data dst (a : Int) (b : Int)
        = .ok (dst', ((a + 6 : Nat) : Int)) ∧ dst'.length = dst.length ∧
      ∀ i, dst'[i]? = if a ≤ i ∧ i < a + 6 then data[b + yuv422_src (i - a)]?
        else dst[i]? := by
  refine ⟨(((((dst.set a data[b]).set (a + 1) data[b + 1]).set (a + 2) data[b + 3]).set
    (a + 3) data[b + 2]).set (a + 4) data[b + 1]).set (a + 5) data[b + 3], ?_, ?_, ?_⟩
  · unfold yuv422_pair
    rw [assign_eq (a := a) (b := b) rfl rfl (by omega) (by omega)]
    simp only [bind, Except.bind]
    rw [assign_eq (a := a + 1) (b := b + 1) (by omega) (by omega)
      (by simp only [List.length_set]; omega) (by omega)]
    simp only
    rw [assign_eq (a := a + 2) (b := b + 3) (by omega) (by omega)
      (by simp only [List.length_set]; omega) (by omega)]
    simp only
    rw [assign_eq (a := a + 3) (b := b + 2) (by omega) (by omega)
      (by simp only [List.length_set]; omega) (by omega)]
    simp only
    rw [assign_eq (a := a + 4) (b := b + 1) (by omega) (by omega)
      (by simp only [List.length_set]; omega) (by omega)]
    simp only
    rw [assign_eq (a := a + 5) (b := b + 3) (by omega) (by omega)
      (by simp only [List.length_set]; omega) (by omega)]
    rfl
  · simp only [List.length_set]
  · intro i
    simp only [List.getElem?_set, List.length_set]
    rcases (by omega : i < a ∨ i = a ∨ i = a + 1 ∨ i = a + 2 ∨ i = a + 3 ∨ i = a + 4 ∨
      i = a + 5 ∨ a + 6 ≤ i) with h | h | h | h | h | h | h | h
    · rw [if_neg (by omega), if_neg (by omega), if_neg (by omega), if_neg (by omega),
        if_neg (by omega), if_neg (by omega), if_neg (by omega)]
    · subst h
      rw [if_neg (by omega), if_neg (by omega), if_neg (by omega), if_neg (by omega),
        if_neg (by omega), if_pos rfl, if_pos (by omega), if_pos (by omega),
        Nat.sub_self, show yuv422_src 0 = 0 from rfl]
      exact (List.getElem?_eq_getElem (by omega)).symm
    · subst h
      rw [if_neg (by omega), if_neg (by omega), if_neg (by omega), if_neg (by omega),
        if_pos rfl, if_pos (by omega), if_pos (by omega),
        show a + 1 - a = 1 by omega, show yuv422_src 1 = 1 from rfl,
        List.getElem?_eq_getElem (by omega)]
    · subst h
      rw [if_neg (by omega), if_neg (by omega), if_neg (by omega),
        if_pos rfl, if_pos (by omega), if_pos (by omega),
        show a + 2 - a = 2 by omega, show yuv422_src 2 = 3 from rfl,
        List.getElem?_eq_getElem (by omega)]
    · subst h
      rw [if_neg (by omega), if_neg (by omega),
        if_pos rfl, if_pos (by omega), if_pos (by omega),
        show a + 3 - a = 3 by omega, show yuv422_src 3 = 2 from rfl,
        List.getElem?_eq_getElem (by omega)]
    · subst h
      rw [if_neg (by omega),
        if_pos rfl, if_pos (by omega), if_pos (by omega),
        show a + 4 - a = 4 by omega, show yuv422_src 4 = 1 from rfl,
        List.getElem?_eq_getElem (by omega)]
    · subst h
      rw [if_pos rfl, if_pos (by omega), if_pos (by omega),
        show a + 5 - a = 5 by omega, show yuv422_src 5 = 3 from rfl,
        List.getElem?_eq_getElem (by omega)]
    · rw [if_neg (by omega), if_neg (by omega), if_neg (by omega), if_neg (by omega),
        if_neg (by omega), if_neg (by omega), if_neg (by omega)]

theorem rgb565_pixel_spec (data dst : List Byte) (a b : Nat)
    (ha : a + 3 ≤ dst.length) (hb : b + 2 ≤ data.length) :
    ∃ dst', rgb565_pixel data dst (a : Int) (b : Int)
        = .ok (dst', ((a + 3 : Nat) : Int)) ∧ dst'.length = dst.length ∧
      ∀ i, dst'[i]? = if a ≤ i ∧ i < a + 3 then rgb565_at data b (i - a) else dst[i]? := by
  have h0 : data[b]? = some data[b] := List.getElem?_eq_getElem (by omega)
  have h1 : data[b + 1]? = some data[b + 1] := List.getElem?_eq_getElem (by omega)
  refine ⟨((dst.set a (to_u8 (data[b + 1].val &&& 0xf8))).set (a + 1)
    (to_u8 (((data[b + 1].val <<< 5) &&& 0xe0) ||| ((data[b].val >>> 3) &&& 0x1c)))).set
    (a + 2) (to_u8 ((data[b].val <<< 3) &&& 0xf8)), ?_, ?_, ?_⟩
  · unfold rgb565_pixel
    rw [peek_eq (n := b + 1) (by omega) (by omega), peek_eq (n := b) rfl (by omega)]
    simp only [bind, Except.bind]
    rw [poke_eq (n := a) rfl (by omega)]
    simp only
    rw [poke_eq (n := a + 1) (by omega) (by simp only [List.length_set]; omega)]
    simp only
    rw [poke_eq (n := a + 2) (by omega) (by simp only [List.length_set]; omega)]
    rfl
  · simp only [List.length_set]
  · intro i
    simp only [List.getElem?_set, List.length_set, rgb565_at, h0, h1, Option.some_bind]
    rcases (by omega : i < a ∨ i = a ∨ i = a + 1 ∨ i = a + 2 ∨ a + 3 ≤ i)
      with h | h | h | h | h
    · rw [if_neg (by omega), if_neg (by omega), if_neg (by omega), if_neg (by omega)]
    · subst h
      rw [if_neg (by omega), if_neg (by omega), if_pos rfl, if_pos (by omega),
        if_pos (by omega), Nat.sub_self]
      rfl
    · subst h
      rw [if_neg (by omega), if_pos rfl, if_pos (by omega), if_pos (by omega),
        show a + 1 - a = 1 by omega]
      rfl
    · subst h
      rw [if_pos rfl, if_pos (by omega), if_pos (by omega), show a + 2 - a = 2 by omega]
      rfl
    · rw [if_neg (by omega), if_neg (by omega), if_neg (by omega), if_neg (by omega)]

theorem colormap_at_eq {map : List (List Byte)} {k : Nat} {idx v : Byte}
    (h : plane_at map k idx = some v) : colormap_at map k idx = .ok v := by
  unfold plane_at at h
  unfold colormap_at
  cases hm : map[k]? with
  | none => rw [hm] at h; cases h
  | some plane =>
    rw [hm] at h
    simp only [Option.some_bind] at h
    rcases Nat.lt_or_ge idx.val plane.length with hlt | hge
    · rw [List.getElem?_eq_getElem hlt] at h
      simp only
      rw [peek_eq (n := idx.val) rfl hlt, Option.some.inj h]
    · rw [List.getElem?_eq_none hge] at h; cases h

theorem expand_pixel_spec (map : List (List Byte)) (src : List Byte) (b : Nat) (idx : Byte)
    (hidx : src[b]? = some idx) :
    ∀ (c k : Nat) (dst : List Byte) (a : Nat), a + c ≤ dst.length →
      (∀ t, t < c → ∃ v, plane_at map (k + t) idx = some v) →
      ∃ dst', expand_pixel map src c k dst (a : Int) (b : Int)
          = .ok (dst', ((a + c : Nat) : Int)) ∧ dst'.length = dst.length ∧
        ∀ i, dst'[i]? = if a ≤ i ∧ i < a + c then expand_at map src k b (i - a)
          else dst[i]? := by
  have hb : b < src.length := by
    rcases Nat.lt_or_ge b src.length with h | h
    · exact h
    · rw [List.getElem?_eq_none h] at hidx; cases hidx
  have hsb : src[b] = idx := by
    rw [List.getElem?_eq_getElem hb] at hidx
    exact Option.some.inj hidx
  intro c
  induction c with
  | zero =>
    intro k dst a _ _
    refine ⟨dst, rfl, rfl, ?_⟩
    intro i
    rw [if_neg (by omega)]
  | succ c ih =>
    intro k dst a ha hv
    obtain ⟨v, hv0'⟩ := hv 0 (by omega)
    have hv0 : plane_at map k idx = some v := hv0'
    obtain ⟨d2, r1, r2, r3⟩ := ih (k + 1) (dst.set a v) (a + 1)
      (by simp only [List.length_set]; omega) (by
        intro t ht
        have := hv (t + 1) (by omega)
        rw [show k + 1 + t = k + (t + 1) by omega]
        exact this)
    refine ⟨d2, ?_, by rw [r2, List.length_set], ?_⟩
    · rw [expand_pixel, peek_eq (n := b) rfl hb]
      simp only [bind, Except.bind]
      rw [hsb, colormap_at_eq hv0]
      simp only
      rw [poke_eq (n := a) rfl (by omega)]
      simp only
      rw [show (a : Int) + 1 = ((a + 1 : Nat) : Int) by omega, r1]
      congr 3
      omega
    · intro i
      rw [r3 i]
      by_cases c1 : a + 1 ≤ i ∧ i < a + 1 + c
      · rw [if_pos c1, if_pos (by omega)]
        unfold expand_at
        rw [show k + 1 + (i - (a + 1)) = k + (i - a) by omega]
      · rw [if_neg c1, List.getElem?_set]
        by_cases c2 : a = i
        · subst c2
          rw [if_pos rfl, if_pos (by omega), if_pos (by omega), Nat.sub_self]
          unfold expand_at
          rw [hidx, Option.some_bind]
          exact hv0'.symm
        · rw [if_neg c2, if_neg (by omega)]

/-- A row loop over a body that writes `L` bytes per row, started at the beginning of
the destination: byte `j` of output row `i` is `val (pos + i * S) j`. -/
theorem for_rows_rows (body : List Byte → Int → Int → Except Fault (List Byte × Int))
    (L S : Nat) (val : Nat → Nat → Option Byte) (P : Nat → Prop)
    (hbody : ∀ (dst : List Byte) (a b : Nat), a + L ≤ dst.length → P b →
      ∃ dst', body dst (a : Int) (b : Int) = .ok (dst', ((a + L : Nat) : Int)) ∧
        dst'.length = dst.length ∧
        ∀ i, dst'[i]? = if a ≤ i ∧ i < a + L then val b (i - a) else dst[i]?)
    (dst : List Byte) (pos n : Nat) (hdst : n * L ≤ dst.length)
    (hP : ∀ r, r < n → P (pos + r * S)) :
    ∃ out, (for_rows body (S : Int) n dst 0 (pos : Int)).map Prod.fst = .ok out ∧
      out.length = dst.length ∧
      (∀ i j, i < n → j < L → out[i * L + j]? = val (pos + i * S) j) ∧
      (∀ m, n * L ≤ m → out[m]? = dst[m]?) := by
  obtain ⟨out, r1, r2, r3⟩ := for_rows_spec body L S val P hbody n dst 0 pos (by omega) hP
  refine ⟨out, ?_, r2, ?_, ?_⟩
  · rw [show (0 : Int) = ((0 : Nat) : Int) from rfl, r1]
    rfl
  · intro i j hi hj
    have h1 : i * L + j < n * L := mul_idx_lt hi hj
    rw [r3 (i * L + j), if_pos (by omega), Nat.sub_zero, (div_mod_idx hj).1,
      (div_mod_idx hj).2]
  · intro m hm
    rw [r3 m, if_neg (by omega)]

theorem copy_rows_spec (data rows : List Byte) (size st pos nrow : Nat)
    (hrows : nrow * size ≤ rows.length)
    (hdata : ∀ i, i < nrow → pos + i * st + size ≤ data.length) :
    ∃ out, (for_rows (copy_row data size) (st : Int) nrow rows 0 (pos : Int)).map Prod.fst
        = .ok out ∧ out.length = rows.length ∧
      (∀ i j, i < nrow → j < size → out[i * size + j]? = data[pos + i * st + j]?) ∧
      (∀ m, nrow * size ≤ m → out[m]? = rows[m]?) :=
  for_rows_rows (copy_row data size) size st (fun b t => data[b + t]?)
    (fun b => b + size ≤ data.length)
    (fun dst a b ha hb => copy_row_spec data size dst a b ha hb) rows pos nrow hrows hdata

theorem push_rows_yuv422_gen (dst data : List Byte) (wd st pos nrow : Nat)
    (hdst : nrow * ((wd + 1) / 2 * 6) ≤ dst.length)
    (hdata : ∀ i, i < nrow → pos + i * st + (wd + 1) / 2 * 4 ≤ data.length) :
    ∃ out, push_rows_yuv422 dst wd (st : Int) data (pos : Int) nrow = .ok out ∧
      out.length = dst.length ∧
      (∀ i k t, i < nrow → k < (wd + 1) / 2 → t < 6 →
        out[i * ((wd + 1) / 2 * 6) + (k * 6 + t)]?
          = data[pos + i * st + k * 4 + yuv422_src t]?) ∧
      (∀ m, nrow * ((wd + 1) / 2 * 6) ≤ m → out[m]? = dst[m]?) := by
  obtain ⟨out, r1, r2, r3, r4⟩ := for_rows_rows
    (for_rows (yuv422_pair data) 4 ((wd + 1) / 2)) ((wd + 1) / 2 * 6) st
    (fun b t => data[b + t / 6 * 4 + yuv422_src (t % 6)]?)
    (fun b => ∀ r, r < (wd + 1) / 2 → b + r * 4 + 4 ≤ data.length)
    (fun d a b ha hb => for_rows_spec (yuv422_pair data) 6 4
      (fun b t => data[b + yuv422_src t]?) (fun b => b + 4 ≤ data.length)
      (fun d a b ha hb => yuv422_pair_spec data d a b ha hb) ((wd + 1) / 2) d a b ha hb)
    dst pos nrow hdst (by
      intro r hr q hq
      have := hdata r hr
      omega)
  refine ⟨out, r1, r2, ?_, r4⟩
  intro i k t hi hk ht
  rw [r3 i (k * 6 + t) hi (mul_idx_lt hk ht), (div_mod_idx ht).1, (div_mod_idx ht).2]

theorem push_rows_rgb565_gen (dst data : List Byte) (wd st pos nrow : Nat)
    (hdst : nrow * (wd * 3) ≤ dst.length)
    (hdata : ∀ i, i < nrow → pos + i * st + wd * 2 ≤ data.length) :
    ∃ out, push_rows_rgb565 dst wd (st : Int) data (pos : Int) nrow = .ok out ∧
      out.length = dst.length ∧
      (∀ i x t, i < nrow → x < wd → t < 3 →
        out[i * (wd * 3) + (x * 3 + t)]? = rgb565_at data (pos + i * st + x * 2) t) ∧
      (∀ m, nrow * (wd * 3) ≤ m → out[m]? = dst[m]?) := by
  obtain ⟨out, r1, r2, r3, r4⟩ := for_rows_rows
    (for_rows (rgb565_pixel data) 2 wd) (wd * 3) st
    (fun b t => rgb565_at data (b + t / 3 * 2) (t % 3))
    (fun b => ∀ r, r < wd → b + r * 2 + 2 ≤ data.length)
    (fun d a b ha hb => for_rows_spec (rgb565_pixel data) 3 2
      (fun b t => rgb565_at data b t) (fun b => b + 2 ≤ data.length)
      (fun d a b ha hb => rgb565_pixel_spec data d a b ha hb) wd d a b ha hb)
    dst pos nrow hdst (by
      intro r hr q hq
      have := hdata r hr
      omega)
  refine ⟨out, r1, r2, ?_, r4⟩
  intro i x t hi hx ht
  rw [r3 i (x * 3 + t) hi (mul_idx_lt hx ht), (div_mod_idx ht).1, (div_mod_idx ht).2]

/-- C24: for an even width `wd`, `nrow` input rows of `wd * 2` bytes lying inside the
input at distance `st`, and a row buffer of at least `nrow * wd * 3` bytes,
`push_rows_yuv422` returns, and for every row `i` and macropixel `k < wd / 2` with source
bytes `[Y0, Cb, Y1, Cr]` at offset `m = pos + i * st + 4 * k` the six output bytes at
offset `i * wd * 3 + 6 * k` are `[Y0, Cb, Cr, Y1, Cb, Cr]`. -/
theorem push_rows_yuv422_spec (dst data : List Byte) (wd st pos nrow : Nat)
    (heven : wd % 2 = 0)
    (hdst : nrow * (wd * 3) ≤ dst.length)
    (hdata : ∀ i, i < nrow → pos + i * st + wd * 2 ≤ data.length) :
    ∃ out, push_rows_yuv422 dst wd (st : Int) data (pos : Int) nrow = .ok out ∧
      out.length = dst.length ∧
      ∀ i k, i < nrow → k < wd / 2 →
        out[i * (wd * 3) + 6 * k]? = data[pos + i * st + 4 * k]? ∧
        out[i * (wd * 3) + 6 * k + 1]? = data[pos + i * st + 4 * k + 1]? ∧
        out[i * (wd * 3) + 6 * k + 2]? = data[pos + i * st + 4 * k + 3]? ∧
        out[i * (wd * 3) + 6 * k + 3]? = data[pos + i * st + 4 * k + 2]? ∧
        out[i * (wd * 3) + 6 * k + 4]? = data[pos + i * st + 4 * k + 1]? ∧
        out[i * (wd * 3) + 6 * k + 5]? = data[pos + i * st + 4 * k + 3]? := by
  have e1 : (wd + 1) / 2 * 6 = wd * 3 := by omega
  have e2 : (wd + 1) / 2 * 4 = wd * 2 := by omega
  have e3 : (wd + 1) / 2 = wd / 2 := by omega
  obtain ⟨out, r1, r2, r3, _⟩ := push_rows_yuv422_gen dst data wd st pos nrow
    (by rw [e1]; exact hdst) (by rw [e2]; exact hdata)
  rw [e1, e3] at r3
  refine ⟨out, r1, r2, ?_⟩
  intro i k hi hk
  have h0 := r3 i k 0 hi hk (by omega)
  have h1 := r3 i k 1 hi hk (by omega)
  have h2 := r3 i k 2 hi hk (by omega)
  have h3 := r3 i k 3 hi hk (by omega)
  have h4 := r3 i k 4 hi hk (by omega)
  have h5 := r3 i k 5 hi hk (by omega)
  have c : ∀ t, i * (wd * 3) + (k * 6 + t) = i * (wd * 3) + 6 * k + t := by
    intro t; omega
  have d : ∀ u, pos + i * st + k * 4 + u = pos + i * st + 4 * k + u := by
    intro u; omega
  rw [c, d] at h0 h1 h2 h3 h4 h5
  exact ⟨h0, h1, h2, h3, h4, h5⟩

/-- Witness for C24: one row of four pixels (two macropixels) at offset 1 of the input. -/
theorem push_rows_yuv422_spec_witness :
    push_rows_yuv422 (List.replicate 12 0) 4 8 [0, 1, 2, 3, 4, 5, 6, 7, 8] 1 1
      = .ok [1, 2, 4, 3, 2, 4, 5, 6, 8, 7, 6, 8] ∧
    ∃ out, push_rows_yuv422 (List.replicate 12 0) 4 ((8 : Nat) : Int)
        [0, 1, 2, 3, 4, 5, 6, 7, 8] ((1 : Nat) : Int) 1 = .ok out ∧
      out.length = (List.replicate 12 (0 : Byte)).length ∧
      ∀ i k, i < 1 → k < 4 / 2 →
        out[i * (4 * 3) + 6 * k]? = [0, 1, 2, 3, 4, 5, 6, 7, (8 : Byte)][1 + i * 8 + 4 * k]? ∧
        out[i * (4 * 3) + 6 * k + 1]?
          = [0, 1, 2, 3, 4, 5, 6, 7, (8 : Byte)][1 + i * 8 + 4 * k + 1]? ∧
        out[i * (4 * 3) + 6 * k + 2]?
          = [0, 1, 2, 3, 4, 5, 6, 7, (8 : Byte)][1 + i * 8 + 4 * k + 3]? ∧
        out[i * (4 * 3) + 6 * k + 3]?
          = [0, 1, 2, 3, 4, 5, 6, 7, (8 : Byte)][1 + i * 8 + 4 * k + 2]? ∧
        out[i * (4 * 3) + 6 * k + 4]?
          = [0, 1, 2, 3, 4, 5, 6, 7, (8 : Byte)][1 + i * 8 + 4 * k + 1]? ∧
        out[i * (4 * 3) + 6 * k + 5]?
          = [0, 1, 2, 3, 4, 5, 6, 7, (8 : Byte)][1 + i * 8 + 4 * k + 3]? :=
  ⟨by decide,
   push_rows_yuv422_spec (List.replicate 12 0) [0, 1, 2, 3, 4, 5, 6, 7, 8] 4 8 1 1
     (by decide) (by decide) (by
       intro i hi
       have h : i = 0 := by omega
       subst h
       decide)⟩

/-- C26: for rows of `wd * k` bytes (`k = 3`, `4`, `1`) lying inside the input at distance
`st`, and a row buffer of at least `nrow * wd * k` bytes, `push_rows_comp3`,
`push_rows_comp4` and `push_rows_grayscale` return a buffer whose byte `i * wd * k + j`
is input byte `pos + i * st + j` for `i < nrow`, `j < wd * k`; the rows are packed
without gap and nothing else of the row buffer changes, so the bytes between the end of
an input row and the next one (the padding, when `st > wd * k`) are not copied. -/
theorem push_rows_copy_spec (rows data : List Byte) (wd st pos nrow : Nat) :
    (nrow * (wd * 3) ≤ rows.length →
      (∀ i, i < nrow → pos + i * st + wd * 3 ≤ data.length) →
      ∃ out, push_rows_comp3 rows wd (st : Int) data (pos : Int) nrow = .ok out ∧
        out.length = rows.length ∧
        (∀ i j, i < nrow → j < wd * 3 → out[i * (wd * 3) + j]? = data[pos + i * st + j]?) ∧
        (∀ m, nrow * (wd * 3) ≤ m → out[m]? = rows[m]?)) ∧
    (nrow * (wd * 4) ≤ rows.length →
      (∀ i, i < nrow → pos + i * st + wd * 4 ≤ data.length) →
      ∃ out, push_rows_comp4 rows wd (st : Int) data (pos : Int) nrow = .ok out ∧
        out.length = rows.length ∧
        (∀ i j, i < nrow → j < wd * 4 → out[i * (wd * 4) + j]? = data[pos + i * st + j]?) ∧
        (∀ m, nrow * (wd * 4) ≤ m → out[m]? = rows[m]?)) ∧
    (nrow * wd ≤ rows.length →
      (∀ i, i < nrow → pos + i * st + wd ≤ data.length) →
      ∃ out, push_rows_grayscale rows wd (st : Int) data (pos : Int) nrow = .ok out ∧
        out.length = rows.length ∧
        (∀ i j, i < nrow → j < wd → out[i * wd + j]? = data[pos + i * st + j]?) ∧
        (∀ m, nrow * wd ≤ m → out[m]? = rows[m]?)) :=
  ⟨fun h1 h2 => copy_rows_spec data rows (wd * 3) st pos nrow h1 h2,
   fun h1 h2 => copy_rows_spec data rows (wd * 4) st pos nrow h1 h2,
   fun h1 h2 => copy_rows_spec data rows wd st pos nrow h1 h2⟩

/-- Witness for C26: two rows of one 3-byte pixel with one byte of padding each. -/
theorem push_rows_copy_spec_witness :
    push_rows_comp3 (List.replicate 6 0) 1 4 [1, 2, 3, 9, 4, 5, 6, 9] 0 2
      = .ok [1, 2, 3, 4, 5, 6] ∧
    ∃ out, push_rows_comp3 (List.replicate 6 0) 1 ((4 : Nat) : Int)
        [1, 2, 3, 9, 4, 5, 6, 9] ((0 : Nat) : Int) 2 = .ok out ∧
      out.length = (List.replicate 6 (0 : Byte)).length ∧
      (∀ i j, i < 2 → j < 1 * 3 →
        out[i * (1 * 3) + j]? = [1, 2, 3, 9, 4, 5, 6, (9 : Byte)][0 + i * 4 + j]?) ∧
      (∀ m, 2 * (1 * 3) ≤ m → out[m]? = (List.replicate 6 (0 : Byte))[m]?) :=
  ⟨by decide,
   (push_rows_copy_spec (List.replicate 6 0) [1, 2, 3, 9, 4, 5, 6, 9] 1 4 0 2).1
     (by decide) (by
       intro i hi
       rcases (by omega : i = 0 ∨ i = 1) with h | h <;> subst h <;> decide)⟩

/-- C27 (the code at the failing inputs): `swap_cbcr` never advances `p`, so it
exchanges bytes 1 and 2 of the first pixel `size` times. On the two-pixel buffer
`[1,2,3,4,5,6]` (`size = 6`) the buffer comes back unchanged, and on the three-pixel
buffer `[1,..,9]` (`size = 9`) only the first pixel has its second and third byte
exchanged; pixels 1 and 2 keep their byte order. -/
theorem swap_cbcr_first_pixel_only :
    swap_cbcr [1, 2, 3, 4, 5, 6] 6 = .ok [1, 2, 3, 4, 5, 6] ∧
    swap_cbcr [1, 2, 3, 4, 5, 6, 7, 8, 9] 9 = .ok [1, 3, 2, 4, 5, 6, 7, 8, 9] ∧
    swap_cbcr [1, 2, 3, 4, 5, 6] 6 ≠ .ok [1, 3, 2, 4, 6, 5] := by
  decide

set_option maxRecDepth 100000 in
theorem and_f8 : ∀ s : Byte, s.val &&& 0xf8 = s.val / 8 * 8 := by decide

set_option maxRecDepth 100000 in
theorem shl5_and_e0 : ∀ s : Byte, (s.val <<< 5) &&& 0xe0 = s.val % 8 * 32 := by decide

set_option maxRecDepth 100000 in
theorem shr3_and_1c : ∀ s : Byte, (s.val >>> 3) &&& 0x1c = s.val / 32 * 4 := by decide

set_option maxRecDepth 100000 in
theorem shl3_and_f8 : ∀ s : Byte, (s.val <<< 3) &&& 0xf8 = s.val % 32 * 8 := by decide

theorem lor_green : ∀ x y : Fin 8, (x.val * 32) ||| (y.val * 4) = x.val * 32 + y.val * 4 := by
  decide

theorem channel_r (v : Nat) : ((v >>> 11) &&& 0x1f) <<< 3 = v / 2048 % 32 * 8 := by
  rw [Nat.shiftLeft_eq, Nat.shiftRight_eq_div_pow,
    show (0x1f : Nat) = 2 ^ 5 - 1 from rfl, Nat.and_pow_two_sub_one_eq_mod]

theorem channel_g (v : Nat) : ((v >>> 5) &&& 0x3f) <<< 2 = v / 32 % 64 * 4 := by
  rw [Nat.shiftLeft_eq, Nat.shiftRight_eq_div_pow,
    show (0x3f : Nat) = 2 ^ 6 - 1 from rfl, Nat.and_pow_two_sub_one_eq_mod]

theorem channel_b (v : Nat) : (v &&& 0x1f) <<< 3 = v % 32 * 8 := by
  rw [Nat.shiftLeft_eq, show (0x1f : Nat) = 2 ^ 5 - 1 from rfl,
    Nat.and_pow_two_sub_one_eq_mod]

theorem rgb565_out_eq (s0 s1 : Byte) :
    rgb565_out s0 s1
      = [to_u8 ((((s0.val + 256 * s1.val) >>> 11) &&& 0x1f) <<< 3),
         to_u8 ((((s0.val + 256 * s1.val) >>> 5) &&& 0x3f) <<< 2),
         to_u8 (((s0.val + 256 * s1.val) &&& 0x1f) <<< 3)] := by
  have h0 := s0.isLt
  have h1 := s1.isLt
  have hg := lor_green ⟨s1.val % 8, Nat.mod_lt _ (by decide)⟩
    ⟨s0.val / 32, by omega⟩
  simp only at hg
  unfold rgb565_out
  have e0 : s1.val / 8 * 8 = (s0.val + 256 * s1.val) / 2048 % 32 * 8 := by omega
  have e1 : s1.val % 8 * 32 + s0.val / 32 * 4 = (s0.val + 256 * s1.val) / 32 % 64 * 4 := by
    omega
  have e2 : s0.val % 32 * 8 = (s0.val + 256 * s1.val) % 32 * 8 := by omega
  rw [and_f8, shl5_and_e0, shr3_and_1c, shl3_and_f8, hg, channel_r, channel_g, channel_b,
    e0, e1, e2]

/-- C25: for rows of `wd` 2-byte pixels lying inside the input and a row buffer of at
least `nrow * wd * 3` bytes, `push_rows_rgb565` returns, and for the pixel `x` of row `i`
with source bytes `b0`, `b1` and `v = b0 + 256 * b1` the three output bytes are
`((v >> 11) & 0x1F) << 3`, `((v >> 5) & 0x3F) << 2` and `(v & 0x1F) << 3`. Each of
these values fits a byte, has its low 3, 2 and 3 bits zero, and shifted right by 3, 2
and 3 gives back the 5-, 6- and 5-bit channel. -/
theorem push_rows_rgb565_spec (dst data : List Byte) (wd st pos nrow : Nat)
    (hdst : nrow * (wd * 3) ≤ dst.length)
    (hdata : ∀ i, i < nrow → pos + i * st + wd * 2 ≤ data.length) :
    (∃ out, push_rows_rgb565 dst wd (st : Int) data (pos : Int) nrow = .ok out ∧
      out.length = dst.length ∧
      ∀ i x (b0 b1 : Byte) (v : Nat), i < nrow → x < wd →
        data[pos + i * st + 2 * x]? = some b0 →
        data[pos + i * st + 2 * x + 1]? = some b1 → v = b0.val + 256 * b1.val →
        out[i * (wd * 3) + 3 * x]? = some (to_u8 (((v >>> 11) &&& 0x1f) <<< 3)) ∧
        out[i * (wd * 3) + 3 * x + 1]? = some (to_u8 (((v >>> 5) &&& 0x3f) <<< 2)) ∧
        out[i * (wd * 3) + 3 * x + 2]? = some (to_u8 ((v &&& 0x1f) <<< 3))) ∧
    (∀ v : Nat,
      ((to_u8 (((v >>> 11) &&& 0x1f) <<< 3)).val = ((v >>> 11) &&& 0x1f) <<< 3 ∧
        (((v >>> 11) &&& 0x1f) <<< 3) % 8 = 0 ∧
        (((v >>> 11) &&& 0x1f) <<< 3) >>> 3 = (v >>> 11) &&& 0x1f) ∧
      ((to_u8 (((v >>> 5) &&& 0x3f) <<< 2)).val = ((v >>> 5) &&& 0x3f) <<< 2 ∧
        (((v >>> 5) &&& 0x3f) <<< 2) % 4 = 0 ∧
        (((v >>> 5) &&& 0x3f) <<< 2) >>> 2 = (v >>> 5) &&& 0x3f) ∧
      ((to_u8 ((v &&& 0x1f) <<< 3)).val = (v &&& 0x1f) <<< 3 ∧
        ((v &&& 0x1f) <<< 3) % 8 = 0 ∧
        ((v &&& 0x1f) <<< 3) >>> 3 = v &&& 0x1f)) := by
  constructor
  · obtain ⟨out, r1, r2, r3, _⟩ := push_rows_rgb565_gen dst data wd st pos nrow hdst hdata
    refine ⟨out, r1, r2, ?_⟩
    intro i x b0 b1 v hi hx hb0 hb1 hv
    have h0 := r3 i x 0 hi hx (by omega)
    have h1 := r3 i x 1 hi hx (by omega)
    have h2 := r3 i x 2 hi hx (by omega)
    have c : ∀ t, i * (wd * 3) + (x * 3 + t) = i * (wd * 3) + 3 * x + t := by
      intro t; omega
    have d : pos + i * st + x * 2 = pos + i * st + 2 * x := by omega
    rw [c, d] at h0 h1 h2
    unfold rgb565_at at h0 h1 h2
    rw [hb0, hb1, Option.some_bind, Option.some_bind, rgb565_out_eq, ← hv] at h0 h1 h2
    exact ⟨h0, h1, h2⟩
  · intro v
    have er := channel_r v
    have eg := channel_g v
    have eb := channel_b v
    have c1 : ((v >>> 11) &&& 0x1f) = v / 2048 % 32 := by
      rw [Nat.shiftRight_eq_div_pow, show (0x1f : Nat) = 2 ^ 5 - 1 from rfl,
        Nat.and_pow_two_sub_one_eq_mod]
    have c2 : ((v >>> 5) &&& 0x3f) = v / 32 % 64 := by
      rw [Nat.shiftRight_eq_div_pow, show (0x3f : Nat) = 2 ^ 6 - 1 from rfl,
        Nat.and_pow_two_sub_one_eq_mod]
    have c3 : (v &&& 0x1f) = v % 32 := by
      rw [show (0x1f : Nat) = 2 ^ 5 - 1 from rfl, Nat.and_pow_two_sub_one_eq_mod]
    have u : ∀ n, n < 256 → (to_u8 n).val = n := by
      intro n hn
      show n % 256 = n
      exact Nat.mod_eq_of_lt hn
    refine ⟨⟨?_, ?_, ?_⟩, ⟨?_, ?_, ?_⟩, ⟨?_, ?_, ?_⟩⟩
    · rw [er]; exact u _ (by omega)
    · rw [er]; omega
    · rw [er, c1, Nat.shiftRight_eq_div_pow]; omega
    · rw [eg]; exact u _ (by omega)
    · rw [eg]; omega
    · rw [eg, c2, Nat.shiftRight_eq_div_pow]; omega
    · rw [eb]; exact u _ (by omega)
    · rw [eb]; omega
    · rw [eb, c3, Nat.shiftRight_eq_div_pow]; omega

/-- Witness for C25: the pixel `0x1234` (bytes `0x34`, `0x12`) gives `0x10, 0x44, 0xA0`. -/
theorem push_rows_rgb565_spec_witness :
    push_rows_rgb565 (List.replicate 3 0) 1 2 [0x34, 0x12] 0 1 = .ok [0x10, 0x44, 0xa0] ∧
    ∃ out, push_rows_rgb565 (List.replicate 3 0) 1 ((2 : Nat) : Int) [0x34, 0x12]
        ((0 : Nat) : Int) 1 = .ok out ∧
      out.length = (List.replicate 3 (0 : Byte)).length ∧
      ∀ i x (b0 b1 : Byte) (v : Nat), i < 1 → x < 1 →
        [0x34, (0x12 : Byte)][0 + i * 2 + 2 * x]? = some b0 →
        [0x34, (0x12 : Byte)][0 + i * 2 + 2 * x + 1]? = some b1 →
        v = b0.val + 256 * b1.val →
        out[i * (1 * 3) + 3 * x]? = some (to_u8 (((v >>> 11) &&& 0x1f) <<< 3)) ∧
        out[i * (1 * 3) + 3 * x + 1]? = some (to_u8 (((v >>> 5) &&& 0x3f) <<< 2)) ∧
        out[i * (1 * 3) + 3 * x + 2]? = some (to_u8 ((v &&& 0x1f) <<< 3)) :=
  ⟨by decide,
   (push_rows_rgb565_spec (List.replicate 3 0) [0x34, 0x12] 1 2 0 1 (by decide) (by
      intro i hi
      have h : i = 0 := by omega
      subst h
      decide)).1⟩

theorem expand_rows_spec (map : List (List Byte)) (src : List Byte) (n nc : Nat)
    (hsrc : n ≤ src.length)
    (hmap : ∀ k, k < nc → ∀ idx, idx ∈ src → (plane_at map k idx).isSome) :
    ∃ out, (for_rows (expand_pixel map src nc 0) 1 n (List.replicate (n * nc) 0) 0 0).map
        Prod.fst = .ok out ∧ out.length = n * nc ∧
      ∀ i k, i < n → k < nc → out[i * nc + k]? = (src[i]?).bind (plane_at map k) := by
  obtain ⟨out, r1, r2, r3, _⟩ := for_rows_rows (expand_pixel map src nc 0) nc 1
    (fun b t => expand_at map src 0 b t) (fun b => b < src.length)
    (fun d a b ha hb => expand_pixel_spec map src b src[b] (List.getElem?_eq_getElem hb)
      nc 0 d a ha (fun t ht => by
        rw [Nat.zero_add]
        exact Option.isSome_iff_exists.mp (hmap t ht src[b] (List.getElem_mem hb))))
    (List.replicate (n * nc) 0) 0 n (by simp) (by
      intro r hr
      simp only [Nat.zero_add, Nat.mul_one]
      omega)
  refine ⟨out, r1, by rw [r2, List.length_replicate], ?_⟩
  intro i k hi hk
  rw [r3 i k hi hk]
  simp only [expand_at, Nat.zero_add, Nat.mul_one]

/-- C29: for `nc` in {1, 2, 3} planes, an index buffer `src` of `wd * ht` bytes and a
colormap `map` whose planes `0 .. nc-1` hold an entry for every index that occurs in
`src`, `expand_colormap` returns a buffer of exactly `wd * ht * nc` bytes whose byte
`i * nc + k` is plane `k` indexed by `src[i]`; the index buffer `[0,1]` with the planes
`[10,20]`, `[30,40]`, `[50,60]` expands to `[10,30,50,20,40,60]`. -/
theorem expand_colormap_spec (wd ht nc : Nat) (map : List (List Byte)) (src : List Byte)
    (hnc : nc = 1 ∨ nc = 2 ∨ nc = 3) (hsrc : src.length = wd * ht)
    (hmap : ∀ k, k < nc → ∀ idx, idx ∈ src → (plane_at map k idx).isSome) :
    (∃ out, expand_colormap wd ht nc map src = .ok out ∧ out.length = wd * ht * nc ∧
      ∀ i k, i < wd * ht → k < nc → out[i * nc + k]? = (src[i]?).bind (plane_at map k)) ∧
    expand_colormap 2 1 3 [[10, 20], [30, 40], [50, 60]] [0, 1]
      = .ok [10, 30, 50, 20, 40, 60] := by
  refine ⟨?_, by decide⟩
  have key := expand_rows_spec map src (wd * ht) nc (by omega) hmap
  unfold expand_colormap
  rcases hnc with h | h | h <;> subst h <;> simpa using key

/-- Witness for C29: a palette of two planes and three indexed pixels. -/
theorem expand_colormap_spec_witness :
    ∃ out, expand_colormap 3 1 2 [[10, 20], [30, 40]] [1, 0, 1] = .ok out ∧
      out.length = 3 * 1 * 2 ∧
      ∀ i k, i < 3 * 1 → k < 2 →
        out[i * 2 + k]? = (([1, 0, 1] : List Byte)[i]?).bind (plane_at [[10, 20], [30, 40]] k) :=
  (expand_colormap_spec 3 1 2 [[10, 20], [30, 40]] [1, 0, 1] (Or.inr (Or.inl rfl)) rfl
    (by
      intro k hk idx hidx
      simp only [List.mem_cons, List.mem_singleton, List.not_mem_nil, or_false] at hidx
      rcases (by omega : k = 0 ∨ k = 1) with h | h <;> subst h <;>
        rcases hidx with h | h | h <;> subst h <;> rfl)).1

/-! ## Encoder options -/

theorem eval_encoder_stride_opt_fixnum (ptr : jpeg_encode_t) (v : Int)
    (hlo : -(2 ^ 31) ≤ v) (hhi : v < 2 ^ 31) :
    eval_encoder_stride_opt ptr (.fixnum v)
      = if v < ptr.width * ptr.components then
          .ok (some (create_range_error ":stride too little"), ptr)
        else .ok (none, { ptr with stride := v }) := by
  unfold eval_encoder_stride_opt FIX2INT
  simp only [bind, Except.bind, pure, Except.pure]
  rw [if_neg (by omega), if_neg (by omega)]
  simp only
  split <;> rfl

/-- C28 (the code at the failing inputs): with the default layout (4:2:2) or RGB565 the
pixel-format evaluator stores `components = 3`, and for width 2 the stride evaluator
returns the range error ":stride too little" for the tightly packed stride 4
(2 pixels of 2 bytes), leaving the stored stride unchanged, while 6 is the least
stride it accepts; `push_rows_yuv422` itself converts a 2 x 2 input with rows at
distance 4. -/
theorem stride_tight_two_byte_rejected :
    (eval_encoder_pixel_format_opt (encoder_ctx 2 2) .undef).1 = none ∧
    (eval_encoder_pixel_format_opt (encoder_ctx 2 2) .undef).2.format = FMT_YUV422 ∧
    (eval_encoder_pixel_format_opt (encoder_ctx 2 2) .undef).2.components = 3 ∧
    eval_encoder_stride_opt (eval_encoder_pixel_format_opt (encoder_ctx 2 2) .undef).2
        (.fixnum 4)
      = .ok (some (create_range_error ":stride too little"),
          (eval_encoder_pixel_format_opt (encoder_ctx 2 2) .undef).2) ∧
    eval_encoder_stride_opt (eval_encoder_pixel_format_opt (encoder_ctx 2 2) .undef).2
        (.fixnum 5)
      = .ok (some (create_range_error ":stride too little"),
          (eval_encoder_pixel_format_opt (encoder_ctx 2 2) .undef).2) ∧
    eval_encoder_stride_opt (eval_encoder_pixel_format_opt (encoder_ctx 2 2) .undef).2
        (.fixnum 6)
      = .ok (none,
          { (eval_encoder_pixel_format_opt (encoder_ctx 2 2) .undef).2 with stride := 6 }) ∧
    (eval_encoder_pixel_format_opt (encoder_ctx 2 2) (.symbol "RGB565")).2.components = 3 ∧
    eval_encoder_stride_opt
        (eval_encoder_pixel_format_opt (encoder_ctx 2 2) (.symbol "RGB565")).2 (.fixnum 4)
      = .ok (some (create_range_error ":stride too little"),
          (eval_encoder_pixel_format_opt (encoder_ctx 2 2) (.symbol "RGB565")).2) ∧
    push_rows_yuv422 (List.replicate 12 0) 2 4 [1, 2, 3, 4, 5, 6, 7, 8] 0 2
      = .ok [1, 2, 4, 3, 2, 4, 5, 6, 8, 7, 6, 8] := by
  decide

/-- C30: for a Fixnum `q`, `eval_encoder_quality_opt` returns `Qnil` exactly when
`0 ≤ q ≤ 100`, and then the stored quality is `q`; for `q > 100` and for `q < 0` the
outcome is a `RangeError` (the exception object is returned, or, for `q` below the
range of `int`, `FIX2INT` raises it) and nothing is stored; when the option is absent
the stored quality is 75. -/
theorem eval_encoder_quality_opt_spec (ptr : jpeg_encode_t) (q : Int) :
    ((∃ p, eval_encoder_quality_opt ptr (.fixnum q) = .ok (none, p)) ↔ 0 ≤ q ∧ q ≤ 100) ∧
    (0 ≤ q → q ≤ 100 →
      eval_encoder_quality_opt ptr (.fixnum q) = .ok (none, { ptr with quality := q })) ∧
    (100 < q →
      eval_encoder_quality_opt ptr (.fixnum q)
        = .ok (some (create_range_error ":quality greater than 100"), ptr)) ∧
    (q < 0 → -(2 ^ 31) ≤ q →
      eval_encoder_quality_opt ptr (.fixnum q)
        = .ok (some (create_range_error ":quality less than 0"), ptr)) ∧
    (q < -(2 ^ 31) →
      eval_encoder_quality_opt ptr (.fixnum q)
        = .error (.raise .rb_eRangeError "integer too small to convert to int")) ∧
    eval_encoder_quality_opt ptr .undef = .ok (none, { ptr with quality := 75 }) := by
  have h1 : 0 ≤ q → q ≤ 100 →
      eval_encoder_quality_opt ptr (.fixnum q) = .ok (none, { ptr with quality := q }) := by
    intro h0 h100
    unfold eval_encoder_quality_opt FIX2INT
    simp only [bind, Except.bind, pure, Except.pure]
    rw [if_neg (by omega), if_neg (by omega), if_neg (by omega), if_neg (by omega)]
    rfl
  have h2 : 100 < q →
      eval_encoder_quality_opt ptr (.fixnum q)
        = .ok (some (create_range_error ":quality greater than 100"), ptr) := by
    intro h
    unfold eval_encoder_quality_opt
    simp only [bind, Except.bind, pure, Except.pure]
    rw [if_pos (by omega)]
    rfl
  have h3 : q < 0 → -(2 ^ 31) ≤ q →
      eval_encoder_quality_opt ptr (.fixnum q)
        = .ok (some (create_range_error ":quality less than 0"), ptr) := by
    intro h hlo
    unfold eval_encoder_quality_opt FIX2INT
    simp only [bind, Except.bind, pure, Except.pure]
    rw [if_neg (by omega), if_neg (by omega), if_neg (by omega), if_pos h]
    rfl
  have h4 : q < -(2 ^ 31) →
      eval_encoder_quality_opt ptr (.fixnum q)
        = .error (.raise .rb_eRangeError "integer too small to convert to int") := by
    intro h
    unfold eval_encoder_quality_opt FIX2INT
    simp only [bind, Except.bind, pure, Except.pure]
    rw [if_neg (by omega), if_pos h]
  refine ⟨⟨?_, fun h => ⟨_, h1 h.1 h.2⟩⟩, h1, h2, h3, h4, rfl⟩
  rintro ⟨p, hp⟩
  by_cases c1 : 100 < q
  · rw [h2 c1] at hp
    cases hp
  · by_cases c2 : q < 0
    · by_cases c3 : -(2 ^ 31) ≤ q
      · rw [h3 c2 c3] at hp
        cases hp
      · rw [h4 (by omega)] at hp
        cases hp
    · omega

/-- Witness for C30 at quality 100. -/
theorem eval_encoder_quality_opt_spec_witness :
    (0 : Int) ≤ 100 ∧ (100 : Int) ≤ 100 ∧
    eval_encoder_quality_opt (encoder_ctx 2 2) (.fixnum 100)
      = .ok (none, { encoder_ctx 2 2 with quality := 100 }) :=
  ⟨by decide, by decide,
   (eval_encoder_quality_opt_spec (encoder_ctx 2 2) 100).2.1 (by decide) (by decide)⟩

/-! ## Error kinds, table order, directory cycle -/

/-- C32 (counterexample): a bad identifier, an out-of-range first-directory offset and
an unknown type code all raise the same class, `decerr_klass`; no three distinct
classes tell them apart. -/
theorem reader_errors_same_class :
    exif_init blob_bad_ident blob_bad_ident.length
      = .error (.raise .decerr_klass "invalid exif identifier") ∧
    exif_init blob_bad_offset blob_bad_offset.length
      = .error (.raise .decerr_klass "invalid offset dentifier") ∧
    create_exif_tags_hash 1 [blob_badtype]
      = .error (.raise .decerr_klass "invalid tag data type") ∧
    ¬ (∃ k1 k2 k3 : Klass, k1 ≠ k2 ∧ k2 ≠ k3 ∧ k1 ≠ k3 ∧
        (∃ m, exif_init blob_bad_ident blob_bad_ident.length = .error (.raise k1 m)) ∧
        (∃ m, exif_init blob_bad_offset blob_bad_offset.length = .error (.raise k2 m)) ∧
        (∃ m, create_exif_tags_hash 1 [blob_badtype] = .error (.raise k3 m))) := by
  have e1 : exif_init blob_bad_ident blob_bad_ident.length
      = .error (.raise .decerr_klass "invalid exif identifier") := by decide
  have e2 : exif_init blob_bad_offset blob_bad_offset.length
      = .error (.raise .decerr_klass "invalid offset dentifier") := by decide
  have e3 : create_exif_tags_hash 1 [blob_badtype]
      = .error (.raise .decerr_klass "invalid tag data type") := rfl
  refine ⟨e1, e2, e3, ?_⟩
  rintro ⟨k1, k2, k3, h12, _, _, ⟨m1, h1⟩, ⟨m2, h2⟩, _⟩
  rw [e1] at h1
  rw [e2] at h2
  injection h1 with h1
  injection h2 with h2
  injection h1 with h1 _
  injection h2 with h2 _
  exact h12 (h1.symm.trans h2)

/-- C32 (amended): on a payload of 14 bytes or more every failure of the header check
raises `decerr_klass`: "invalid exif identifier" for a bad identifier, "invalid tiff
header" for a bad byte-order marker, "invalid tiff identifier" for a bad magic and
"invalid offset dentifier" for a first-directory offset outside `8 ≤ off < size - 6`;
an entry with an unknown type code raises `decerr_klass` too, with "invalid tag data
type". The failures differ by message, not by class. -/
theorem reader_errors_decode_error (src : List Byte) (h14 : 14 ≤ src.length)
    (hs : src.length < 2 ^ 64) :
    (∀ klass msg, exif_init src src.length = .error (.raise klass msg) →
      klass = .decerr_klass) ∧
    (bytes_at src 0 6 ≠ exif_ident →
      exif_init src src.length = .error (.raise .decerr_klass "invalid exif identifier")) ∧
    (bytes_at src 0 6 = exif_ident →
      bytes_at src 6 2 ≠ mark_MM ∧ bytes_at src 6 2 ≠ mark_II →
      exif_init src src.length = .error (.raise .decerr_klass "invalid tiff header")) ∧
    (∀ be : Bool, bytes_at src 0 6 = exif_ident →
      bytes_at src 6 2 = (if be then mark_MM else mark_II) →
      tiff_nat be (bytes_at src 8 2) ≠ 0x002a →
      exif_init src src.length = .error (.raise .decerr_klass "invalid tiff identifier")) ∧
    (∀ be : Bool, bytes_at src 0 6 = exif_ident →
      bytes_at src 6 2 = (if be then mark_MM else mark_II) →
      tiff_nat be (bytes_at src 8 2) = 0x002a →
      (tiff_nat be (bytes_at src 10 4) < 8 ∨
        src.length - 6 ≤ tiff_nat be (bytes_at src 10 4)) →
      exif_init src src.length = .error (.raise .decerr_klass "invalid offset dentifier")) ∧
    (∀ (child : exif_t → Except Fault (List (VALUE × VALUE))) (ptr : exif_t),
      ptr.cur + 4 ≤ src.length →
      entry_tag src ptr ∉ [34665, 34853, 40965] →
      entry_type src ptr ∉ [1, 2, 3, 4, 5, 7, 9, 10] →
      exif_read_entry src child ptr
        = .error (.raise .decerr_klass "invalid tag data type")) := by
  have key := exif_init_eq src h14 hs
  have hne : mark_II ≠ mark_MM := by decide
  have hbe : ∀ be : Bool, bytes_at src 6 2 = (if be then mark_MM else mark_II) →
      decide (bytes_at src 6 2 = mark_MM) = be ∧
      ¬ (bytes_at src 6 2 ≠ mark_MM ∧ bytes_at src 6 2 ≠ mark_II) := by
    intro be h
    cases be
    · simp only [Bool.false_eq_true, if_false] at h
      rw [h]
      exact ⟨by simp [hne], fun c => c.2 rfl⟩
    · simp only [if_true] at h
      rw [h]
      exact ⟨by simp, fun c => c.1 rfl⟩
  refine ⟨?_, ?_, ?_, ?_, ?_, ?_⟩
  · intro klass msg h
    rw [key] at h
    split at h
    · injection h with h; injection h with h _; exact h.symm
    · split at h
      · injection h with h; injection h with h _; exact h.symm
      · split at h
        · injection h with h; injection h with h _; exact h.symm
        · split at h
          · injection h with h; injection h with h _; exact h.symm
          · cases h
  · intro h1
    rw [key, if_pos h1]
  · intro h1 h2
    rw [key, if_neg (by simpa using h1), if_pos h2]
  · intro be h1 h2 h3
    obtain ⟨e, hn⟩ := hbe be h2
    rw [key, if_neg (by simpa using h1), if_neg hn, e, if_pos h3]
  · intro be h1 h2 h3 h4
    obtain ⟨e, hn⟩ := hbe be h2
    rw [key, if_neg (by simpa using h1), if_neg hn, e, if_neg (by simpa using h3), if_pos h4]
  · intro child ptr hin htag htype
    exact exif_read_entry_bad_type src child ptr hin htag htype

/-- Witness for the amended C32: the out-of-range offset of `blob_bad_offset`. -/
theorem reader_errors_decode_error_witness :
    14 ≤ blob_bad_offset.length ∧ blob_bad_offset.length < 2 ^ 64 ∧
    exif_init blob_bad_offset blob_bad_offset.length
      = .error (.raise .decerr_klass "invalid offset dentifier") :=
  ⟨by decide, by decide,
   (reader_errors_decode_error blob_bad_offset (by decide) (by decide)).2.2.2.2.1 true
     (by decide) (by decide) (by decide) (by decide)⟩

theorem table_ids_in_range : ∀ tbl ∈ [tag_tiff, tag_exif, tag_gps, tag_i14y],
    ∀ e ∈ tbl, 0 ≤ e.tag ∧ e.tag ≤ 0xFFFF := by
  decide

/-- C34: each of the tables `tag_tiff`, `tag_exif`, `tag_gps`, `tag_i14y` has every
entry's id greater than or equal to its predecessor's and every id in 0..0xFFFF, and
`lookup_tag_symbol` finds every id the table contains: for an entry of the table it
returns the symbol of that entry's name (nil for an entry without name). -/
theorem tag_tables_sorted (tbl : List tag_entry_t)
    (htbl : tbl ∈ [tag_tiff, tag_exif, tag_gps, tag_i14y]) :
    (∀ (i : Nat) (h : i + 1 < tbl.length), tbl[i].tag ≤ tbl[i + 1].tag) ∧
    (∀ (i j : Nat) (hj : j < tbl.length), i ≤ j → ∀ hi : i < tbl.length,
      tbl[i].tag ≤ tbl[j].tag) ∧
    (∀ e ∈ tbl, 0 ≤ e.tag ∧ e.tag ≤ 0xFFFF) ∧
    (∀ e ∈ tbl, lookup_tag_symbol tbl tbl.length e.tag = .ok (name_value e.name)) := by
  have hord := tables_ordered_mem tbl htbl
  have hrange := table_ids_in_range tbl htbl
  have hle : ∀ (i j : Nat) (hj : j < tbl.length), i ≤ j → ∀ hi : i < tbl.length,
      tbl[i].tag ≤ tbl[j].tag := by
    intro i j hj hij hi
    rcases Nat.lt_or_ge i j with h | h
    · rcases table_ordered_get hord h hi hj with c | c
      · omega
      · rw [c]
    · have e : i = j := by omega
      subst e
      exact Int.le_refl _
  refine ⟨fun i h => hle i (i + 1) h (by omega) (by omega), hle, hrange, ?_⟩
  intro e he
  exact (lookup_tag_symbol_spec tbl hord e.tag (hrange e he).1 (hrange e he).2).1 e he rfl

/-- Witness for C34 on `tag_gps`: the entry 0x0002 is found. -/
theorem tag_tables_sorted_witness :
    tag_gps ∈ [tag_tiff, tag_exif, tag_gps, tag_i14y] ∧
    ∀ e ∈ tag_gps, lookup_tag_symbol tag_gps tag_gps.length e.tag = .ok (name_value e.name) :=
  ⟨by simp, (tag_tables_sorted tag_gps (by simp)).2.2.2⟩

theorem exif_read_entry_cycle (depth : Nat) (ptr : exif_t) (hbe : ptr.be = true) (hh : ptr.head = 6)
    (hc : ptr.cur = 16)
    (ih : ∀ c : exif_t, c.be = true → c.head = 6 → c.cur = 14 → ∀ dst,
      exif_read blob_cycle depth c dst = .error .nofuel) :
    exif_read_entry blob_cycle (child_read blob_cycle depth) ptr = .error .nofuel := by
  have g1 : get_u16 blob_cycle (16 + 0) true = .ok 34665 := by decide
  have g2 : get_u16 blob_cycle (16 + 2) true = .ok 4 := by decide
  have g3 : get_u32 blob_cycle (16 + 8) true = .ok 8 := by decide
  unfold exif_read_entry exif_fetch_tag_header exif_fetch_child_ifd
  rw [hbe, hh, hc, g1, g2, g3]
  simp only [bind, Except.bind, pure, Except.pure, if_true]
  unfold child_read
  rw [ih _ rfl rfl rfl]
  rfl

theorem exif_read_cycle : ∀ (depth : Nat) (c : exif_t), c.be = true → c.head = 6 →
    c.cur = 14 → ∀ dst, exif_read blob_cycle depth c dst = .error .nofuel := by
  intro depth
  induction depth with
  | zero => intro c _ _ _ dst; rfl
  | succ depth ih =>
    intro c hbe hh hc dst
    have e1 : get_u16 blob_cycle 14 true = .ok 1 := by decide
    rw [exif_read_succ, hc, hbe, e1]
    simp only [bind, Except.bind]
    rw [exif_read_entries_succ,
      exif_read_entry_cycle depth (exif_increase c 2) hbe hh (by simp [exif_increase, hc]) ih]
    rfl

/-- C35: `blob_cycle` has a header `exif_init` accepts, its root directory holds the
Exif pointer tag 0x8769 with the offset of that same directory, and for every bound
`depth` on the nesting the read of this payload exhausts the bound: neither
`exif_read` nor `create_exif_tags_hash` returns or raises, whatever the bound. -/
theorem exif_read_unbounded_recursion :
    exif_init blob_cycle blob_cycle.length = .ok (ctx_root 32) ∧
    entry_tag blob_cycle (entry_ctx (ctx_root 32) 0) = 0x8769 ∧
    child_ctx blob_cycle (entry_ctx (ctx_root 32) 0) tag_exif
      = { ctx_root 32 with tags := tag_exif, size := sub_size_t (ctx_root 32).size 8 } ∧
    (∀ depth dst, exif_read blob_cycle depth (ctx_root 32) dst = .error .nofuel) ∧
    (∀ depth, create_exif_tags_hash depth [blob_cycle] = .error .nofuel) := by
  have e0 : exif_init blob_cycle blob_cycle.length = .ok (ctx_root 32) := by decide
  refine ⟨e0, by decide, by decide, ?_, ?_⟩
  · intro depth dst
    exact exif_read_cycle depth (ctx_root 32) rfl rfl rfl dst
  · intro depth
    unfold create_exif_tags_hash create_exif_tags_hash_loop
    rw [if_neg (by decide), if_neg (by decide)]
    unfold create_exif_tags_hash_marker
    rw [e0]
    simp only [bind, Except.bind]
    rw [exif_read_cycle depth (ctx_root 32) rfl rfl rfl []]
    rfl

/-! ## Encoder: marker, row buffer, encoding loop -/

theorem batch_calls_done (stride : Int) (h n : Nat) (hn : h ≤ n) :
    batch_calls stride h n = [] := by
  unfold batch_calls
  rw [show (h - n + 9) / 10 = 0 by omega]
  rfl

theorem batch_calls_step (stride : Int) (h n : Nat) (hn : n < h) :
    batch_calls stride h n
      = (stride * (n : Int), min 10 (h - n)) :: batch_calls stride h (n + min 10 (h - n)) := by
  unfold batch_calls
  rcases Nat.lt_or_ge 10 (h - n) with hlt | hge
  · rw [show (h - n + 9) / 10 = (h - (n + min 10 (h - n)) + 9) / 10 + 1 by omega,
      List.range_succ_eq_map, List.map_cons, List.map_map]
    congr 1
    apply List.map_congr_left
    intro k _
    simp only [Function.comp]
    rw [show n + min 10 (h - n) + 10 * k = n + 10 * (k + 1) by omega]
  · rw [show (h - n + 9) / 10 = 1 by omega, show (h - (n + min 10 (h - n)) + 9) / 10 = 0 by omega]
    rfl

theorem do_encode_loop_calls (data : List Byte) (ptr : jpeg_encode_t) (h : Nat)
    (hh : ptr.height = (h : Int))
    (hpush : ∀ (rows : List Byte) (n : Nat), n < h → rows.length = ptr.rows.length →
      ∃ rows', push_rows { ptr with rows := rows } data (ptr.stride * (n : Int))
          (min 10 (h - n)) = .ok rows' ∧ rows'.length = rows.length) :
    ∀ (fuel n : Nat) (rows : List Byte), h - n < fuel → rows.length = ptr.rows.length →
      ∃ lines, do_encode_loop data fuel { ptr with rows := rows } n (ptr.stride * (n : Int))
        = .ok (batch_calls ptr.stride h n, lines) := by
  intro fuel
  induction fuel with
  | zero =>
    intro n rows hf _
    omega
  | succ fuel ih =>
    intro n rows hf hrows
    rw [do_encode_loop]
    by_cases hn : n < h
    · have c : ((n : Int) < ({ ptr with rows := rows } : jpeg_encode_t).height) := by
        show (n : Int) < ptr.height
        omega
      rw [if_pos c]
      have en : (if (({ ptr with rows := rows } : jpeg_encode_t).height - (n : Int)).toNat
            > UNIT_LINES then UNIT_LINES
          else (({ ptr with rows := rows } : jpeg_encode_t).height - (n : Int)).toNat)
          = min 10 (h - n) := by
        show (if (ptr.height - (n : Int)).toNat > UNIT_LINES then UNIT_LINES
          else (ptr.height - (n : Int)).toNat) = min 10 (h - n)
        rw [hh]
        unfold UNIT_LINES
        split <;> omega
      simp only [en]
      obtain ⟨rows', p1, p2⟩ := hpush rows n hn hrows
      rw [p1]
      simp only [bind, Except.bind]
      have epos : ptr.stride * (n : Int) + ptr.stride * ((min 10 (h - n) : Nat) : Int)
          = ptr.stride * ((n + min 10 (h - n) : Nat) : Int) := by
        push_cast
        ring
      obtain ⟨lines, r⟩ := ih (n + min 10 (h - n)) rows' (by omega) (by rw [p2, hrows])
      rw [epos, r, batch_calls_step ptr.stride h n hn]
      exact ⟨_, rfl⟩
    · have c : ¬ ((n : Int) < ({ ptr with rows := rows } : jpeg_encode_t).height) := by
        show ¬ ((n : Int) < ptr.height)
        omega
      rw [if_neg c, batch_calls_done ptr.stride h n (by omega)]
      exact ⟨[], rfl⟩

theorem set_encoder_context_data_size (ptr0 ptr : jpeg_encode_t) (wd ht : Int)
    (opts : encoder_opts)
    (h : set_encoder_context ptr0 wd ht opts = .ok (none, ptr)) :
    ptr.data_size = ptr.stride * ptr.height ∧
    ∃ p : jpeg_encode_t, ptr = { p with data_size := p.stride * p.height,
                                        rows := ALLOC_ROWS p.width p.components } := by
  unfold set_encoder_context at h
  split at h
  · cases h
  split at h
  · cases h
  rcases h1 : eval_encoder_pixel_format_opt { ptr0 with width := wd, height := ht }
    opts.pixel_format with ⟨o1, p1⟩
  rw [h1] at h
  cases o1 with
  | some e => cases h
  | none =>
    simp only at h
    cases h2 : eval_encoder_quality_opt p1 opts.quality with
    | error e => rw [h2] at h; cases h
    | ok r2 =>
      rw [h2] at h
      obtain ⟨o2, p2⟩ := r2
      cases o2 with
      | some e => cases h
      | none =>
        simp only [bind, Except.bind] at h
        rcases h3 : eval_encoder_dct_method_opt p2 opts.dct_method with ⟨o3, p3⟩
        rw [h3] at h
        cases o3 with
        | some e => cases h
        | none =>
          simp only at h
          cases h4 : eval_encoder_orientation_opt p3 opts.orientation with
          | error e => rw [h4] at h; cases h
          | ok r4 =>
            rw [h4] at h
            obtain ⟨o4, p4⟩ := r4
            cases o4 with
            | some e => cases h
            | none =>
              simp only at h
              cases h5 : eval_encoder_stride_opt p4 opts.stride with
              | error e => rw [h5] at h; cases h
              | ok r5 =>
                rw [h5] at h
                obtain ⟨o5, p5⟩ := r5
                cases o5 with
                | some e => cases h
                | none =>
                  simp only at h
                  injection h with h
                  injection h with _ h
                  subst h
                  exact ⟨rfl, p5, rfl⟩

/-- C33 (the code at the failing input): on the buffer `[1,2,3,4]` of two 2-byte
elements `do_upside_down16` returns `[3,4,1,0]`: the element moved through the
`uint8_t` temporary keeps its first byte only. `do_flip_horizon` on the same row gives
the elements exchanged with both bytes intact, `[3,4,1,2]`, as `do_transpose` does on a
2 x 2 image; the 1-byte `do_upside_down` reverses `[1,2]` to `[2,1]`. -/
theorem do_upside_down16_truncates :
    do_upside_down [1, 2, 3, 4] 2 1 2 = .ok [3, 4, 1, 0] ∧
    do_upside_down [1, 2, 3, 4] 2 1 2 ≠ .ok [3, 4, 1, 2] ∧
    do_flip_horizon [1, 2, 3, 4] 2 1 2 = .ok [3, 4, 1, 2] ∧
    do_transpose [1, 2, 3, 4, 5, 6, 7, 8] 2 2 2 (List.replicate 8 0)
      = .ok [1, 2, 5, 6, 3, 4, 7, 8] ∧
    do_upside_down [1, 2] 2 1 1 = .ok [2, 1] := by
  decide

/-- C36: for every orientation `o` in 1..8 the payload of `put_exif_tags` has 32
bytes and a header `exif_init` and the resolver accept (big-endian, magic 0x002A, first
directory at offset 8), and `pick_exif_orientation` on the marker list holding it
returns `o - 1` without any read outside the payload. -/
theorem put_exif_tags_round_trip (o : Int) (h1 : 1 ≤ o) (h8 : o ≤ 8) :
    (put_exif_tags o).length = 32 ∧
    valid_header (put_exif_tags o) true 8 ∧
    exif_init (put_exif_tags o) (put_exif_tags o).length = .ok (ctx_root 32) ∧
    is_orientation_entry (put_exif_tags o) true 16 ∧
    pick_exif_orientation [put_exif_tags o] = .ok (o - 1) ∧
    (∀ i, pick_exif_orientation [put_exif_tags o] ≠ .error (.oob i)) := by
  have ho : o = 1 ∨ o = 2 ∨ o = 3 ∨ o = 4 ∨ o = 5 ∨ o = 6 ∨ o = 7 ∨ o = 8 := by omega
  have key : ∀ v : Int, pick_exif_orientation [put_exif_tags v] = .ok (v - 1) →
      ∀ i, pick_exif_orientation [put_exif_tags v] ≠ .error (.oob i) := by
    intro v hv i hi
    rw [hv] at hi
    cases hi
  rcases ho with h | h | h | h | h | h | h | h <;> subst h <;>
    exact ⟨rfl, by decide, by decide, by decide, by decide, key _ (by decide)⟩

/-- Witness for C36 at orientation 6. -/
theorem put_exif_tags_round_trip_witness :
    pick_exif_orientation [put_exif_tags 6] = .ok 5 :=
  (put_exif_tags_round_trip 6 (by decide) (by decide)).2.2.2.2.1

/-- C39 (the code at the failing input): an encoder of width 1 and height 10 with no
option has layout 4:2:2, stride 3, `data_size` 30 and a row buffer of 30 bytes. On an
input of 30 bytes `push_rows_yuv422` with `nrow = 10` writes 6 bytes per row and
leaves the row buffer at offset 30 (row 5), and so does the encoding run; a single row
of width 1 gets 6 bytes written (not 3) and 4 bytes read (not 2): with 3 bytes of
input the read at offset 3 is outside the input. -/
theorem push_rows_yuv422_odd_width_overflow :
    (set_encoder_context (encoder_ctx 0 0) 1 10 opts_default).map
        (fun r => (r.1, r.2.format, r.2.stride, r.2.data_size, r.2.rows.length))
      = .ok (none, FMT_YUV422, 3, 30, 30) ∧
    (ALLOC_ROWS 1 3).length = 1 * 3 * 10 ∧
    push_rows_yuv422 (ALLOC_ROWS 1 3) 1 3 (List.replicate 30 7) 0 10 = .error (.oob 30) ∧
    (set_encoder_context (encoder_ctx 0 0) 1 10 opts_default).bind
        (fun r => rb_encoder_encode r.2 (List.replicate 30 7))
      = .error (.oob 30) ∧
    push_rows_yuv422 (ALLOC_ROWS 1 3) 1 3 [1, 2, 3, 4] 0 1
      = .ok ([1, 2, 4, 3, 2, 4] ++ List.replicate 24 0) ∧
    push_rows_yuv422 (ALLOC_ROWS 1 3) 1 3 [1, 2, 3] 0 1 = .error (.oob 3) := by
  decide

theorem encoder_gray_push (data : List Byte) (hdata : data.length = 24) (rows : List Byte)
    (n : Nat) (hn : n < 12) (hrows : rows.length = encoder_gray_1x12.rows.length) :
    ∃ rows', push_rows { encoder_gray_1x12 with rows := rows } data
        (encoder_gray_1x12.stride * (n : Int)) (min 10 (12 - n)) = .ok rows' ∧
      rows'.length = rows.length := by
  have hl : encoder_gray_1x12.rows.length = 10 := rfl
  obtain ⟨out, r1, r2, _⟩ := copy_rows_spec data rows 1 2 (2 * n) (min 10 (12 - n))
    (by omega) (by intro i hi; omega)
  refine ⟨out, ?_, r2⟩
  rw [← r1]
  show push_rows_grayscale rows 1 ((2 : Int)) data ((2 : Int) * (n : Int))
    (min 10 (12 - n)) = _
  unfold push_rows_grayscale
  rw [show (2 : Int) * (n : Int) = ((2 * n : Nat) : Int) by push_cast; rfl]
  rfl

/-- C40: for an encoder context `ptr` made by a successful `set_encoder_context`, with
height `h`: `data_size` is `stride * height`; an input shorter than that raises "image
data is too short", a longer one "image data is too large", and an input of exactly
that length passes on to `do_encode`, so a run can return only for that length. When
each conversion of a batch returns, the run returns and its calls of `push_rows` are
batch `k = 0, 1, ...` with `nrow = min 10 (h - 10 k)` rows at offset
`stride * 10 k`; row `r < h` is row `r % 10` of batch `r / 10`, at offset `stride * r`. -/
theorem rb_encoder_encode_spec (ptr0 ptr : jpeg_encode_t) (wd ht : Int)
    (opts : encoder_opts) (data : List Byte) (h : Nat)
    (hset : set_encoder_context ptr0 wd ht opts = .ok (none, ptr))
    (hh : ptr.height = (h : Int)) :
    ptr.data_size = ptr.stride * (h : Int) ∧
    ((data.length : Int) < ptr.stride * (h : Int) →
      rb_encoder_encode ptr data = .error (.raise .rb_eArgError "image data is too short")) ∧
    ((data.length : Int) > ptr.stride * (h : Int) →
      rb_encoder_encode ptr data = .error (.raise .rb_eArgError "image data is too large")) ∧
    ((data.length : Int) = ptr.stride * (h : Int) →
      rb_encoder_encode ptr data = do_encode ptr data) ∧
    ((∃ out, rb_encoder_encode ptr data = .ok out) →
      (data.length : Int) = ptr.stride * (h : Int)) ∧
    ((data.length : Int) = ptr.stride * (h : Int) →
      (∀ (rows : List Byte) (n : Nat), n < h → rows.length = ptr.rows.length →
        ∃ rows', push_rows { ptr with rows := rows } data (ptr.stride * (n : Int))
            (min 10 (h - n)) = .ok rows' ∧ rows'.length = rows.length) →
      ∃ out, rb_encoder_encode ptr data = .ok out ∧
        out.calls = batch_calls ptr.stride h 0) ∧
    (batch_calls ptr.stride h 0).length = (h + 9) / 10 ∧
    (∀ k, k < (h + 9) / 10 →
      (batch_calls ptr.stride h 0)[k]?
        = some (ptr.stride * ((10 * k : Nat) : Int), min 10 (h - 10 * k))) ∧
    (∀ r, r < h →
      r / 10 < (h + 9) / 10 ∧ r % 10 < min 10 (h - 10 * (r / 10)) ∧
      ptr.stride * ((10 * (r / 10) : Nat) : Int) + ptr.stride * ((r % 10 : Nat) : Int)
        = ptr.stride * (r : Int)) := by
  have hsz : ptr.data_size = ptr.stride * (h : Int) := by
    rw [(set_encoder_context_data_size ptr0 ptr wd ht opts hset).1, hh]
  have hshort : (data.length : Int) < ptr.stride * (h : Int) →
      rb_encoder_encode ptr data
        = .error (.raise .rb_eArgError "image data is too short") := by
    intro hl
    unfold rb_encoder_encode
    rw [hsz, if_pos hl]
    rfl
  have hlarge : (data.length : Int) > ptr.stride * (h : Int) →
      rb_encoder_encode ptr data
        = .error (.raise .rb_eArgError "image data is too large") := by
    intro hl
    unfold rb_encoder_encode
    rw [hsz, if_neg (by omega), if_pos hl]
    rfl
  have hexact : (data.length : Int) = ptr.stride * (h : Int) →
      rb_encoder_encode ptr data = do_encode ptr data := by
    intro hl
    unfold rb_encoder_encode
    rw [hsz, if_neg (by omega), if_neg (by omega)]
  refine ⟨hsz, hshort, hlarge, hexact, ?_, ?_, ?_, ?_, ?_⟩
  · rintro ⟨out, hout⟩
    rcases Int.lt_trichotomy (data.length : Int) (ptr.stride * (h : Int)) with c | c | c
    · rw [hshort c] at hout; cases hout
    · exact c
    · rw [hlarge c] at hout; cases hout
  · intro hl hpush
    obtain ⟨lines, r⟩ := do_encode_loop_calls data ptr h hh hpush (ptr.height.toNat + 1) 0
      ptr.rows (by rw [hh]; simp) rfl
    rw [hexact hl]
    unfold do_encode
    have e : ptr.stride * ((0 : Nat) : Int) = 0 := by simp
    rw [e] at r
    have e2 : ({ ptr with rows := ptr.rows } : jpeg_encode_t) = ptr := rfl
    rw [e2] at r
    simp only [bind, Except.bind]
    rw [show ((0 : Nat)) = 0 from rfl] at r
    rw [r]
    exact ⟨_, rfl, rfl⟩
  · unfold batch_calls
    simp
  · intro k hk
    unfold batch_calls
    rw [List.getElem?_map, List.getElem?_range (by simpa using hk)]
    simp
  · intro r hr
    refine ⟨by omega, by omega, ?_⟩
    rw [← Int.mul_add]
    congr 1
    omega

/-- Witness for C40: a grayscale encoder of width 1, height 12 and stride 2 on an input
of 24 bytes makes the two batches of 10 and 2 rows at offsets 0 and 20. -/
theorem rb_encoder_encode_spec_witness :
    set_encoder_context (encoder_ctx 0 0) 1 12
        { opts_default with pixel_format := .symbol "GRAYSCALE", stride := .fixnum 2 }
      = .ok (none, encoder_gray_1x12) ∧
    batch_calls encoder_gray_1x12.stride 12 0 = [(0, 10), (20, 2)] ∧
    ∃ out, rb_encoder_encode encoder_gray_1x12 (List.replicate 24 7) = .ok out ∧
      out.calls = batch_calls encoder_gray_1x12.stride 12 0 :=
  ⟨by decide, by decide,
   (rb_encoder_encode_spec (encoder_ctx 0 0) encoder_gray_1x12 1 12
      { opts_default with pixel_format := .symbol "GRAYSCALE", stride := .fixnum 2 }
      (List.replicate 24 7) 12 (by decide) rfl).2.2.2.2.2.1 (by decide)
      (fun rows n hn hrows => encoder_gray_push (List.replicate 24 7) rfl rows n hn hrows)⟩

/-! ## Decoder options and metadata -/

theorem dither_of_array_fixnum (m p2 : RVal) (n : Int) (mode : J_DITHER_MODE) (quant : Bool)
    (hm : dither_mode_of m = .ok (mode, quant)) :
    dither_of_array [m, p2, .fixnum n]
      = if n < 8 then .ok (.error (create_range_error "number of colors less than 0"))
        else if n > 256 then
          .ok (.error (create_range_error "number of colors greater than 256"))
        else (FIX2INT n).bind (fun ncol => .ok (.ok (mode, quant, RTEST p2, ncol))) := by
  unfold dither_of_array
  rw [if_neg (by simp)]
  have e0 : rb_ary_entry [m, p2, .fixnum n] 0 = m := rfl
  have e1 : rb_ary_entry [m, p2, .fixnum n] 1 = p2 := rfl
  have e2 : rb_ary_entry [m, p2, .fixnum n] 2 = .fixnum n := rfl
  rw [e0, e1, e2, hm]
  rfl

/-- C31: for a 3-element `:dither` array whose first element is a string or symbol
naming a mode (`NONE`, `ORDERED`, `FS`) and whose third element is the Fixnum `n`,
`eval_decoder_dither_opt` returns `Qnil` exactly when `8 ≤ n ≤ 256`, and then stores
the mode, the quantize flag of the mode, the two-pass flag `RTEST` of the second
element and `n` (setting `F_DITHER` for a mode other than `NONE`); for `n < 8` and for
`n > 256` it returns a `RangeError` object and the context is unchanged. -/
theorem eval_decoder_dither_opt_spec (ptr : jpeg_decode_t) (m p2 : RVal) (n : Int)
    (mode : J_DITHER_MODE) (quant : Bool) (hm : dither_mode_of m = .ok (mode, quant)) :
    (8 ≤ n → n ≤ 256 →
      eval_decoder_dither_opt ptr (.ary [m, p2, .fixnum n])
        = .ok (none,
            if mode ≠ .JDITHER_NONE then
              SET_FLAG { ptr with dither_mode := mode, quantize_colors := quant,
                                  two_pass_quantize := RTEST p2,
                                  desired_number_of_colors := n } F_DITHER
            else { ptr with dither_mode := mode, quantize_colors := quant,
                            two_pass_quantize := RTEST p2,
                            desired_number_of_colors := n })) ∧
    (n < 8 →
      eval_decoder_dither_opt ptr (.ary [m, p2, .fixnum n])
        = .ok (some (create_range_error "number of colors less than 0"), ptr)) ∧
    (256 < n →
      eval_decoder_dither_opt ptr (.ary [m, p2, .fixnum n])
        = .ok (some (create_range_error "number of colors greater than 256"), ptr)) ∧
    ((∃ p, eval_decoder_dither_opt ptr (.ary [m, p2, .fixnum n]) = .ok (none, p))
      ↔ 8 ≤ n ∧ n ≤ 256) ∧
    (dither_mode_of (.string "NONE") = .ok (.JDITHER_NONE, false) ∧
      dither_mode_of (.symbol "NONE") = .ok (.JDITHER_NONE, false) ∧
      dither_mode_of (.string "ORDERED") = .ok (.JDITHER_ORDERED, true) ∧
      dither_mode_of (.symbol "ORDERED") = .ok (.JDITHER_ORDERED, true) ∧
      dither_mode_of (.string "FS") = .ok (.JDITHER_FS, true) ∧
      dither_mode_of (.symbol "FS") = .ok (.JDITHER_FS, true)) := by
  have key := dither_of_array_fixnum m p2 n mode quant hm
  have h1 : 8 ≤ n → n ≤ 256 →
      eval_decoder_dither_opt ptr (.ary [m, p2, .fixnum n])
        = .ok (none,
            if mode ≠ .JDITHER_NONE then
              SET_FLAG { ptr with dither_mode := mode, quantize_colors := quant,
                                  two_pass_quantize := RTEST p2,
                                  desired_number_of_colors := n } F_DITHER
            else { ptr with dither_mode := mode, quantize_colors := quant,
                            two_pass_quantize := RTEST p2,
                            desired_number_of_colors := n }) := by
    intro h8 h256
    rw [if_neg (by omega), if_neg (by omega)] at key
    unfold FIX2INT at key
    rw [if_neg (by omega), if_neg (by omega)] at key
    unfold eval_decoder_dither_opt
    simp only [key, bind, Except.bind, pure, Except.pure]
    split <;> rfl
  have h2 : n < 8 →
      eval_decoder_dither_opt ptr (.ary [m, p2, .fixnum n])
        = .ok (some (create_range_error "number of colors less than 0"), ptr) := by
    intro h
    rw [if_pos h] at key
    unfold eval_decoder_dither_opt
    simp only [key, bind, Except.bind, pure, Except.pure]
  have h3 : 256 < n →
      eval_decoder_dither_opt ptr (.ary [m, p2, .fixnum n])
        = .ok (some (create_range_error "number of colors greater than 256"), ptr) := by
    intro h
    rw [if_neg (by omega), if_pos h] at key
    unfold eval_decoder_dither_opt
    simp only [key, bind, Except.bind, pure, Except.pure]
  refine ⟨h1, h2, h3, ⟨?_, fun h => ⟨_, h1 h.1 h.2⟩⟩, by decide⟩
  rintro ⟨p, hp⟩
  by_cases c1 : n < 8
  · rw [h2 c1] at hp; cases hp
  · by_cases c2 : 256 < n
    · rw [h3 c2] at hp; cases hp
    · omega

/-- Witness for C31: `["FS", true, 256]`. -/
theorem eval_decoder_dither_opt_spec_witness :
    dither_mode_of (.string "FS") = .ok (.JDITHER_FS, true) ∧
    eval_decoder_dither_opt decoder_ctx (.ary [.string "FS", .Qtrue, .fixnum 256])
      = .ok (none,
          SET_FLAG { decoder_ctx with dither_mode := .JDITHER_FS, quantize_colors := true,
                                      two_pass_quantize := true,
                                      desired_number_of_colors := 256 } F_DITHER) :=
  ⟨rfl, (eval_decoder_dither_opt_spec decoder_ctx (.string "FS") .Qtrue 256 .JDITHER_FS true
    rfl).1 (by decide) (by decide)⟩

/-- C37 (the code at the failing input): a decoder initialised with dither
`["FS", false, 16]` has `F_DITHER` set; a later `set_decoder_context` with dither
`["NONE", false, 16]`, or with no option at all, succeeds and stores the mode `NONE`,
and `F_DITHER` is still set. The flag `F_EXPAND_COLORMAP`, whose evaluator has the
`CLR_FLAG` branch, is cleared by the same reconfiguration. -/
theorem dither_flag_not_cleared :
    (set_decoder_context decoder_ctx
        { decoder_opts_none with dither := .ary [.string "FS", .Qfalse, .fixnum 16],
                                 expand_colormap := .Qtrue }).map
        (fun r => (r.1, TEST_FLAG r.2 F_DITHER, TEST_FLAG r.2 F_EXPAND_COLORMAP, r.2.dither_mode))
      = .ok (none, true, true, .JDITHER_FS) ∧
    ((set_decoder_context decoder_ctx
        { decoder_opts_none with dither := .ary [.string "FS", .Qfalse, .fixnum 16],
                                 expand_colormap := .Qtrue }).bind
      (fun r => set_decoder_context r.2
        { decoder_opts_none with dither := .ary [.string "NONE", .Qfalse, .fixnum 16] })).map
        (fun r => (r.1, TEST_FLAG r.2 F_DITHER, TEST_FLAG r.2 F_EXPAND_COLORMAP, r.2.dither_mode))
      = .ok (none, true, false, .JDITHER_NONE) ∧
    ((set_decoder_context decoder_ctx
        { decoder_opts_none with dither := .ary [.string "FS", .Qfalse, .fixnum 16],
                                 expand_colormap := .Qtrue }).bind
      (fun r => set_decoder_context r.2 decoder_opts_none)).map
        (fun r => (r.1, TEST_FLAG r.2 F_DITHER, TEST_FLAG r.2 F_EXPAND_COLORMAP, r.2.dither_mode))
      = .ok (none, true, false, .JDITHER_NONE) := by
  decide

/-- C38 (the code at the failing input): for a decoder with the orientation option, a
3 x 2 output of one component and the orientation value 5 (code 6, transpose and
flip), `create_meta` reports width 2, height 3 and stride 3, not 2 x 1 = 2, while the
image `apply_orientation` returns has three rows of two bytes; with three components
the report is width 2 and stride 9. Without transpose (value 1) the report is width 3
and stride 3. -/
theorem create_meta_stride_not_swapped :
    (set_decoder_context decoder_ctx { decoder_opts_none with orientation := .Qtrue }).map
        (fun r => create_meta { r.2 with orientation_value := 5 }
          { output_width := 3, output_height := 2, output_components := 1,
            out_color_components := 1 })
      = .ok { width := 2, stride := 3, height := 3, num_components := 1 } ∧
    apply_orientation 5 3 2 1 [1, 2, 3, 4, 5, 6] (List.replicate 6 0)
      = .ok [4, 1, 5, 2, 6, 3] ∧
    (set_decoder_context decoder_ctx { decoder_opts_none with orientation := .Qtrue }).map
        (fun r => create_meta { r.2 with orientation_value := 5 }
          { output_width := 3, output_height := 2, output_components := 3,
            out_color_components := 3 })
      = .ok { width := 2, stride := 9, height := 3, num_components := 3 } ∧
    (set_decoder_context decoder_ctx { decoder_opts_none with orientation := .Qtrue }).map
        (fun r => create_meta { r.2 with orientation_value := 1 }
          { output_width := 3, output_height := 2, output_components := 1,
            out_color_components := 1 })
      = .ok { width := 3, stride := 3, height := 2, num_components := 1 } := by
  decide

end Jpeg
